import Mathlib

/-!
# Screen-share signaling handler (`internal/handler/screen_share.go`)

A shallow embedding of `ScreenShareHandler` and of the `webrtcService` it drives
(`internal/service/webrtc_service.go`).

* Go maps are association lists keyed by `UUID`; `m[k] = v` is `mapInsert`,
  `delete(m, k)` is `mapDelete`, `v, ok := m[k]` is `mapLookup`.
* The pion transport engine, the capture devices, `uuid.New` and `uuid.Parse`
  are external collaborators.  Their answers are inputs of the model
  (`Engine`, `OfferEnv`, the `Parse` argument); every call the handler makes on
  them is recorded when it returns, together with its outcome, in a list of
  `Call`s, the way a recording test double would (so a call made inside
  another one comes before it).
* One handler invocation is one pure function from the state before the call
  to the state after it, the calls made and the HTTP response written.
* pion reports the state `closed` of a peer connection to the handler that the
  service installed on it with `OnConnectionStateChange` whenever `Close` is
  called on it; the state of the service therefore records, next to its map,
  the id that each installed handler captured, and `withStateCallbacks` runs
  the handlers that the `Close` calls of a handler invocation set off.
* The handler sees its capture sources through their interfaces, so its runs
  record `StartCapture` and `StopCapture` as calls; the screen capture service
  behind the interface (`internal/service/screen_capture.go`) is embedded
  separately, and `withScreenCapture` carries out the recorded `StopCapture`
  calls on it.
-/

namespace Vibeemeet

/-! ## Data model -/

/-- Value of `uuid.UUID`. -/
abbrev UUID := Nat

/-- Identity of a live `*webrtc.PeerConnection` object. -/
abbrev PeerConnection := Nat

/-- Value of `webrtc.ICECandidateInit` (only its identity matters here). -/
abbrev ICECandidateInit := String

/-- Kind of a media track. -/
inductive TrackKind where
  | video
  | audio
deriving DecidableEq, Repr

/-- One `mediadevices.Track`. -/
structure Track where
  id : Nat
  kind : TrackKind
deriving DecidableEq, Repr

/-- One non-nil `mediadevices.MediaStream`; a nil stream is `none`. -/
structure MediaStream where
  tracks : List Track
deriving DecidableEq, Repr

/-- Method `GetTracks` of a stream. -/
def MediaStream.GetTracks (st : MediaStream) : List Track := st.tracks

/-- Method `GetVideoTracks` of a stream. -/
def MediaStream.GetVideoTracks (st : MediaStream) : List Track :=
  st.tracks.filter (fun t => t.kind = TrackKind.video)

/-- Method `GetAudioTracks` of a stream. -/
def MediaStream.GetAudioTracks (st : MediaStream) : List Track :=
  st.tracks.filter (fun t => t.kind = TrackKind.audio)

/-- The two values of `webrtc.SDPType` the handler produces. -/
inductive SDPType where
  | SDPTypeOffer
  | SDPTypeAnswer
deriving DecidableEq, Repr

/-- Value of `webrtc.SessionDescription`. -/
structure SessionDescription where
  typ : SDPType
  SDP : String
deriving DecidableEq, Repr

/-- JSON body of an offer, `OfferRequest`. -/
structure OfferRequest where
  SDP : String
  typ : String
deriving DecidableEq, Repr

/-- Body written with `c.JSON`. -/
inductive Body where
  | error (msg : String)
  | answer (SDP : String) (typ : String)
  | status (s : String)
  | candidates (cs : List ICECandidateInit)
deriving DecidableEq, Repr

/-- What a handler writes: status code, the `X-Peer-Connection-ID` header when
it is set, and the JSON body. -/
structure Response where
  code : Nat
  peerConnectionID : Option UUID
  body : Body
deriving DecidableEq, Repr

/-- Steps of `HandleOffer`, in the order in which its code goes through them. -/
inductive Step where
  | capture
  | createSession
  | register
  | installCallback
  | attachTracks
  | remoteDescription
  | createAnswer
  | localDescription
deriving DecidableEq, Repr

/-- Position of a step in the mandated order. -/
def Step.rank : Step → Nat
  | Step.capture => 0
  | Step.createSession => 1
  | Step.register => 2
  | Step.installCallback => 3
  | Step.attachTracks => 4
  | Step.remoteDescription => 5
  | Step.createAnswer => 6
  | Step.localDescription => 7

/-- A call made by the handler (or by the service on its behalf), with the
error it returned (`none` when it succeeded). -/
inductive Call where
  | screenStartCapture (err : Option String)
  | audioStartCapture (err : Option String)
  | screenStopCapture
  | audioStopCapture
  | trackClose (t : Track)
  | CreatePeerConnection (screen : MediaStream) (audio : Option MediaStream) (err : Option String)
  | OnConnectionStateChange (pc : PeerConnection)
  | registryInsert (id : UUID) (pc : PeerConnection)
  | OnICECandidate (pc : PeerConnection) (id : UUID)
  | AddTracksToPeerConnection (pc : PeerConnection) (screen : MediaStream)
      (audio : Option MediaStream) (err : Option String)
  | AddTransceiverFromTrack (pc : PeerConnection) (t : Track) (err : Option String)
  | SetRemoteDescription (pc : PeerConnection) (d : SessionDescription) (err : Option String)
  | CreateAnswer (pc : PeerConnection) (err : Option String)
  | SetLocalDescription (pc : PeerConnection) (d : SessionDescription) (err : Option String)
  | LocalDescription (pc : PeerConnection)
  | AddICECandidate (pc : PeerConnection) (c : ICECandidateInit) (err : Option String)
  | deletePeerConnection (id : UUID)
  | deleteCandidates (id : UUID)
  | Close (pc : PeerConnection) (err : Option String)
deriving DecidableEq, Repr

/-- The negotiation step a call belongs to; the calls that release resources
belong to none. -/
def Call.step : Call → Option Step
  | Call.screenStartCapture _ => some Step.capture
  | Call.audioStartCapture _ => some Step.capture
  | Call.CreatePeerConnection _ _ _ => some Step.createSession
  | Call.OnConnectionStateChange _ => some Step.createSession
  | Call.registryInsert _ _ => some Step.register
  | Call.OnICECandidate _ _ => some Step.installCallback
  | Call.AddTracksToPeerConnection _ _ _ _ => some Step.attachTracks
  | Call.AddTransceiverFromTrack _ _ _ => some Step.attachTracks
  | Call.SetRemoteDescription _ _ _ => some Step.remoteDescription
  | Call.CreateAnswer _ _ => some Step.createAnswer
  | Call.SetLocalDescription _ _ _ => some Step.localDescription
  | Call.LocalDescription _ => some Step.localDescription
  | _ => none

/-- The error with which a step of the negotiation failed: the error returned
by the call that carries the outcome of its step.  The two failures the code
recovers from locally (the separate audio capture, one audio transceiver) do
not fail a step. -/
def Call.stepError : Call → Option String
  | Call.screenStartCapture e => e
  | Call.CreatePeerConnection _ _ e => e
  | Call.AddTracksToPeerConnection _ _ _ e => e
  | Call.SetRemoteDescription _ _ e => e
  | Call.CreateAnswer _ e => e
  | Call.SetLocalDescription _ _ e => e
  | _ => none

/-- Position of a call in the mandated order; the releasing calls come last. -/
def Call.rank (c : Call) : Nat :=
  match c.step with
  | some st => st.rank
  | none => 8

/-- The step at which a run failed: the step of the first call that returned a
step error, if there is one. -/
def failedStep (calls : List Call) : Option Step :=
  (calls.find? (fun c => c.stepError.isSome)).bind Call.step

/-! ## Go maps -/

/-- Lookup `v, ok := m[k]`. -/
def mapLookup {V : Type} : List (UUID × V) → UUID → Option V
  | [], _ => none
  | (k1, v1) :: m, k => if k1 = k then some v1 else mapLookup m k

/-- Assignment `m[k] = v`: overwrites the entry of `k` when there is one. -/
def mapInsert {V : Type} : List (UUID × V) → UUID → V → List (UUID × V)
  | [], k, v => [(k, v)]
  | (k1, v1) :: m, k, v => if k1 = k then (k, v) :: m else (k1, v1) :: mapInsert m k v

/-- Removal `delete(m, k)`. -/
def mapDelete {V : Type} (m : List (UUID × V)) (k : UUID) : List (UUID × V) :=
  m.filter (fun e => decide (e.1 ≠ k))

/-- Keys of a map. -/
def mapKeys {V : Type} (m : List (UUID × V)) : List UUID := m.map Prod.fst

/-! ## External collaborators -/

/-- Behaviour of the pion transport engine on the peer connections it created. -/
structure Engine where
  AddTransceiverFromTrack : PeerConnection → Track → Option String
  SetRemoteDescription : PeerConnection → SessionDescription → Option String
  CreateAnswer : PeerConnection → Except String SessionDescription
  SetLocalDescription : PeerConnection → SessionDescription → Option String
  LocalDescription : PeerConnection → Option SessionDescription
  AddICECandidate : PeerConnection → ICECandidateInit → Option String
  Close : PeerConnection → Option String

/-- What the collaborators answer during one `HandleOffer` call: the two
capture sources, `webrtc.NewPeerConnection`, and the two `uuid.New()` calls
(one in the service, one in the handler). -/
structure OfferEnv where
  screenStartCapture : Except String MediaStream
  audioStartCapture : Except String MediaStream
  NewPeerConnection : Except String PeerConnection
  serviceUUID : UUID
  handlerUUID : UUID

/-! ## State -/

/-- The mutable fields of `ScreenShareHandler`. -/
structure ScreenShareHandler where
  peerConnections : List (UUID × PeerConnection)
  iceCandidates : List (UUID × List ICECandidateInit)
deriving DecidableEq, Repr

/-- The mutable state of `webrtcService`: its map `peerConnections`, and the
closures it has installed with `OnConnectionStateChange`, each given as the
peer connection it is installed on and the `peerConnectionID` it captured
(pion keeps the closure in the peer connection object, which has one such
handler at a time; the latest installed comes first). -/
structure webrtcService where
  peerConnections : List (UUID × PeerConnection)
  stateCallbacks : List (PeerConnection × UUID)
deriving DecidableEq, Repr

/-- Outcome of one handler invocation. -/
structure Result where
  h : ScreenShareHandler
  s : webrtcService
  calls : List Call
  resp : Response
deriving DecidableEq, Repr

/-! ## `webrtc_service.go` -/

/-- The values of `webrtc.PeerConnectionState`. -/
inductive PeerConnectionState where
  | PeerConnectionStateUnknown
  | PeerConnectionStateNew
  | PeerConnectionStateConnecting
  | PeerConnectionStateConnected
  | PeerConnectionStateDisconnected
  | PeerConnectionStateFailed
  | PeerConnectionStateClosed
deriving DecidableEq, Repr

/-- The callback that `webrtcService.CreatePeerConnection` installs with
`OnConnectionStateChange`, for the peer connection it stored under
`peerConnectionID` in its own map. -/
def webrtcService.onConnectionStateChange (s : webrtcService) (peerConnectionID : UUID)
    (state : PeerConnectionState) : webrtcService :=
  if state = PeerConnectionState.PeerConnectionStateClosed ∨
      state = PeerConnectionState.PeerConnectionStateFailed then
    { s with peerConnections := mapDelete s.peerConnections peerConnectionID }
  else s

/-- What a call of `Close` on a peer connection does to the service, besides
returning its error.  pion moves the connection to the state `closed` and
reports it to the handler installed on it with `OnConnectionStateChange`,
whether or not closing its transports failed; a closed connection reports no
further state, so its handler is dropped.  pion runs the handler on a
goroutine of its own: this is the service once that goroutine has run. -/
def webrtcService.peerConnectionClosed (s : webrtcService) (pc : PeerConnection) :
    webrtcService :=
  match s.stateCallbacks.lookup pc with
  | some peerConnectionID =>
    { (s.onConnectionStateChange peerConnectionID
        PeerConnectionState.PeerConnectionStateClosed) with
      stateCallbacks := s.stateCallbacks.filter (fun e => decide (e.1 ≠ pc)) }
  | none => s

/-- The service once pion has reacted to the calls of a run: every `Close` in
it, failed or not, is followed by the connection-state handler of that peer
connection. -/
def withStateCallbacks (s : webrtcService) : List Call → webrtcService
  | [] => s
  | Call.Close pc _ :: cs => withStateCallbacks (s.peerConnectionClosed pc) cs
  | _ :: cs => withStateCallbacks s cs

/-- Method `webrtcService.CreatePeerConnection`: the new peer connection is
stored under the id of `uuid.New()`, and the closure installed on it with
`OnConnectionStateChange` captures that id. -/
def webrtcService.CreatePeerConnection (s : webrtcService) (env : OfferEnv) :
    webrtcService × Except String PeerConnection × List Call :=
  match env.NewPeerConnection with
  | Except.error e => (s, Except.error e, [])
  | Except.ok pc =>
    ({ peerConnections := mapInsert s.peerConnections env.serviceUUID pc,
       stateCallbacks := (pc, env.serviceUUID) :: s.stateCallbacks },
      Except.ok pc, [Call.OnConnectionStateChange pc])

/-- The loop over `videoTracks` of `AddTracksToPeerConnection`: the first
failure is returned at once. -/
def addVideoTracks (eng : Engine) (pc : PeerConnection) : List Track → Option String × List Call
  | [] => (none, [])
  | t :: ts =>
    match eng.AddTransceiverFromTrack pc t with
    | some e => (some e, [Call.AddTransceiverFromTrack pc t (some e)])
    | none =>
      let r := addVideoTracks eng pc ts
      (r.1, Call.AddTransceiverFromTrack pc t none :: r.2)

/-- The loop over `audioTracks` of `AddTracksToPeerConnection`: a failure is
logged and the loop goes on. -/
def addAudioTracks (eng : Engine) (pc : PeerConnection) (ts : List Track) : List Call :=
  ts.map (fun t => Call.AddTransceiverFromTrack pc t (eng.AddTransceiverFromTrack pc t))

/-- Method `webrtcService.AddTracksToPeerConnection`: its error and the calls
it makes on the peer connection. -/
def AddTracksToPeerConnection (eng : Engine) (pc : PeerConnection) (screenStream : MediaStream)
    (audioStream : Option MediaStream) : Option String × List Call :=
  let videoTracks := screenStream.GetVideoTracks
  if videoTracks.length = 0 then
    (some "no video tracks in screen stream", [])
  else
    match addVideoTracks eng pc videoTracks with
    | (some e, cs) => (some e, cs)
    | (none, cs) =>
      match audioStream with
      | some a => (none, cs ++ addAudioTracks eng pc a.GetAudioTracks)
      | none => (none, cs)

/-- Method `webrtcService.ClosePeerConnection`.  Its `peerConnection.Close()`
makes pion run the connection-state handler of that peer connection, on the
early return for a failed `Close` as well as after the `delete` that follows
a successful one. -/
def webrtcService.ClosePeerConnection (eng : Engine) (s : webrtcService) (peerConnectionID : UUID) :
    webrtcService × Option String × List Call :=
  match mapLookup s.peerConnections peerConnectionID with
  | none => (s, some "peer connection not found", [])
  | some pc =>
    match eng.Close pc with
    | some e => (s.peerConnectionClosed pc, some e, [Call.Close pc (some e)])
    | none =>
      (webrtcService.peerConnectionClosed
          { s with peerConnections := mapDelete s.peerConnections peerConnectionID } pc,
        none, [Call.Close pc none])

/-! ## `screen_share.go` -/

/-- The loop `for _, track := range stream.GetTracks() { track.Close() }`. -/
def closeTracks (st : MediaStream) : List Call :=
  st.GetTracks.map Call.trackClose

/-- The same loop behind its `stream != nil` test. -/
def closeTracksOpt : Option MediaStream → List Call
  | some st => closeTracks st
  | none => []

/-- Method `ScreenShareHandler.cleanup`: the handler after it and the calls it
makes.  Every value stored in `peerConnections` is a non-nil pointer, so
`exists && peerConnection != nil` is `exists`.  Its `peerConnection.Close()`
reaches the service through the connection-state handler that the service
installed on that peer connection: the handlers that call `cleanup` pass its
calls to `withStateCallbacks`. -/
def cleanup (eng : Engine) (h : ScreenShareHandler) (peerConnectionID : UUID)
    (screenStream audioStream : Option MediaStream) : ScreenShareHandler × List Call :=
  let found := mapLookup h.peerConnections peerConnectionID
  let h1 : ScreenShareHandler :=
    { peerConnections :=
        match found with
        | some _ => mapDelete h.peerConnections peerConnectionID
        | none => h.peerConnections
      iceCandidates := mapDelete h.iceCandidates peerConnectionID }
  let registryCalls :=
    (match found with
      | some _ => [Call.deletePeerConnection peerConnectionID]
      | none => []) ++ [Call.deleteCandidates peerConnectionID]
  let closeCalls :=
    match found with
    | some pc => [Call.Close pc (eng.Close pc)]
    | none => []
  let stopAudio :=
    match audioStream with
    | some _ => [Call.audioStopCapture]
    | none => []
  (h1, registryCalls ++ closeCalls ++ closeTracksOpt screenStream ++ closeTracksOpt audioStream
    ++ [Call.screenStopCapture] ++ stopAudio)

/-- Binding `c.ShouldBindJSON(&req)`: the body fails to decode (`error`), or a
field tagged `binding:"required"` is empty.  The wording of the validation
error is the binding library's; only its being an error matters here. -/
def ShouldBindJSON (body : Except String OfferRequest) : Except String OfferRequest :=
  match body with
  | Except.error e => Except.error e
  | Except.ok req =>
    if req.SDP = "" ∨ req.typ = "" then Except.error "required field missing" else Except.ok req

/-- Lines 93-111 of `HandleOffer`: the audio stream that goes with a screen
stream. -/
def acquireAudio (env : OfferEnv) (screenStream : MediaStream) : Option MediaStream × List Call :=
  if screenStream.GetAudioTracks.length > 0 then
    (some screenStream, [])
  else
    match env.audioStartCapture with
    | Except.error e => (none, [Call.audioStartCapture (some e)])
    | Except.ok a => (some a, [Call.audioStartCapture none])

/-- The `switch req.Type` of `HandleOffer`. -/
def parseSDPType (t : String) : Option SDPType :=
  if t = "offer" then some SDPType.SDPTypeOffer
  else if t = "answer" then some SDPType.SDPTypeAnswer
  else none

/-- Function `strings.Contains`. -/
def Contains (s sub : String) : Bool :=
  decide (sub.data <:+: s.data)

/-- Lines 288-310 of `HandleOffer`: the SDP sent back, from the committed local
description and the draft answer. -/
def selectSDP (localDescription : Option SessionDescription) (answer : SessionDescription) : String :=
  let sdp :=
    match localDescription with
    | some d => d.SDP
    | none => answer.SDP
  if !Contains sdp "ice-ufrag" || !Contains sdp "ice-pwd" then
    if Contains answer.SDP "ice-ufrag" && Contains answer.SDP "ice-pwd" then answer.SDP else sdp
  else sdp

/-- Lines 173-318 of `HandleOffer`: the negotiation on a registered peer
connection. -/
def negotiate (eng : Engine) (h : ScreenShareHandler) (peerConnectionID : UUID)
    (peerConnection : PeerConnection) (screenStream : MediaStream)
    (audioStream : Option MediaStream) (sdpType : SDPType) (req : OfferRequest) :
    ScreenShareHandler × List Call × Response :=
  let added := AddTracksToPeerConnection eng peerConnection screenStream audioStream
  let c1 := added.2 ++ [Call.AddTracksToPeerConnection peerConnection screenStream audioStream added.1]
  match added.1 with
  | some e =>
    let cl := cleanup eng h peerConnectionID (some screenStream) audioStream
    (cl.1, c1 ++ cl.2, ⟨500, none, Body.error ("failed to add tracks: " ++ e)⟩)
  | none =>
    let offer : SessionDescription := { typ := sdpType, SDP := req.SDP }
    match eng.SetRemoteDescription peerConnection offer with
    | some e =>
      let cl := cleanup eng h peerConnectionID (some screenStream) audioStream
      (cl.1, c1 ++ [Call.SetRemoteDescription peerConnection offer (some e)] ++ cl.2,
        ⟨500, none, Body.error ("failed to set remote description: " ++ e)⟩)
    | none =>
      let c2 := c1 ++ [Call.SetRemoteDescription peerConnection offer none]
      match eng.CreateAnswer peerConnection with
      | Except.error e =>
        let cl := cleanup eng h peerConnectionID (some screenStream) audioStream
        (cl.1, c2 ++ [Call.CreateAnswer peerConnection (some e)] ++ cl.2,
          ⟨500, none, Body.error ("failed to create answer: " ++ e)⟩)
      | Except.ok answer =>
        let c3 := c2 ++ [Call.CreateAnswer peerConnection none]
        match eng.SetLocalDescription peerConnection answer with
        | some e =>
          let cl := cleanup eng h peerConnectionID (some screenStream) audioStream
          (cl.1, c3 ++ [Call.SetLocalDescription peerConnection answer (some e)] ++ cl.2,
            ⟨500, none, Body.error ("failed to set local description: " ++ e)⟩)
        | none =>
          let sdp := selectSDP (eng.LocalDescription peerConnection) answer
          (h, c3 ++ [Call.SetLocalDescription peerConnection answer none,
              Call.LocalDescription peerConnection],
            ⟨200, some peerConnectionID, Body.answer sdp "answer"⟩)

/-- Method `ScreenShareHandler.HandleOffer`. -/
def HandleOffer (eng : Engine) (env : OfferEnv) (h : ScreenShareHandler) (s : webrtcService)
    (body : Except String OfferRequest) : Result :=
  match ShouldBindJSON body with
  | Except.error e => ⟨h, s, [], ⟨400, none, Body.error e⟩⟩
  | Except.ok req =>
    match env.screenStartCapture with
    | Except.error e =>
      ⟨h, s, [Call.screenStartCapture (some e)],
        ⟨500, none, Body.error ("failed to start screen capture: " ++ e)⟩⟩
    | Except.ok screenStream =>
      let audio := acquireAudio env screenStream
      let audioStream := audio.1
      let c0 := Call.screenStartCapture none :: audio.2
      match parseSDPType req.typ with
      | none =>
        ⟨h, s, c0 ++ closeTracks screenStream ++ closeTracksOpt audioStream,
          ⟨400, none, Body.error "invalid SDP type"⟩⟩
      | some sdpType =>
        match s.CreatePeerConnection env with
        | (s1, Except.error e, cs) =>
          ⟨h, s1,
            c0 ++ cs ++ [Call.CreatePeerConnection screenStream audioStream (some e)]
              ++ closeTracks screenStream ++ closeTracksOpt audioStream,
            ⟨500, none, Body.error ("failed to create peer connection: " ++ e)⟩⟩
        | (s1, Except.ok peerConnection, cs) =>
          let peerConnectionID := env.handlerUUID
          let h1 : ScreenShareHandler :=
            { h with peerConnections := mapInsert h.peerConnections peerConnectionID peerConnection }
          let c1 := c0 ++ cs ++ [Call.CreatePeerConnection screenStream audioStream none]
            ++ [Call.registryInsert peerConnectionID peerConnection,
                Call.OnICECandidate peerConnection peerConnectionID]
          let r := negotiate eng h1 peerConnectionID peerConnection screenStream audioStream
            sdpType req
          ⟨r.1, withStateCallbacks s1 r.2.1, c1 ++ r.2.1, r.2.2⟩

/-- The candidate callback installed by `HandleOffer` for `peerConnectionID`;
`none` is the nil notification that ends gathering. -/
def onICECandidate (h : ScreenShareHandler) (peerConnectionID : UUID)
    (candidate : Option ICECandidateInit) : ScreenShareHandler :=
  match candidate with
  | some c =>
    let cur :=
      match mapLookup h.iceCandidates peerConnectionID with
      | some l => l
      | none => []
    { h with iceCandidates := mapInsert h.iceCandidates peerConnectionID (cur ++ [c]) }
  | none => h

/-- Method `ScreenShareHandler.HandleICE`; `Parse` is `uuid.Parse`, `body` the
result of binding the JSON candidate. -/
def HandleICE (eng : Engine) (Parse : String → Option UUID) (h : ScreenShareHandler)
    (s : webrtcService) (id : String) (body : Except String ICECandidateInit) : Result :=
  match Parse id with
  | none => ⟨h, s, [], ⟨400, none, Body.error "invalid peer connection ID"⟩⟩
  | some peerConnectionID =>
    match mapLookup h.peerConnections peerConnectionID with
    | none => ⟨h, s, [], ⟨404, none, Body.error "peer connection not found"⟩⟩
    | some peerConnection =>
      match body with
      | Except.error e => ⟨h, s, [], ⟨400, none, Body.error e⟩⟩
      | Except.ok candidate =>
        match eng.AddICECandidate peerConnection candidate with
        | some e =>
          ⟨h, s, [Call.AddICECandidate peerConnection candidate (some e)],
            ⟨500, none, Body.error "failed to add ICE candidate"⟩⟩
        | none =>
          ⟨h, s, [Call.AddICECandidate peerConnection candidate none],
            ⟨200, none, Body.status "ok"⟩⟩

/-- Method `ScreenShareHandler.GetICE`. -/
def GetICE (Parse : String → Option UUID) (h : ScreenShareHandler) (s : webrtcService)
    (id : String) : Result :=
  match Parse id with
  | none => ⟨h, s, [], ⟨400, none, Body.error "invalid peer connection ID"⟩⟩
  | some peerConnectionID =>
    match mapLookup h.iceCandidates peerConnectionID with
    | none => ⟨h, s, [], ⟨200, none, Body.candidates []⟩⟩
    | some candidates => ⟨h, s, [], ⟨200, none, Body.candidates candidates⟩⟩

/-- Method `ScreenShareHandler.HandleHangup`. -/
def HandleHangup (eng : Engine) (Parse : String → Option UUID) (h : ScreenShareHandler)
    (s : webrtcService) (id : String) : Result :=
  match Parse id with
  | none => ⟨h, s, [], ⟨400, none, Body.error "invalid peer connection ID"⟩⟩
  | some peerConnectionID =>
    let cl := cleanup eng h peerConnectionID none none
    ⟨cl.1, withStateCallbacks s cl.2, cl.2, ⟨200, none, Body.status "ok"⟩⟩

/-! ## Reading a failure off the response -/

/-- Function `strings.HasPrefix`, on the caller's side. -/
def startsWith (p m : String) : Bool :=
  decide (p.data <+: m.data)

/-- What a caller can read off a failed negotiation: the step that failed,
from the status code and the leading words of the error message. -/
def failureClass (r : Response) : Option Step :=
  match r.body with
  | Body.error m =>
    if r.code ≠ 500 then none
    else if startsWith "failed to start screen capture: " m then some Step.capture
    else if startsWith "failed to create peer connection: " m then some Step.createSession
    else if startsWith "failed to add tracks: " m then some Step.attachTracks
    else if startsWith "failed to set remote description: " m then some Step.remoteDescription
    else if startsWith "failed to create answer: " m then some Step.createAnswer
    else if startsWith "failed to set local description: " m then some Step.localDescription
    else none
  | _ => none

/-! ## The mandated order of calls -/

/-- Call `a` may come before call `b`: `b` is not of an earlier step, and when
`a` returned a step error `b` belongs to no step at all. -/
def Before (a b : Call) : Prop :=
  a.rank ≤ b.rank ∧ (a.stepError ≠ none → b.step = none)

/-- No step is entered unless every earlier step was. -/
def NoSkip (l : List Call) : Prop :=
  ∀ c ∈ l, ∀ st0 : Step, c.step = some st0 →
    ∀ st : Step, st.rank < st0.rank → ∃ d ∈ l, d.step = some st

/-- A trace in the mandated order. -/
def Mandated (l : List Call) : Prop :=
  l.Pairwise Before ∧ NoSkip l

/-- A trace in the mandated order in which the steps up to rank `k` were all
entered, none failed, and no later one was entered. -/
def Upto (k : Nat) (l : List Call) : Prop :=
  l.Pairwise Before ∧ (∀ c ∈ l, c.rank ≤ k ∧ c.stepError = none) ∧
    ∀ st : Step, st.rank ≤ k → ∃ c ∈ l, c.step = some st

/-- The calls of `HandleOffer` up to and including the installation of the
candidate callback, on the path that registers a peer connection. -/
def registeredCalls (env : OfferEnv) (screen : MediaStream) (pc : PeerConnection) : List Call :=
  Call.screenStartCapture none :: (acquireAudio env screen).2
    ++ [Call.OnConnectionStateChange pc]
    ++ [Call.CreatePeerConnection screen (acquireAudio env screen).1 none]
    ++ [Call.registryInsert env.handlerUUID pc, Call.OnICECandidate pc env.handlerUUID]

/-! ## Test doubles -/

/-- An engine on which every call succeeds. -/
def engineOK : Engine where
  AddTransceiverFromTrack := fun _ _ => none
  SetRemoteDescription := fun _ _ => none
  CreateAnswer := fun _ => Except.ok ⟨SDPType.SDPTypeAnswer, "draft"⟩
  SetLocalDescription := fun _ _ => none
  LocalDescription := fun _ => some ⟨SDPType.SDPTypeAnswer, "committed"⟩
  AddICECandidate := fun _ _ => none
  Close := fun _ => none

/-- An engine that refuses to commit the local description. -/
def engineNoCommit : Engine :=
  { engineOK with SetLocalDescription := fun _ _ => some "commit refused" }

/-- A screen stream with one video track. -/
def videoOnly : MediaStream := ⟨[⟨1, TrackKind.video⟩]⟩

/-- A separate audio stream with one audio track. -/
def micStream : MediaStream := ⟨[⟨2, TrackKind.audio⟩]⟩

/-- Collaborators that all answer: video-only screen, separate audio, peer
connection 7, ids 100 (service) and 200 (handler). -/
def envOK : OfferEnv where
  screenStartCapture := Except.ok videoOnly
  audioStartCapture := Except.ok micStream
  NewPeerConnection := Except.ok 7
  serviceUUID := 100
  handlerUUID := 200

/-- A handler with one live session, id 5 on peer connection 3, that has one
server candidate. -/
def handlerOne : ScreenShareHandler := ⟨[(5, 3)], [(5, ["cand-a"])]⟩

/-- The service state that goes with `handlerOne`: peer connection 3 is stored
under 50, the id its connection-state handler captured. -/
def serviceOne : webrtcService := ⟨[(50, 3)], [(3, 50)]⟩

/-- A well-formed offer. -/
def offerBody : Except String OfferRequest := Except.ok ⟨"v=0", "offer"⟩

/-- An offer of an unknown kind. -/
def bogusBody : Except String OfferRequest := Except.ok ⟨"v=0", "bogus"⟩

/-- The collaborators of `envOK`, with a screen capture that fails. -/
def envNoScreen : OfferEnv :=
  { envOK with screenStartCapture := Except.error "no display" }

/-- The collaborators of `envOK`, with an engine that creates no peer connection. -/
def envNoPeer : OfferEnv :=
  { envOK with NewPeerConnection := Except.error "boom" }

/-- A parser that reads the id `"five"` as 5 and `"nine"` as 9. -/
def parseWords (id : String) : Option UUID :=
  if id = "five" then some 5 else if id = "nine" then some 9 else none

/-- A screen stream that bundles an audio track with its video track, as
`GetDisplayMedia` delivers it. -/
def bundledStream : MediaStream := ⟨[⟨1, TrackKind.video⟩, ⟨2, TrackKind.audio⟩]⟩

/-- The collaborators of `envOK`, with a screen capture that bundles audio. -/
def envBundled : OfferEnv :=
  { envOK with screenStartCapture := Except.ok bundledStream }

/-- A handler with one live session, id 5 on peer connection 3, for which no
candidate was discovered yet. -/
def handlerFresh : ScreenShareHandler := ⟨[(5, 3)], []⟩

/-- An engine that rejects every remote candidate and fails to close. -/
def engineRejecting : Engine :=
  { engineOK with
    AddICECandidate := fun _ _ => some "rejected"
    Close := fun _ => some "close failed" }

/-- An engine whose committed local description lacks the ICE credentials that
its draft answer has. -/
def engineDraftWins : Engine :=
  { engineOK with
    CreateAnswer := fun _ => Except.ok ⟨SDPType.SDPTypeAnswer, "a=ice-ufrag:u a=ice-pwd:p"⟩
    LocalDescription := fun _ => some ⟨SDPType.SDPTypeAnswer, "committed"⟩ }

/-- An engine whose committed local description carries both ICE credentials. -/
def engineCommitted : Engine :=
  { engineOK with
    LocalDescription := fun _ =>
      some ⟨SDPType.SDPTypeAnswer, "committed a=ice-ufrag:u a=ice-pwd:p"⟩ }

/-- The collaborators of `envOK`, with `uuid.New()` returning ids that are
already in use (5 in the handler, 50 in the service). -/
def envCollide : OfferEnv :=
  { envOK with serviceUUID := 50, handlerUUID := 5 }

/-- What the process does when the engine reports a connection state for the
peer connection the service stored under `peerConnectionID`: the callback of
the service is the only one installed with `OnConnectionStateChange`
(`ScreenShareHandler` installs none), so the handler is not involved. -/
def connectionStateChanged (h : ScreenShareHandler) (s : webrtcService) (peerConnectionID : UUID)
    (state : PeerConnectionState) : ScreenShareHandler × webrtcService × List Call :=
  (h, s.onConnectionStateChange peerConnectionID state, [])

/-- An engine that attaches video tracks and refuses audio tracks. -/
def engineNoAudio : Engine :=
  { engineOK with
    AddTransceiverFromTrack := fun _ t =>
      if t.kind = TrackKind.audio then some "no audio codec" else none }

/-- An engine that refuses every track. -/
def engineNoTracks : Engine :=
  { engineOK with AddTransceiverFromTrack := fun _ _ => some "no codec" }

/-- Lines 395-401 of `cleanup`, the part under the lock: the registry once the
id was deleted, and the peer connection that was found under it. -/
def cleanupRegistry (h : ScreenShareHandler) (peerConnectionID : UUID) :
    ScreenShareHandler × Option PeerConnection :=
  let found := mapLookup h.peerConnections peerConnectionID
  ({ peerConnections :=
        match found with
        | some _ => mapDelete h.peerConnections peerConnectionID
        | none => h.peerConnections
     iceCandidates := mapDelete h.iceCandidates peerConnectionID }, found)

/-- The test `strings.Contains(sdp, "ice-ufrag") && strings.Contains(sdp, "ice-pwd")`
of `HandleOffer`: the SDP carries both ICE credentials. -/
def hasICECredentials (sdp : String) : Bool :=
  Contains sdp "ice-ufrag" && Contains sdp "ice-pwd"

/-- The error value `ErrPeerConnectionNotFound` of `webrtc_service.go`. -/
def ErrPeerConnectionNotFound : String := "peer connection not found"

/-- A service with two peer connections in its map, each with the handler the
service installed on it. -/
def serviceTwo : webrtcService := ⟨[(50, 3), (60, 4)], [(4, 60), (3, 50)]⟩

/-- Whether a call is `audioCapture.StartCapture`. -/
def Call.isAudioStart : Call → Bool
  | Call.audioStartCapture _ => true
  | _ => false

/-! ## `screen_capture.go` -/

/-- The mutable fields of `screenCaptureService`, of which the handler holds
one instance for all its sessions: the stream started last, and whether
`cancelFunc` is set. -/
structure screenCaptureService where
  stream : Option MediaStream
  cancelFunc : Bool
deriving DecidableEq, Repr

/-- What the capture libraries answer during one `StartCapture`: the errors of
`vpx.NewVP8Params` (in `StartCapture` and in `startCustomCapture`) and of
`opus.NewParams`, the result of `mediadevices.GetDisplayMedia`, the number of
active displays, the track of `NewVideoTrack` and the result of
`NewMediaStream`. -/
structure CaptureEnv where
  NewVP8Params : Option String
  NewParams : Option String
  GetDisplayMedia : Except String MediaStream
  NumActiveDisplays : Nat
  NewVP8ParamsCustom : Option String
  NewVideoTrack : Track
  NewMediaStream : Except String MediaStream

/-- Method `screenCaptureService.startCustomCapture`. -/
def screenCaptureService.startCustomCapture (s : screenCaptureService) (lib : CaptureEnv) :
    screenCaptureService × Except String MediaStream × List Call :=
  if lib.NumActiveDisplays = 0 then
    (s, Except.error "no display found", [])
  else
    match lib.NewVP8ParamsCustom with
    | some e => (s, Except.error e, [])
    | none =>
      let s1 : screenCaptureService := { s with cancelFunc := true }
      match lib.NewMediaStream with
      | Except.error e => (s1, Except.error e, [Call.trackClose lib.NewVideoTrack])
      | Except.ok stream =>
        let s2 : screenCaptureService := { s1 with stream := some stream }
        if stream.GetVideoTracks.length = 0 then
          (s2, Except.error "no video tracks in stream", [])
        else (s2, Except.ok stream, [])

/-- Method `screenCaptureService.StartCapture`. -/
def screenCaptureService.StartCapture (s : screenCaptureService) (lib : CaptureEnv) :
    screenCaptureService × Except String MediaStream × List Call :=
  match lib.NewVP8Params with
  | some e => (s, Except.error e, [])
  | none =>
    match lib.NewParams with
    | some e => (s, Except.error e, [])
    | none =>
      match lib.GetDisplayMedia with
      | Except.error _ => s.startCustomCapture lib
      | Except.ok stream =>
        let s1 : screenCaptureService := { s with stream := some stream }
        if stream.GetVideoTracks.length = 0 then
          (s1, Except.error "no video tracks in stream", [])
        else (s1, Except.ok stream, [])

/-- Method `screenCaptureService.StopCapture`: the tracks it closes.  The call
of `cancelFunc`, which cancels the context of the custom source and closes no
track, is not recorded. -/
def screenCaptureService.StopCapture (s : screenCaptureService) : List Call :=
  closeTracksOpt s.stream

/-- The calls of a handler run with each `screenCapture.StopCapture()` in it
carried out by the service `sc`: the track closes of `StopCapture` come before
the record of the call.  `StopCapture` leaves the fields of `sc` as they are. -/
def withScreenCapture (sc : screenCaptureService) : List Call → List Call
  | [] => []
  | Call.screenStopCapture :: cs =>
    sc.StopCapture ++ Call.screenStopCapture :: withScreenCapture sc cs
  | c :: cs => c :: withScreenCapture sc cs

/-- Capture libraries whose `GetDisplayMedia` delivers the given stream. -/
def displayLib (st : MediaStream) : CaptureEnv where
  NewVP8Params := none
  NewParams := none
  GetDisplayMedia := Except.ok st
  NumActiveDisplays := 1
  NewVP8ParamsCustom := none
  NewVideoTrack := ⟨0, TrackKind.video⟩
  NewMediaStream := Except.ok st

/-- The screen stream of a second session. -/
def secondStream : MediaStream := ⟨[⟨3, TrackKind.video⟩]⟩

/-- The capture service after session A (stream `videoOnly`) and then session
B (stream `secondStream`) started their screen capture. -/
def captureAfterAB : screenCaptureService :=
  (((⟨none, false⟩ : screenCaptureService).StartCapture (displayLib videoOnly)).1.StartCapture
    (displayLib secondStream)).1

/-- A handler with two live sessions: A, id 5 on peer connection 3, and B, id 9
on peer connection 4, each with one server candidate. -/
def handlerTwo : ScreenShareHandler := ⟨[(5, 3), (9, 4)], [(5, ["cand-a"]), (9, ["cand-b"])]⟩

/-- The collaborators of `envOK`, with `uuid.New()` returning 9 in the handler. -/
def envNine : OfferEnv :=
  { envOK with handlerUUID := 9 }

/-! ## Facts about maps -/

theorem mapLookup_eq_none_iff {V : Type} (m : List (UUID × V)) (k : UUID) :
    mapLookup m k = none ↔ k ∉ mapKeys m := by
  induction m with
  | nil => simp [mapLookup, mapKeys]
  | cons e m ih =>
    obtain ⟨k1, v1⟩ := e
    by_cases hk : k1 = k
    · simp [mapLookup, mapKeys, hk]
    · have hk2 : ¬ k = k1 := fun h => hk h.symm
      simp only [mapKeys] at ih
      simp [mapLookup, mapKeys, hk, hk2, ih]

theorem mapDelete_of_not_mem {V : Type} (m : List (UUID × V)) (k : UUID)
    (hk : k ∉ mapKeys m) : mapDelete m k = m := by
  unfold mapDelete
  rw [List.filter_eq_self]
  intro e he
  have : e.1 ∈ mapKeys m := List.mem_map_of_mem Prod.fst he
  simp only [decide_eq_true_eq]
  intro h
  exact hk (h ▸ this)

theorem mapDelete_not_mem {V : Type} (m : List (UUID × V)) (k : UUID) :
    k ∉ mapKeys (mapDelete m k) := by
  simp [mapKeys, mapDelete, List.mem_filter]

theorem mapDelete_idem {V : Type} (m : List (UUID × V)) (k : UUID) :
    mapDelete (mapDelete m k) k = mapDelete m k := by
  simp [mapDelete, List.filter_filter]

theorem mapInsert_of_not_mem {V : Type} (m : List (UUID × V)) (k : UUID) (v : V)
    (hk : k ∉ mapKeys m) : mapInsert m k v = m ++ [(k, v)] := by
  induction m with
  | nil => rfl
  | cons e m ih =>
    obtain ⟨k1, v1⟩ := e
    have h1 : ¬ k1 = k := by
      intro h
      exact hk (by simp [mapKeys, h])
    have h2 : k ∉ mapKeys m := by
      intro h
      exact hk (by simp only [mapKeys] at h; simp [mapKeys, h])
    simp [mapInsert, h1, ih h2]

theorem mapLookup_insert_self {V : Type} (m : List (UUID × V)) (k : UUID) (v : V) :
    mapLookup (mapInsert m k v) k = some v := by
  induction m with
  | nil => simp [mapInsert, mapLookup]
  | cons e m ih =>
    obtain ⟨k1, v1⟩ := e
    by_cases hk : k1 = k
    · simp [mapInsert, mapLookup, hk]
    · simp [mapInsert, mapLookup, hk, ih]

theorem mapDelete_insert_of_not_mem {V : Type} (m : List (UUID × V)) (k : UUID) (v : V)
    (hk : k ∉ mapKeys m) : mapDelete (mapInsert m k v) k = m := by
  rw [mapInsert_of_not_mem m k v hk]
  have := mapDelete_of_not_mem m k hk
  unfold mapDelete at this ⊢
  rw [List.filter_append, this]
  simp

theorem mapLookup_insert_other {V : Type} (m : List (UUID × V)) (k k2 : UUID) (v : V)
    (hk : k2 ≠ k) : mapLookup (mapInsert m k v) k2 = mapLookup m k2 := by
  induction m with
  | nil =>
    have : ¬ k = k2 := fun h => hk h.symm
    simp [mapInsert, mapLookup, this]
  | cons e m ih =>
    obtain ⟨k1, v1⟩ := e
    by_cases h1 : k1 = k
    · have : ¬ k = k2 := fun h => hk h.symm
      have h2 : ¬ k1 = k2 := by rw [h1]; exact this
      simp [mapInsert, mapLookup, h1, this]
    · by_cases h2 : k1 = k2
      · subst h2
        simp [mapInsert, mapLookup, h1]
      · simp [mapInsert, mapLookup, h1, h2, ih]

theorem mapKeys_insert_of_mem {V : Type} (m : List (UUID × V)) (k : UUID) (v : V)
    (hk : k ∈ mapKeys m) : mapKeys (mapInsert m k v) = mapKeys m := by
  induction m with
  | nil => simp [mapKeys] at hk
  | cons e m ih =>
    obtain ⟨k1, v1⟩ := e
    by_cases h1 : k1 = k
    · simp [mapInsert, mapKeys, h1]
    · have h2 : k ∈ mapKeys m := by
        simp only [mapKeys, List.map_cons, List.mem_cons] at hk
        rcases hk with h3 | h3
        · exact absurd h3.symm h1
        · exact h3
      have := ih h2
      simp only [mapKeys] at this
      simp [mapInsert, mapKeys, h1, this]

theorem mapLookup_delete_other {V : Type} (m : List (UUID × V)) (k k2 : UUID) (hk : k2 ≠ k) :
    mapLookup (mapDelete m k) k2 = mapLookup m k2 := by
  induction m with
  | nil => rfl
  | cons e m ih =>
    obtain ⟨k1, v1⟩ := e
    have ih2 : mapLookup (List.filter (fun e => !decide (e.1 = k)) m) k2 = mapLookup m k2 := by
      simpa [mapDelete] using ih
    by_cases h1 : k1 = k
    · subst h1
      have h2 : ¬ k1 = k2 := fun h => hk h.symm
      simp [mapDelete, List.filter_cons, mapLookup, h2, ih2]
    · by_cases h2 : k1 = k2
      · subst h2
        simp [mapDelete, List.filter_cons, mapLookup, h1]
      · simp [mapDelete, List.filter_cons, mapLookup, h1, h2, ih2]

theorem mapLookup_delete_self {V : Type} (m : List (UUID × V)) (k : UUID) :
    mapLookup (mapDelete m k) k = none :=
  (mapLookup_eq_none_iff _ _).2 (mapDelete_not_mem m k)

/-! ## Facts about `cleanup` and `negotiate` -/

theorem cleanup_state (eng : Engine) (h : ScreenShareHandler) (id : UUID)
    (screen audio : Option MediaStream) :
    (cleanup eng h id screen audio).1 =
      { peerConnections := mapDelete h.peerConnections id,
        iceCandidates := mapDelete h.iceCandidates id } := by
  unfold cleanup
  cases hf : mapLookup h.peerConnections id with
  | none =>
    have := mapDelete_of_not_mem _ _ ((mapLookup_eq_none_iff _ _).1 hf)
    simp [this]
  | some pc => simp

theorem negotiate_outcome (eng : Engine) (h : ScreenShareHandler) (id : UUID)
    (pc : PeerConnection) (screen : MediaStream) (audio : Option MediaStream) (ty : SDPType)
    (req : OfferRequest) :
    ((negotiate eng h id pc screen audio ty req).2.2.code = 200 ∧
        (negotiate eng h id pc screen audio ty req).2.2.peerConnectionID = some id ∧
        (negotiate eng h id pc screen audio ty req).1 = h) ∨
      ((negotiate eng h id pc screen audio ty req).2.2.code = 500 ∧
        (negotiate eng h id pc screen audio ty req).2.2.peerConnectionID = none ∧
        (negotiate eng h id pc screen audio ty req).1 =
          (cleanup eng h id (some screen) audio).1) := by
  cases h1 : (AddTracksToPeerConnection eng pc screen audio).1 with
  | some e => simp [negotiate, h1]
  | none =>
    cases h2 : eng.SetRemoteDescription pc { typ := ty, SDP := req.SDP } with
    | some e => simp [negotiate, h1, h2]
    | none =>
      cases h3 : eng.CreateAnswer pc with
      | error e => simp [negotiate, h1, h2, h3]
      | ok answer =>
        cases h4 : eng.SetLocalDescription pc answer with
        | some e => simp [negotiate, h1, h2, h3, h4]
        | none => simp [negotiate, h1, h2, h3, h4]

theorem cleanup_closes_screen (eng : Engine) (h : ScreenShareHandler) (id : UUID)
    (screen : MediaStream) (audio : Option MediaStream) (t : Track) (ht : t ∈ screen.GetTracks) :
    Call.trackClose t ∈ (cleanup eng h id (some screen) audio).2 := by
  simp [cleanup, closeTracksOpt, closeTracks, ht]

theorem cleanup_closes_audio (eng : Engine) (h : ScreenShareHandler) (id : UUID)
    (screen : Option MediaStream) (audio : MediaStream) (t : Track) (ht : t ∈ audio.GetTracks) :
    Call.trackClose t ∈ (cleanup eng h id screen (some audio)).2 := by
  simp [cleanup, closeTracksOpt, closeTracks, ht]

theorem negotiate_failure_calls (eng : Engine) (h : ScreenShareHandler) (id : UUID)
    (pc : PeerConnection) (screen : MediaStream) (audio : Option MediaStream) (ty : SDPType)
    (req : OfferRequest) (hfail : (negotiate eng h id pc screen audio ty req).2.2.code ≠ 200) :
    ∀ c ∈ (cleanup eng h id (some screen) audio).2,
      c ∈ (negotiate eng h id pc screen audio ty req).2.1 := by
  intro c hc
  cases h1 : (AddTracksToPeerConnection eng pc screen audio).1 with
  | some e => simp [negotiate, h1, hc]
  | none =>
    cases h2 : eng.SetRemoteDescription pc { typ := ty, SDP := req.SDP } with
    | some e => simp [negotiate, h1, h2, hc]
    | none =>
      cases h3 : eng.CreateAnswer pc with
      | error e => simp [negotiate, h1, h2, h3, hc]
      | ok answer =>
        cases h4 : eng.SetLocalDescription pc answer with
        | some e => simp [negotiate, h1, h2, h3, h4, hc]
        | none => simp [negotiate, h1, h2, h3, h4] at hfail

theorem Step.rank_inj (a b : Step) (hab : a.rank = b.rank) : a = b := by
  cases a <;> cases b <;> simp [Step.rank] at hab <;> rfl

theorem Step.rank_le_seven (a : Step) : a.rank ≤ 7 := by
  cases a <;> simp [Step.rank]

theorem Call.rank_of_step (c : Call) (st : Step) (hc : c.step = some st) : c.rank = st.rank := by
  simp [Call.rank, hc]

theorem Call.rank_of_step_none (c : Call) (hc : c.step = none) : c.rank = 8 := by
  simp [Call.rank, hc]

theorem Call.step_of_rank (c : Call) (hc : c.rank ≤ 7) :
    ∃ st, c.step = some st ∧ st.rank = c.rank := by
  cases hs : c.step with
  | none => simp [Call.rank, hs] at hc
  | some st => exact ⟨st, rfl, by simp [Call.rank, hs]⟩

theorem Call.rank_le_eight (c : Call) : c.rank ≤ 8 := by
  cases hs : c.step with
  | none => simp [Call.rank, hs]
  | some st =>
    have := Step.rank_le_seven st
    simp only [Call.rank, hs]
    omega

theorem Call.stepError_of_step_none (c : Call) (hc : c.step = none) : c.stepError = none := by
  cases c <;> simp [Call.step, Call.stepError] at hc ⊢

theorem Upto_start : Upto 0 [Call.screenStartCapture none] := by
  refine ⟨by simp, ?_, ?_⟩
  · intro c hc
    simp only [List.mem_singleton] at hc
    subst hc
    simp [Call.rank, Call.step, Call.stepError, Step.rank]
  · intro st hst
    refine ⟨_, List.mem_singleton_self _, ?_⟩
    cases st <;> simp [Step.rank] at hst
    rfl

theorem Upto_same (k : Nat) (l seg : List Call) (hl : Upto k l)
    (hseg : ∀ c ∈ seg, c.rank = k ∧ c.stepError = none) : Upto k (l ++ seg) := by
  obtain ⟨hp, hb, hc⟩ := hl
  refine ⟨?_, ?_, ?_⟩
  · rw [List.pairwise_append]
    refine ⟨hp, ?_, ?_⟩
    · apply List.pairwise_of_forall_mem_list
      intro a ha b hb2
      exact ⟨by rw [(hseg a ha).1, (hseg b hb2).1], fun h => absurd (hseg a ha).2 h⟩
    · intro a ha b hb2
      exact ⟨by rw [(hseg b hb2).1]; exact (hb a ha).1, fun h => absurd (hb a ha).2 h⟩
  · intro c hcm
    rcases List.mem_append.1 hcm with h1 | h1
    · exact hb c h1
    · exact ⟨le_of_eq (hseg c h1).1, (hseg c h1).2⟩
  · intro st hst
    obtain ⟨c, hcm, hcs⟩ := hc st hst
    exact ⟨c, List.mem_append_left _ hcm, hcs⟩

theorem Upto_next (k : Nat) (l seg : List Call) (hl : Upto k l) (hne : seg ≠ []) (hk : k + 1 ≤ 7)
    (hseg : ∀ c ∈ seg, c.rank = k + 1 ∧ c.stepError = none) : Upto (k + 1) (l ++ seg) := by
  obtain ⟨hp, hb, hc⟩ := hl
  refine ⟨?_, ?_, ?_⟩
  · rw [List.pairwise_append]
    refine ⟨hp, ?_, ?_⟩
    · apply List.pairwise_of_forall_mem_list
      intro a ha b hb2
      exact ⟨by rw [(hseg a ha).1, (hseg b hb2).1], fun h => absurd (hseg a ha).2 h⟩
    · intro a ha b hb2
      refine ⟨?_, fun h => absurd (hb a ha).2 h⟩
      rw [(hseg b hb2).1]
      exact Nat.le_succ_of_le (hb a ha).1
  · intro c hcm
    rcases List.mem_append.1 hcm with h1 | h1
    · exact ⟨Nat.le_succ_of_le (hb c h1).1, (hb c h1).2⟩
    · exact ⟨le_of_eq (hseg c h1).1, (hseg c h1).2⟩
  · intro st hst
    rcases Nat.lt_or_ge st.rank (k + 1) with h1 | h1
    · obtain ⟨c, hcm, hcs⟩ := hc st (Nat.lt_succ_iff.1 h1)
      exact ⟨c, List.mem_append_left _ hcm, hcs⟩
    · obtain ⟨c, hcm⟩ := List.exists_mem_of_ne_nil seg hne
      have hr := (hseg c hcm).1
      obtain ⟨st2, hs2, hr2⟩ := Call.step_of_rank c (by omega)
      have : st2 = st := Step.rank_inj st2 st (by omega)
      exact ⟨c, List.mem_append_right _ hcm, by rw [hs2, this]⟩

theorem Mandated_of_Upto (k r : Nat) (l pre mid td : List Call) (hl : Upto k l)
    (hpre : ∀ c ∈ pre, c.rank = r ∧ c.stepError = none) (hmid : ∀ c ∈ mid, c.rank = r)
    (hlen : mid.length ≤ 1) (hr : r = k ∨ r = k + 1)
    (htd : ∀ c ∈ td, c.step = none) : Mandated (l ++ pre ++ mid ++ td) := by
  obtain ⟨hp, hb, hc⟩ := hl
  have hkr : k ≤ r := by omega
  have htd8 : ∀ c ∈ td, c.rank = 8 := fun c hcm => Call.rank_of_step_none c (htd c hcm)
  refine ⟨?_, ?_⟩
  · rw [List.pairwise_append, List.pairwise_append, List.pairwise_append]
    refine ⟨⟨⟨hp, ?_, ?_⟩, ?_, ?_⟩, ?_, ?_⟩
    · apply List.pairwise_of_forall_mem_list
      intro a ha b hb2
      exact ⟨by rw [(hpre a ha).1, (hpre b hb2).1], fun h => absurd (hpre a ha).2 h⟩
    · intro a ha b hb2
      refine ⟨?_, fun h => absurd (hb a ha).2 h⟩
      rw [(hpre b hb2).1]
      exact le_trans (hb a ha).1 hkr
    · match mid, hlen with
      | [], _ => simp
      | [f], _ => simp
    · intro a ha b hb2
      have hbr := hmid b hb2
      rcases List.mem_append.1 ha with h1 | h1
      · exact ⟨by rw [hbr]; exact le_trans (hb a h1).1 hkr, fun h => absurd (hb a h1).2 h⟩
      · exact ⟨by rw [hbr, (hpre a h1).1], fun h => absurd (hpre a h1).2 h⟩
    · apply List.pairwise_of_forall_mem_list
      intro a ha b hb2
      exact ⟨by rw [htd8 a ha, htd8 b hb2], fun _ => htd b hb2⟩
    · intro a _ b hb2
      exact ⟨by rw [htd8 b hb2]; exact Call.rank_le_eight a, fun _ => htd b hb2⟩
  · intro c hcm st0 hst0 st hlt
    have hcr := Call.rank_of_step c st0 hst0
    have : st.rank ≤ k := by
      simp only [List.mem_append] at hcm
      rcases hcm with ((h1 | h1) | h1) | h1
      · have := (hb c h1).1
        omega
      · have := (hpre c h1).1
        omega
      · have := hmid c h1
        omega
      · rw [htd c h1] at hst0
        exact absurd hst0 (by simp)
    obtain ⟨d, hdm, hds⟩ := hc st this
    exact ⟨d, by simp [hdm], hds⟩

theorem Mandated_nil : Mandated [] := by
  refine ⟨by simp, ?_⟩
  intro c hc
  simp at hc

theorem Mandated_capture_failed (e : Option String) : Mandated [Call.screenStartCapture e] := by
  refine ⟨by simp, ?_⟩
  intro c hc st0 hst0 st hlt
  simp only [List.mem_singleton] at hc
  subst hc
  simp only [Call.step, Option.some.injEq] at hst0
  subst hst0
  simp [Step.rank] at hlt

/-! ## The calls of each part of `HandleOffer` -/

theorem acquireAudio_cases (env : OfferEnv) (screen : MediaStream) :
    acquireAudio env screen = (some screen, []) ∨
      (∃ e, env.audioStartCapture = Except.error e ∧
        acquireAudio env screen = (none, [Call.audioStartCapture (some e)])) ∨
      (∃ a, env.audioStartCapture = Except.ok a ∧ screen.GetAudioTracks = [] ∧
        acquireAudio env screen = (some a, [Call.audioStartCapture none])) := by
  unfold acquireAudio
  split
  · exact Or.inl rfl
  · rename_i hlen
    have hnil : screen.GetAudioTracks = [] := by
      cases hg : screen.GetAudioTracks with
      | nil => rfl
      | cons t ts => simp [hg] at hlen
    cases ha : env.audioStartCapture with
    | error e => exact Or.inr (Or.inl ⟨e, rfl, rfl⟩)
    | ok a => exact Or.inr (Or.inr ⟨a, rfl, hnil, rfl⟩)

theorem acquireAudio_calls (env : OfferEnv) (screen : MediaStream) :
    ∀ c ∈ (acquireAudio env screen).2, ∃ e, c = Call.audioStartCapture e := by
  intro c hc
  rcases acquireAudio_cases env screen with h | ⟨e, _, h⟩ | ⟨a, _, _, h⟩ <;> rw [h] at hc <;>
    simp at hc
  · exact ⟨_, hc⟩
  · exact ⟨_, hc⟩

theorem closeTracksOpt_calls (st : Option MediaStream) :
    ∀ c ∈ closeTracksOpt st, ∃ t, c = Call.trackClose t := by
  intro c hc
  cases st with
  | none => simp [closeTracksOpt] at hc
  | some a =>
    simp only [closeTracksOpt, closeTracks, List.mem_map] at hc
    obtain ⟨t, _, ht⟩ := hc
    exact ⟨t, ht.symm⟩

theorem cleanup_calls (eng : Engine) (h : ScreenShareHandler) (id : UUID)
    (screen audio : Option MediaStream) :
    ∀ c ∈ (cleanup eng h id screen audio).2, c.step = none := by
  intro c hc
  simp only [cleanup, List.mem_append] at hc
  rcases hc with ((((h1 | h1) | h1) | h1) | h1) | h1
  · rcases h1 with h2 | h2
    · cases hf : mapLookup h.peerConnections id <;> simp [hf] at h2
      subst h2
      rfl
    · simp only [List.mem_singleton] at h2
      subst h2
      rfl
  · cases hf : mapLookup h.peerConnections id <;> simp [hf] at h1
    subst h1
    rfl
  · obtain ⟨t, ht⟩ := closeTracksOpt_calls screen c h1
    subst ht
    rfl
  · obtain ⟨t, ht⟩ := closeTracksOpt_calls audio c h1
    subst ht
    rfl
  · simp only [List.mem_singleton] at h1
    subst h1
    rfl
  · cases audio <;> simp at h1
    subst h1
    rfl

theorem addVideoTracks_calls (eng : Engine) (pc : PeerConnection) (ts : List Track) :
    ∀ c ∈ (addVideoTracks eng pc ts).2,
      ∃ t e, t ∈ ts ∧ c = Call.AddTransceiverFromTrack pc t e := by
  induction ts with
  | nil => simp [addVideoTracks]
  | cons t ts ih =>
    intro c hc
    unfold addVideoTracks at hc
    cases ha : eng.AddTransceiverFromTrack pc t with
    | some e =>
      simp only [ha, List.mem_singleton] at hc
      exact ⟨t, some e, by simp, hc⟩
    | none =>
      simp only [ha, List.mem_cons] at hc
      rcases hc with h1 | h1
      · exact ⟨t, none, by simp, h1⟩
      · obtain ⟨t2, e, ht2, hc2⟩ := ih c h1
        exact ⟨t2, e, by simp [ht2], hc2⟩

theorem AddTracksToPeerConnection_calls (eng : Engine) (pc : PeerConnection)
    (screen : MediaStream) (audio : Option MediaStream) :
    ∀ c ∈ (AddTracksToPeerConnection eng pc screen audio).2,
      ∃ t e, c = Call.AddTransceiverFromTrack pc t e ∧
        (t ∈ screen.GetVideoTracks ∨ ∃ a, audio = some a ∧ t ∈ a.GetAudioTracks) := by
  intro c hc
  unfold AddTracksToPeerConnection at hc
  by_cases hlen : screen.GetVideoTracks.length = 0
  · simp [hlen] at hc
  · simp only [hlen, if_false] at hc
    have hv := addVideoTracks_calls eng pc screen.GetVideoTracks
    rcases hr : addVideoTracks eng pc screen.GetVideoTracks with ⟨r1, r2⟩
    rw [hr] at hc hv
    cases r1 with
    | some e =>
      obtain ⟨t, e2, ht, hc2⟩ := hv c hc
      exact ⟨t, e2, hc2, Or.inl ht⟩
    | none =>
      cases audio with
      | none =>
        obtain ⟨t, e2, ht, hc2⟩ := hv c hc
        exact ⟨t, e2, hc2, Or.inl ht⟩
      | some a =>
        simp only [List.mem_append] at hc
        rcases hc with h1 | h1
        · obtain ⟨t, e2, ht, hc2⟩ := hv c h1
          exact ⟨t, e2, hc2, Or.inl ht⟩
        · simp only [addAudioTracks, List.mem_map] at h1
          obtain ⟨t, ht, hc2⟩ := h1
          exact ⟨t, _, hc2.symm, Or.inr ⟨a, rfl, ht⟩⟩

theorem attach_segment (eng : Engine) (pc : PeerConnection) (screen : MediaStream)
    (audio : Option MediaStream) :
    ∀ c ∈ (AddTracksToPeerConnection eng pc screen audio).2,
      c.rank = 4 ∧ c.stepError = none := by
  intro c hc
  obtain ⟨t, e, hce, _⟩ := AddTracksToPeerConnection_calls eng pc screen audio c hc
  subst hce
  exact ⟨rfl, rfl⟩

theorem negotiate_mandated (eng : Engine) (h : ScreenShareHandler) (id : UUID)
    (pc : PeerConnection) (screen : MediaStream) (audio : Option MediaStream) (ty : SDPType)
    (req : OfferRequest) (l : List Call) (hl : Upto 3 l) :
    Mandated (l ++ (negotiate eng h id pc screen audio ty req).2.1) := by
  have hseg := attach_segment eng pc screen audio
  have htd := cleanup_calls eng h id (some screen) audio
  cases h1 : (AddTracksToPeerConnection eng pc screen audio).1 with
  | some e =>
    have := Mandated_of_Upto 3 4 l (AddTracksToPeerConnection eng pc screen audio).2
      [Call.AddTracksToPeerConnection pc screen audio (some e)]
      (cleanup eng h id (some screen) audio).2 hl hseg (by simp [Call.rank, Call.step, Step.rank])
      (by simp) (Or.inr rfl) htd
    simpa [negotiate, h1, List.append_assoc] using this
  | none =>
    have h4 : Upto 4 (l ++ ((AddTracksToPeerConnection eng pc screen audio).2 ++
        [Call.AddTracksToPeerConnection pc screen audio none])) := by
      apply Upto_next 3 l _ hl (by simp) (by decide)
      intro c hc
      rcases List.mem_append.1 hc with h2 | h2
      · exact hseg c h2
      · simp only [List.mem_singleton] at h2
        subst h2
        exact ⟨rfl, rfl⟩
    cases h2 : eng.SetRemoteDescription pc { typ := ty, SDP := req.SDP } with
    | some e =>
      have := Mandated_of_Upto 4 5 _ []
        [Call.SetRemoteDescription pc { typ := ty, SDP := req.SDP } (some e)]
        (cleanup eng h id (some screen) audio).2 h4 (by simp)
        (by simp [Call.rank, Call.step, Step.rank]) (by simp) (Or.inr rfl) htd
      simpa [negotiate, h1, h2, List.append_assoc] using this
    | none =>
      have h5 := Upto_next 4 _ [Call.SetRemoteDescription pc { typ := ty, SDP := req.SDP } none]
        h4 (by simp) (by decide) (by simp [Call.rank, Call.step, Step.rank, Call.stepError])
      cases h3 : eng.CreateAnswer pc with
      | error e =>
        have := Mandated_of_Upto 5 6 _ [] [Call.CreateAnswer pc (some e)]
          (cleanup eng h id (some screen) audio).2 h5 (by simp)
          (by simp [Call.rank, Call.step, Step.rank]) (by simp) (Or.inr rfl) htd
        simpa [negotiate, h1, h2, h3, List.append_assoc] using this
      | ok answer =>
        have h6 := Upto_next 5 _ [Call.CreateAnswer pc none]
          h5 (by simp) (by decide) (by simp [Call.rank, Call.step, Step.rank, Call.stepError])
        cases h4 : eng.SetLocalDescription pc answer with
        | some e =>
          have := Mandated_of_Upto 6 7 _ [] [Call.SetLocalDescription pc answer (some e)]
            (cleanup eng h id (some screen) audio).2 h6 (by simp)
            (by simp [Call.rank, Call.step, Step.rank]) (by simp) (Or.inr rfl) htd
          simpa [negotiate, h1, h2, h3, h4, List.append_assoc] using this
        | none =>
          have h7 := Upto_next 6 _
            [Call.SetLocalDescription pc answer none, Call.LocalDescription pc]
            h6 (by simp) (by decide) (by simp [Call.rank, Call.step, Step.rank, Call.stepError])
          have := Mandated_of_Upto 7 7 _ [] [] [] h7 (by simp) (by simp) (by simp)
            (Or.inl rfl) (by simp)
          simpa [negotiate, h1, h2, h3, h4, List.append_assoc] using this

theorem negotiate_rank (eng : Engine) (h : ScreenShareHandler) (id : UUID)
    (pc : PeerConnection) (screen : MediaStream) (audio : Option MediaStream) (ty : SDPType)
    (req : OfferRequest) :
    ∀ c ∈ (negotiate eng h id pc screen audio ty req).2.1, 4 ≤ c.rank := by
  have hseg := attach_segment eng pc screen audio
  have htd : ∀ c ∈ (cleanup eng h id (some screen) audio).2, 4 ≤ c.rank := by
    intro c hc
    rw [Call.rank_of_step_none c (cleanup_calls eng h id (some screen) audio c hc)]
    decide
  have hseg2 : ∀ c ∈ (AddTracksToPeerConnection eng pc screen audio).2, 4 ≤ c.rank :=
    fun c hc => le_of_eq (hseg c hc).1.symm
  intro c hc
  cases h1 : (AddTracksToPeerConnection eng pc screen audio).1 with
  | some e =>
    simp only [negotiate, h1, List.mem_append, List.mem_singleton] at hc
    rcases hc with (h2 | h2) | h2
    · exact hseg2 c h2
    · subst h2
      simp [Call.rank, Call.step, Step.rank]
    · exact htd c h2
  | none =>
    cases h2 : eng.SetRemoteDescription pc { typ := ty, SDP := req.SDP } with
    | some e =>
      simp only [negotiate, h1, h2, List.mem_append, List.mem_singleton] at hc
      rcases hc with ((h3 | h3) | h3) | h3
      · exact hseg2 c h3
      · subst h3
        simp [Call.rank, Call.step, Step.rank]
      · subst h3
        simp [Call.rank, Call.step, Step.rank]
      · exact htd c h3
    | none =>
      cases h3 : eng.CreateAnswer pc with
      | error e =>
        simp only [negotiate, h1, h2, h3, List.mem_append, List.mem_singleton] at hc
        rcases hc with (((h4 | h4) | h4) | h4) | h4
        · exact hseg2 c h4
        · subst h4
          simp [Call.rank, Call.step, Step.rank]
        · subst h4
          simp [Call.rank, Call.step, Step.rank]
        · subst h4
          simp [Call.rank, Call.step, Step.rank]
        · exact htd c h4
      | ok answer =>
        cases h4 : eng.SetLocalDescription pc answer with
        | some e =>
          simp only [negotiate, h1, h2, h3, h4, List.mem_append, List.mem_singleton] at hc
          rcases hc with ((((h5 | h5) | h5) | h5) | h5) | h5
          · exact hseg2 c h5
          · subst h5
            simp [Call.rank, Call.step, Step.rank]
          · subst h5
            simp [Call.rank, Call.step, Step.rank]
          · subst h5
            simp [Call.rank, Call.step, Step.rank]
          · subst h5
            simp [Call.rank, Call.step, Step.rank]
          · exact htd c h5
        | none =>
          simp only [negotiate, h1, h2, h3, h4, List.mem_append, List.mem_singleton,
            List.mem_cons, List.mem_nil_iff, or_false] at hc
          rcases hc with (((h5 | h5) | h5) | h5) | h5 | h5
          · exact hseg2 c h5
          · subst h5
            simp [Call.rank, Call.step, Step.rank]
          · subst h5
            simp [Call.rank, Call.step, Step.rank]
          · subst h5
            simp [Call.rank, Call.step, Step.rank]
          · subst h5
            simp [Call.rank, Call.step, Step.rank]
          · subst h5
            simp [Call.rank, Call.step, Step.rank]

theorem acquireAudio_started (env : OfferEnv) (screen a : MediaStream)
    (hstart : Call.audioStartCapture none ∈ (acquireAudio env screen).2)
    (ha : env.audioStartCapture = Except.ok a) : (acquireAudio env screen).1 = some a := by
  rcases acquireAudio_cases env screen with h | ⟨e, _, h⟩ | ⟨a2, ha2, _, h⟩ <;> rw [h] at hstart ⊢
  · simp at hstart
  · simp at hstart
  · rw [ha] at ha2
    cases ha2
    rfl

theorem not_mem_closeTracksOpt (st : Option MediaStream) (c : Call)
    (hc : ∀ t, c ≠ Call.trackClose t) : c ∉ closeTracksOpt st := by
  intro h
  obtain ⟨t, ht⟩ := closeTracksOpt_calls st c h
  exact hc t ht

theorem addVideoTracks_ok (eng : Engine) (pc : PeerConnection) (ts : List Track)
    (hadd : ∀ t ∈ ts, eng.AddTransceiverFromTrack pc t = none) :
    addVideoTracks eng pc ts =
      (none, ts.map (fun t => Call.AddTransceiverFromTrack pc t none)) := by
  induction ts with
  | nil => rfl
  | cons t ts ih =>
    have h1 : eng.AddTransceiverFromTrack pc t = none := hadd t (by simp)
    have h2 := ih (fun u hu => hadd u (by simp [hu]))
    simp [addVideoTracks, h1, h2]

theorem AddTracksToPeerConnection_video_only (eng : Engine) (pc : PeerConnection)
    (screen : MediaStream) (hv : screen.GetVideoTracks ≠ [])
    (hadd : ∀ t ∈ screen.GetVideoTracks, eng.AddTransceiverFromTrack pc t = none) :
    AddTracksToPeerConnection eng pc screen none =
      (none, screen.GetVideoTracks.map (fun t => Call.AddTransceiverFromTrack pc t none)) := by
  have hlen : ¬ screen.GetVideoTracks.length = 0 := by
    intro h0
    exact hv (List.length_eq_zero.1 h0)
  simp [AddTracksToPeerConnection, hlen, addVideoTracks_ok eng pc _ hadd]

theorem HandleOffer_registered (eng : Engine) (env : OfferEnv) (h : ScreenShareHandler)
    (s : webrtcService) (body : Except String OfferRequest) (req : OfferRequest)
    (screen : MediaStream) (ty : SDPType) (pc : PeerConnection)
    (hb : ShouldBindJSON body = Except.ok req) (hs : env.screenStartCapture = Except.ok screen)
    (hp : parseSDPType req.typ = some ty) (hn : env.NewPeerConnection = Except.ok pc) :
    HandleOffer eng env h s body =
      ⟨(negotiate eng { h with peerConnections := mapInsert h.peerConnections env.handlerUUID pc }
          env.handlerUUID pc screen (acquireAudio env screen).1 ty req).1,
        withStateCallbacks
          { peerConnections := mapInsert s.peerConnections env.serviceUUID pc,
            stateCallbacks := (pc, env.serviceUUID) :: s.stateCallbacks }
          (negotiate eng { h with peerConnections := mapInsert h.peerConnections env.handlerUUID pc }
            env.handlerUUID pc screen (acquireAudio env screen).1 ty req).2.1,
        registeredCalls env screen pc ++
          (negotiate eng { h with peerConnections := mapInsert h.peerConnections env.handlerUUID pc }
            env.handlerUUID pc screen (acquireAudio env screen).1 ty req).2.1,
        (negotiate eng { h with peerConnections := mapInsert h.peerConnections env.handlerUUID pc }
          env.handlerUUID pc screen (acquireAudio env screen).1 ty req).2.2⟩ := by
  simp [HandleOffer, hb, hs, hp, hn, webrtcService.CreatePeerConnection, registeredCalls]

theorem registeredCalls_upto (env : OfferEnv) (screen : MediaStream) (pc : PeerConnection) :
    Upto 3 (registeredCalls env screen pc) := by
  have h0 := Upto_same 0 _ (acquireAudio env screen).2 Upto_start (by
    intro c hc
    obtain ⟨e, he⟩ := acquireAudio_calls env screen c hc
    subst he
    exact ⟨rfl, rfl⟩)
  have h1 := Upto_next 0 _
    [Call.OnConnectionStateChange pc,
      Call.CreatePeerConnection screen (acquireAudio env screen).1 none]
    h0 (by simp) (by decide) (by simp [Call.rank, Call.step, Step.rank, Call.stepError])
  have h2 := Upto_next 1 _ [Call.registryInsert env.handlerUUID pc]
    h1 (by simp) (by decide) (by simp [Call.rank, Call.step, Step.rank, Call.stepError])
  have h3 := Upto_next 2 _ [Call.OnICECandidate pc env.handlerUUID]
    h2 (by simp) (by decide) (by simp [Call.rank, Call.step, Step.rank, Call.stepError])
  simpa [registeredCalls, List.append_assoc] using h3

theorem HandleOffer_mandated (eng : Engine) (env : OfferEnv) (h : ScreenShareHandler)
    (s : webrtcService) (body : Except String OfferRequest) :
    Mandated (HandleOffer eng env h s body).calls := by
  cases hb : ShouldBindJSON body with
  | error e => simpa [HandleOffer, hb] using Mandated_nil
  | ok req =>
    cases hs : env.screenStartCapture with
    | error e => simpa [HandleOffer, hb, hs] using Mandated_capture_failed (some e)
    | ok screen =>
      have h0 := Upto_same 0 _ (acquireAudio env screen).2 Upto_start (by
        intro c hc
        obtain ⟨e, he⟩ := acquireAudio_calls env screen c hc
        subst he
        exact ⟨rfl, rfl⟩)
      have htd : ∀ c ∈ closeTracks screen ++ closeTracksOpt (acquireAudio env screen).1,
          c.step = none := by
        intro c hc
        rcases List.mem_append.1 hc with h1 | h1
        · obtain ⟨t, ht⟩ := closeTracksOpt_calls (some screen) c h1
          subst ht
          rfl
        · obtain ⟨t, ht⟩ := closeTracksOpt_calls _ c h1
          subst ht
          rfl
      cases hp : parseSDPType req.typ with
      | none =>
        have := Mandated_of_Upto 0 0 _ [] [] _ h0 (by simp) (by simp) (by simp) (Or.inl rfl) htd
        simpa [HandleOffer, hb, hs, hp, List.append_assoc] using this
      | some ty =>
        cases hn : env.NewPeerConnection with
        | error e =>
          have := Mandated_of_Upto 0 1 _ []
            [Call.CreatePeerConnection screen (acquireAudio env screen).1 (some e)] _ h0
            (by simp) (by simp [Call.rank, Call.step, Step.rank]) (by simp) (Or.inr rfl) htd
          simpa [HandleOffer, hb, hs, hp, hn, webrtcService.CreatePeerConnection,
            List.append_assoc] using this
        | ok pc =>
          rw [HandleOffer_registered eng env h s body req screen ty pc hb hs hp hn]
          exact negotiate_mandated eng _ _ pc screen _ ty req _
            (registeredCalls_upto env screen pc)

theorem Mandated_split (l pre post : List Call) (c : Call) (hl : Mandated l)
    (hsplit : l = pre ++ c :: post) :
    (∀ x ∈ post, c.rank ≤ x.rank) ∧ (c.stepError ≠ none → ∀ x ∈ post, x.step = none) ∧
      ∀ st0 : Step, c.step = some st0 → ∀ st : Step, st.rank < st0.rank →
        ∃ d ∈ pre, d.step = some st := by
  obtain ⟨hp, hn⟩ := hl
  subst hsplit
  rw [List.pairwise_append, List.pairwise_cons] at hp
  obtain ⟨_, ⟨hcp, _⟩, _⟩ := hp
  refine ⟨fun x hx => (hcp x hx).1, fun he x hx => (hcp x hx).2 he, ?_⟩
  intro st0 hst0 st hlt
  obtain ⟨d, hdm, hds⟩ := hn c (by simp) st0 hst0 st hlt
  simp only [List.mem_append, List.mem_cons] at hdm
  rcases hdm with h1 | h1 | h1
  · exact ⟨d, h1, hds⟩
  · subst h1
    rw [hst0] at hds
    cases hds
    omega
  · have h2 := (hcp d h1).1
    rw [Call.rank_of_step c st0 hst0, Call.rank_of_step d st hds] at h2
    omega

theorem negotiate_success_calls (eng : Engine) (h : ScreenShareHandler) (id : UUID)
    (pc : PeerConnection) (screen : MediaStream) (audio : Option MediaStream) (ty : SDPType)
    (req : OfferRequest) (hok : (negotiate eng h id pc screen audio ty req).2.2.code = 200) :
    Call.LocalDescription pc ∈ (negotiate eng h id pc screen audio ty req).2.1 := by
  cases h1 : (AddTracksToPeerConnection eng pc screen audio).1 with
  | some e => simp [negotiate, h1] at hok
  | none =>
    cases h2 : eng.SetRemoteDescription pc { typ := ty, SDP := req.SDP } with
    | some e => simp [negotiate, h1, h2] at hok
    | none =>
      cases h3 : eng.CreateAnswer pc with
      | error e => simp [negotiate, h1, h2, h3] at hok
      | ok answer =>
        cases h4 : eng.SetLocalDescription pc answer with
        | some e => simp [negotiate, h1, h2, h3, h4] at hok
        | none => simp [negotiate, h1, h2, h3, h4]

theorem HandleOffer_success_calls (eng : Engine) (env : OfferEnv) (h : ScreenShareHandler)
    (s : webrtcService) (body : Except String OfferRequest)
    (hok : (HandleOffer eng env h s body).resp.code = 200) :
    ∃ pc, Call.LocalDescription pc ∈ (HandleOffer eng env h s body).calls := by
  cases hb : ShouldBindJSON body with
  | error e => simp [HandleOffer, hb] at hok
  | ok req =>
    cases hs : env.screenStartCapture with
    | error e => simp [HandleOffer, hb, hs] at hok
    | ok screen =>
      cases hp : parseSDPType req.typ with
      | none => simp [HandleOffer, hb, hs, hp] at hok
      | some ty =>
        cases hn : env.NewPeerConnection with
        | error e =>
          simp [HandleOffer, hb, hs, hp, hn, webrtcService.CreatePeerConnection] at hok
        | ok pc =>
          rw [HandleOffer_registered eng env h s body req screen ty pc hb hs hp hn] at hok ⊢
          exact ⟨pc, List.mem_append_right _ (negotiate_success_calls eng _ _ pc screen _ ty req hok)⟩

/-! ## Facts about the connection-state handler -/

theorem mapDelete_insert {V : Type} (m : List (UUID × V)) (k : UUID) (v : V) :
    mapDelete (mapInsert m k v) k = mapDelete m k := by
  induction m with
  | nil => simp [mapInsert, mapDelete]
  | cons e m ih =>
    obtain ⟨k1, v1⟩ := e
    by_cases hk : k1 = k
    · simp [mapInsert, mapDelete, hk]
    · simp only [mapDelete, ne_eq, decide_not] at ih
      simp [mapInsert, mapDelete, hk, ih]

theorem withStateCallbacks_append (s : webrtcService) (l1 l2 : List Call) :
    withStateCallbacks s (l1 ++ l2) = withStateCallbacks (withStateCallbacks s l1) l2 := by
  induction l1 generalizing s with
  | nil => rfl
  | cons c l1 ih => cases c <;> simp [withStateCallbacks, ih]

theorem withStateCallbacks_of_released (s : webrtcService) (l : List Call)
    (hl : ∀ c ∈ l, ∀ pc e, c ≠ Call.Close pc e) : withStateCallbacks s l = s := by
  induction l with
  | nil => rfl
  | cons c l ih =>
    have hc := hl c (by simp)
    have hr := ih (fun d hd => hl d (by simp [hd]))
    cases c <;> simp [withStateCallbacks, hr]
    exact absurd rfl (hc _ _)

theorem cleanup_service (eng : Engine) (h : ScreenShareHandler) (id : UUID)
    (screen audio : Option MediaStream) (s : webrtcService) :
    withStateCallbacks s (cleanup eng h id screen audio).2 =
      match mapLookup h.peerConnections id with
      | some pc => s.peerConnectionClosed pc
      | none => s := by
  have htr : ∀ (st : Option MediaStream) (s2 : webrtcService),
      withStateCallbacks s2 (closeTracksOpt st) = s2 := by
    intro st s2
    apply withStateCallbacks_of_released
    intro c hc pc e hce
    obtain ⟨t, ht⟩ := closeTracksOpt_calls st c hc
    rw [ht] at hce
    cases hce
  have hstop : ∀ s2 : webrtcService,
      withStateCallbacks s2
        (match audio with
          | some _ => [Call.audioStopCapture]
          | none => []) = s2 := by
    intro s2
    cases audio <;> rfl
  unfold cleanup
  simp only [withStateCallbacks_append, htr, hstop]
  cases hf : mapLookup h.peerConnections id <;> simp [withStateCallbacks]

theorem negotiate_service (eng : Engine) (h : ScreenShareHandler) (id : UUID)
    (pc : PeerConnection) (screen : MediaStream) (audio : Option MediaStream) (ty : SDPType)
    (req : OfferRequest) (s : webrtcService) :
    withStateCallbacks s (negotiate eng h id pc screen audio ty req).2.1 =
      if (negotiate eng h id pc screen audio ty req).2.2.code = 200 then s
      else withStateCallbacks s (cleanup eng h id (some screen) audio).2 := by
  have hseg : withStateCallbacks s (AddTracksToPeerConnection eng pc screen audio).2 = s := by
    apply withStateCallbacks_of_released
    intro c hc pc2 e hce
    obtain ⟨t, e2, hc2, _⟩ := AddTracksToPeerConnection_calls eng pc screen audio c hc
    rw [hc2] at hce
    cases hce
  cases h1 : (AddTracksToPeerConnection eng pc screen audio).1 with
  | some e => simp [negotiate, h1, withStateCallbacks_append, hseg, withStateCallbacks]
  | none =>
    cases h2 : eng.SetRemoteDescription pc { typ := ty, SDP := req.SDP } with
    | some e => simp [negotiate, h1, h2, withStateCallbacks_append, hseg, withStateCallbacks]
    | none =>
      cases h3 : eng.CreateAnswer pc with
      | error e => simp [negotiate, h1, h2, h3, withStateCallbacks_append, hseg, withStateCallbacks]
      | ok answer =>
        cases h4 : eng.SetLocalDescription pc answer with
        | some e =>
          simp [negotiate, h1, h2, h3, h4, withStateCallbacks_append, hseg, withStateCallbacks]
        | none =>
          simp [negotiate, h1, h2, h3, h4, withStateCallbacks_append, hseg, withStateCallbacks]

theorem peerConnectionClosed_created (s : webrtcService) (k : UUID) (pc : PeerConnection) :
    webrtcService.peerConnectionClosed
        { peerConnections := mapInsert s.peerConnections k pc,
          stateCallbacks := (pc, k) :: s.stateCallbacks } pc =
      { peerConnections := mapDelete s.peerConnections k,
        stateCallbacks := s.stateCallbacks.filter (fun e => decide (e.1 ≠ pc)) } := by
  simp [webrtcService.peerConnectionClosed, webrtcService.onConnectionStateChange,
    mapDelete_insert, List.lookup]

/-! ## Telling the failures apart -/

theorem startsWith_append_self (p e : String) : startsWith p (p ++ e) = true := by
  simp [startsWith, String.data_append]

theorem startsWith_append_other (p q e : String) (h1 : ¬ q.data <+: p.data)
    (h2 : ¬ p.data <+: q.data) : startsWith q (p ++ e) = false := by
  simp only [startsWith, String.data_append, decide_eq_false_iff_not]
  intro hq
  rcases List.prefix_or_prefix_of_prefix hq (List.prefix_append p.data e.data) with h | h
  · exact h1 h
  · exact h2 h

theorem failureClass_capture (e : String) :
    failureClass ⟨500, none, Body.error ("failed to start screen capture: " ++ e)⟩ =
      some Step.capture := by
  simp [failureClass, startsWith_append_self]

theorem failureClass_createSession (e : String) :
    failureClass ⟨500, none, Body.error ("failed to create peer connection: " ++ e)⟩ =
      some Step.createSession := by
  simp [failureClass, startsWith_append_self,
    startsWith_append_other "failed to create peer connection: "
      "failed to start screen capture: " e (by decide) (by decide)]

theorem failureClass_attachTracks (e : String) :
    failureClass ⟨500, none, Body.error ("failed to add tracks: " ++ e)⟩ =
      some Step.attachTracks := by
  simp [failureClass, startsWith_append_self,
    startsWith_append_other "failed to add tracks: "
      "failed to start screen capture: " e (by decide) (by decide),
    startsWith_append_other "failed to add tracks: "
      "failed to create peer connection: " e (by decide) (by decide)]

theorem failureClass_remoteDescription (e : String) :
    failureClass ⟨500, none, Body.error ("failed to set remote description: " ++ e)⟩ =
      some Step.remoteDescription := by
  simp [failureClass, startsWith_append_self,
    startsWith_append_other "failed to set remote description: "
      "failed to start screen capture: " e (by decide) (by decide),
    startsWith_append_other "failed to set remote description: "
      "failed to create peer connection: " e (by decide) (by decide),
    startsWith_append_other "failed to set remote description: "
      "failed to add tracks: " e (by decide) (by decide)]

theorem failureClass_createAnswer (e : String) :
    failureClass ⟨500, none, Body.error ("failed to create answer: " ++ e)⟩ =
      some Step.createAnswer := by
  simp [failureClass, startsWith_append_self,
    startsWith_append_other "failed to create answer: "
      "failed to start screen capture: " e (by decide) (by decide),
    startsWith_append_other "failed to create answer: "
      "failed to create peer connection: " e (by decide) (by decide),
    startsWith_append_other "failed to create answer: "
      "failed to add tracks: " e (by decide) (by decide),
    startsWith_append_other "failed to create answer: "
      "failed to set remote description: " e (by decide) (by decide)]

theorem failureClass_localDescription (e : String) :
    failureClass ⟨500, none, Body.error ("failed to set local description: " ++ e)⟩ =
      some Step.localDescription := by
  simp [failureClass, startsWith_append_self,
    startsWith_append_other "failed to set local description: "
      "failed to start screen capture: " e (by decide) (by decide),
    startsWith_append_other "failed to set local description: "
      "failed to create peer connection: " e (by decide) (by decide),
    startsWith_append_other "failed to set local description: "
      "failed to add tracks: " e (by decide) (by decide),
    startsWith_append_other "failed to set local description: "
      "failed to set remote description: " e (by decide) (by decide),
    startsWith_append_other "failed to set local description: "
      "failed to create answer: " e (by decide) (by decide)]

theorem failedStep_none (l : List Call) (hl : ∀ c ∈ l, c.stepError = none) :
    failedStep l = none := by
  have : l.find? (fun c => c.stepError.isSome) = none := by
    rw [List.find?_eq_none]
    intro c hc
    simp [hl c hc]
  simp [failedStep, this]

theorem failedStep_skip (l rest : List Call) (hl : ∀ c ∈ l, c.stepError = none) :
    failedStep (l ++ rest) = failedStep rest := by
  have : l.find? (fun c => c.stepError.isSome) = none := by
    rw [List.find?_eq_none]
    intro c hc
    simp [hl c hc]
  simp [failedStep, List.find?_append, this]

theorem failedStep_hit (f : Call) (rest : List Call) (e : String) (hf : f.stepError = some e) :
    failedStep (f :: rest) = f.step := by
  simp [failedStep, List.find?_cons, hf]

theorem failedStep_of_shape (calls l td : List Call) (f : Call) (e : String)
    (hshape : calls = l ++ f :: td) (hl : ∀ c ∈ l, c.stepError = none)
    (hf : f.stepError = some e) : failedStep calls = f.step := by
  rw [hshape, failedStep_skip l _ hl, failedStep_hit f td e hf]

theorem stepError_none_append (l1 l2 : List Call) (h1 : ∀ c ∈ l1, c.stepError = none)
    (h2 : ∀ c ∈ l2, c.stepError = none) : ∀ c ∈ l1 ++ l2, c.stepError = none := by
  intro c hc
  rcases List.mem_append.1 hc with h | h
  · exact h1 c h
  · exact h2 c h

theorem negotiate_class (eng : Engine) (h : ScreenShareHandler) (id : UUID)
    (pc : PeerConnection) (screen : MediaStream) (audio : Option MediaStream) (ty : SDPType)
    (req : OfferRequest) (l : List Call) (hl : ∀ c ∈ l, c.stepError = none)
    (hfail : (negotiate eng h id pc screen audio ty req).2.2.code ≠ 200) :
    failureClass (negotiate eng h id pc screen audio ty req).2.2 =
      failedStep (l ++ (negotiate eng h id pc screen audio ty req).2.1) := by
  rw [failedStep_skip l _ hl]
  have hseg : ∀ c ∈ (AddTracksToPeerConnection eng pc screen audio).2, c.stepError = none :=
    fun c hc => (attach_segment eng pc screen audio c hc).2
  cases h1 : (AddTracksToPeerConnection eng pc screen audio).1 with
  | some e =>
    rw [failedStep_of_shape _ (AddTracksToPeerConnection eng pc screen audio).2
      (cleanup eng h id (some screen) audio).2
      (Call.AddTracksToPeerConnection pc screen audio (some e)) e
      (by simp [negotiate, h1]) hseg rfl]
    have hr : (negotiate eng h id pc screen audio ty req).2.2 =
        ⟨500, none, Body.error ("failed to add tracks: " ++ e)⟩ := by
      simp [negotiate, h1]
    rw [hr, failureClass_attachTracks]
    rfl
  | none =>
    have hseg2 := stepError_none_append _
      [Call.AddTracksToPeerConnection pc screen audio none] hseg (by simp [Call.stepError])
    cases h2 : eng.SetRemoteDescription pc { typ := ty, SDP := req.SDP } with
    | some e =>
      rw [failedStep_of_shape _ _ (cleanup eng h id (some screen) audio).2
        (Call.SetRemoteDescription pc { typ := ty, SDP := req.SDP } (some e)) e
        (by simp [negotiate, h1, h2]) hseg2 rfl]
      have hr : (negotiate eng h id pc screen audio ty req).2.2 =
          ⟨500, none, Body.error ("failed to set remote description: " ++ e)⟩ := by
        simp [negotiate, h1, h2]
      rw [hr, failureClass_remoteDescription]
      rfl
    | none =>
      have hseg3 := stepError_none_append _
        [Call.SetRemoteDescription pc { typ := ty, SDP := req.SDP } none] hseg2
        (by simp [Call.stepError])
      cases h3 : eng.CreateAnswer pc with
      | error e =>
        rw [failedStep_of_shape _ _ (cleanup eng h id (some screen) audio).2
          (Call.CreateAnswer pc (some e)) e (by simp [negotiate, h1, h2, h3]) hseg3 rfl]
        have hr : (negotiate eng h id pc screen audio ty req).2.2 =
            ⟨500, none, Body.error ("failed to create answer: " ++ e)⟩ := by
          simp [negotiate, h1, h2, h3]
        rw [hr, failureClass_createAnswer]
        rfl
      | ok answer =>
        have hseg4 := stepError_none_append _ [Call.CreateAnswer pc none] hseg3
          (by simp [Call.stepError])
        cases h4 : eng.SetLocalDescription pc answer with
        | some e =>
          rw [failedStep_of_shape _ _ (cleanup eng h id (some screen) audio).2
            (Call.SetLocalDescription pc answer (some e)) e
            (by simp [negotiate, h1, h2, h3, h4]) hseg4 rfl]
          have hr : (negotiate eng h id pc screen audio ty req).2.2 =
              ⟨500, none, Body.error ("failed to set local description: " ++ e)⟩ := by
            simp [negotiate, h1, h2, h3, h4]
          rw [hr, failureClass_localDescription]
          rfl
        | none => simp [negotiate, h1, h2, h3, h4] at hfail

theorem HandleOffer_class (eng : Engine) (env : OfferEnv) (h : ScreenShareHandler)
    (s : webrtcService) (body : Except String OfferRequest)
    (hfail : (HandleOffer eng env h s body).resp.code ≠ 200) :
    failureClass (HandleOffer eng env h s body).resp =
      failedStep (HandleOffer eng env h s body).calls := by
  cases hb : ShouldBindJSON body with
  | error e => simp [HandleOffer, hb, failureClass, failedStep]
  | ok req =>
    cases hs : env.screenStartCapture with
    | error e =>
      simp only [HandleOffer, hb, hs]
      rw [failedStep_hit (Call.screenStartCapture (some e)) [] e rfl, failureClass_capture]
      rfl
    | ok screen =>
      have h0 : ∀ c ∈ Call.screenStartCapture none :: (acquireAudio env screen).2,
          c.stepError = none := by
        intro c hc
        rcases List.mem_cons.1 hc with h1 | h1
        · subst h1
          rfl
        · obtain ⟨e, he⟩ := acquireAudio_calls env screen c h1
          subst he
          rfl
      have htd : ∀ c ∈ closeTracks screen ++ closeTracksOpt (acquireAudio env screen).1,
          c.stepError = none := by
        intro c hc
        rcases List.mem_append.1 hc with h1 | h1
        · obtain ⟨t, ht⟩ := closeTracksOpt_calls (some screen) c h1
          subst ht
          rfl
        · obtain ⟨t, ht⟩ := closeTracksOpt_calls _ c h1
          subst ht
          rfl
      cases hp : parseSDPType req.typ with
      | none =>
        simp only [HandleOffer, hb, hs, hp, List.append_assoc]
        rw [failedStep_skip _ _ h0, failedStep_none _ htd]
        simp [failureClass]
      | some ty =>
        cases hn : env.NewPeerConnection with
        | error e =>
          rw [failedStep_of_shape _ _
            (closeTracks screen ++ closeTracksOpt (acquireAudio env screen).1)
            (Call.CreatePeerConnection screen (acquireAudio env screen).1 (some e)) e
            (by simp [HandleOffer, hb, hs, hp, hn, webrtcService.CreatePeerConnection]) h0 rfl]
          have hr : (HandleOffer eng env h s body).resp =
              ⟨500, none, Body.error ("failed to create peer connection: " ++ e)⟩ := by
            simp [HandleOffer, hb, hs, hp, hn, webrtcService.CreatePeerConnection]
          rw [hr, failureClass_createSession]
          rfl
        | ok pc =>
          rw [HandleOffer_registered eng env h s body req screen ty pc hb hs hp hn] at hfail ⊢
          exact negotiate_class eng _ _ pc screen _ ty req _
            (fun c hc => ((registeredCalls_upto env screen pc).2.1 c hc).2) hfail

/-! ## Claims -/

/-- C1, as stated, fails: `uuid.New()` returning the id 5, which is already a
key of the registry, `HandleOffer` succeeds and the registry has one entry
afterwards, as it had before, not one entry more. -/
theorem HandleOffer_success_count_counterexample :
    (HandleOffer engineOK envCollide handlerOne serviceOne offerBody).resp.code = 200 ∧
      (HandleOffer engineOK envCollide handlerOne serviceOne offerBody).resp.peerConnectionID =
        some 5 ∧
      handlerOne.peerConnections.length = 1 ∧
      (HandleOffer engineOK envCollide handlerOne serviceOne offerBody).h.peerConnections.length =
        1 ∧
      (HandleOffer engineOK envCollide handlerOne serviceOne offerBody).h.peerConnections.length ≠
        handlerOne.peerConnections.length + 1 := by
  decide

/-- C1, amended: after a successful `HandleOffer` the registry holds, under
the id sent back in `X-Peer-Connection-ID`, the peer connection created in
this call, the lookup of `HandleICE` by that id finds it (no 404), and every
other id has the entry it had.  The registry has exactly the entries it had
plus one when the `uuid.New()` id was not yet a key; when it was one, the
entry of that id is replaced and the keys, hence the number of entries, are
the same as before. -/
theorem HandleOffer_success_registers (eng : Engine) (env : OfferEnv) (h : ScreenShareHandler)
    (s : webrtcService) (body : Except String OfferRequest)
    (hok : (HandleOffer eng env h s body).resp.code = 200) :
    ∃ pc, env.NewPeerConnection = Except.ok pc ∧
      (HandleOffer eng env h s body).resp.peerConnectionID = some env.handlerUUID ∧
      mapLookup (HandleOffer eng env h s body).h.peerConnections env.handlerUUID = some pc ∧
      (∀ (Parse : String → Option UUID) (id : String) (cand : Except String ICECandidateInit),
        Parse id = some env.handlerUUID →
        (HandleICE eng Parse (HandleOffer eng env h s body).h (HandleOffer eng env h s body).s
          id cand).resp.code ≠ 404) ∧
      (∀ k, k ≠ env.handlerUUID →
        mapLookup (HandleOffer eng env h s body).h.peerConnections k =
          mapLookup h.peerConnections k) ∧
      (env.handlerUUID ∉ mapKeys h.peerConnections →
        (HandleOffer eng env h s body).h.peerConnections =
            h.peerConnections ++ [(env.handlerUUID, pc)] ∧
          (HandleOffer eng env h s body).h.peerConnections.length =
            h.peerConnections.length + 1) ∧
      (env.handlerUUID ∈ mapKeys h.peerConnections →
        mapKeys (HandleOffer eng env h s body).h.peerConnections = mapKeys h.peerConnections ∧
          (HandleOffer eng env h s body).h.peerConnections.length = h.peerConnections.length) := by
  cases hb : ShouldBindJSON body with
  | error e => simp [HandleOffer, hb] at hok
  | ok req =>
    cases hs : env.screenStartCapture with
    | error e => simp [HandleOffer, hb, hs] at hok
    | ok screen =>
      cases hp : parseSDPType req.typ with
      | none => simp [HandleOffer, hb, hs, hp] at hok
      | some ty =>
        cases hn : env.NewPeerConnection with
        | error e =>
          simp [HandleOffer, hb, hs, hp, hn, webrtcService.CreatePeerConnection] at hok
        | ok pc =>
          rw [HandleOffer_registered eng env h s body req screen ty pc hb hs hp hn] at hok ⊢
          simp only at hok ⊢
          rcases negotiate_outcome eng
              { h with peerConnections := mapInsert h.peerConnections env.handlerUUID pc }
              env.handlerUUID pc screen (acquireAudio env screen).1 ty req with
            ⟨_, hid, hst⟩ | ⟨hc, _, _⟩
          · refine ⟨pc, rfl, hid, ?_, ?_, ?_, ?_, ?_⟩
            · rw [hst]
              exact mapLookup_insert_self _ _ _
            · intro Parse id cand hparse
              rw [hst]
              have hl := mapLookup_insert_self h.peerConnections env.handlerUUID pc
              cases cand with
              | error e => simp [HandleICE, hparse, hl]
              | ok c =>
                cases ha : eng.AddICECandidate pc c with
                | none => simp [HandleICE, hparse, hl, ha]
                | some e => simp [HandleICE, hparse, hl, ha]
            · intro k hk
              rw [hst]
              exact mapLookup_insert_other _ _ _ _ hk
            · intro hfresh
              rw [hst]
              exact ⟨mapInsert_of_not_mem _ _ _ hfresh, by
                simp [mapInsert_of_not_mem _ _ _ hfresh]⟩
            · intro hpresent
              rw [hst]
              have hkeys := mapKeys_insert_of_mem h.peerConnections env.handlerUUID pc hpresent
              refine ⟨hkeys, ?_⟩
              have hlen := congrArg List.length hkeys
              simpa [mapKeys] using hlen
          · rw [hc] at hok
            exact absurd hok (by decide)

/-- Witness of C1 amended: a full negotiation on a handler that already has
one session, under an id that is not yet a key. -/
theorem HandleOffer_success_registers_witness :
    (HandleOffer engineOK envOK handlerOne serviceOne offerBody).resp.code = 200 ∧
      ∃ pc, envOK.NewPeerConnection = Except.ok pc ∧
        (HandleOffer engineOK envOK handlerOne serviceOne offerBody).resp.peerConnectionID =
          some envOK.handlerUUID ∧
        mapLookup (HandleOffer engineOK envOK handlerOne serviceOne offerBody).h.peerConnections
          envOK.handlerUUID = some pc ∧
        (∀ (Parse : String → Option UUID) (id : String) (cand : Except String ICECandidateInit),
          Parse id = some envOK.handlerUUID →
          (HandleICE engineOK Parse (HandleOffer engineOK envOK handlerOne serviceOne offerBody).h
            (HandleOffer engineOK envOK handlerOne serviceOne offerBody).s id cand).resp.code ≠
              404) ∧
        (∀ k, k ≠ envOK.handlerUUID →
          mapLookup (HandleOffer engineOK envOK handlerOne serviceOne offerBody).h.peerConnections
            k = mapLookup handlerOne.peerConnections k) ∧
        (envOK.handlerUUID ∉ mapKeys handlerOne.peerConnections →
          (HandleOffer engineOK envOK handlerOne serviceOne offerBody).h.peerConnections =
              handlerOne.peerConnections ++ [(envOK.handlerUUID, pc)] ∧
            (HandleOffer engineOK envOK handlerOne serviceOne offerBody).h.peerConnections.length =
              handlerOne.peerConnections.length + 1) ∧
        (envOK.handlerUUID ∈ mapKeys handlerOne.peerConnections →
          mapKeys (HandleOffer engineOK envOK handlerOne serviceOne offerBody).h.peerConnections =
              mapKeys handlerOne.peerConnections ∧
            (HandleOffer engineOK envOK handlerOne serviceOne offerBody).h.peerConnections.length =
              handlerOne.peerConnections.length) :=
  ⟨by decide,
    HandleOffer_success_registers engineOK envOK handlerOne serviceOne offerBody (by decide)⟩

/-- C2, as stated, fails: `uuid.New()` returning the id 5 of a live session
and the commit of the local description failing, `HandleOffer` answers 500
and the registry, which held that session and its candidate list before the
call, is empty afterwards: `cleanup` deleted the id from both maps. -/
theorem HandleOffer_failure_registry_counterexample :
    handlerOne.peerConnections = [(5, 3)] ∧
      handlerOne.iceCandidates = [(5, ["cand-a"])] ∧
      (HandleOffer engineNoCommit envCollide handlerOne serviceOne offerBody).resp.code = 500 ∧
      (HandleOffer engineNoCommit envCollide handlerOne serviceOne offerBody).h.peerConnections =
        [] ∧
      (HandleOffer engineNoCommit envCollide handlerOne serviceOne offerBody).h.iceCandidates =
        [] := by
  decide

/-- C2, amended: a failing `HandleOffer` either fails before registration, and
then the session was never put in the registry and both maps are as they were,
or it fails after registration, and then `cleanup` has deleted the id of the
attempted session from both maps, so that the id is a key of neither.
Whatever the step that failed, every other id has the entries it had in both
maps, and both maps are equal to their contents before the call when the
`uuid.New()` id was a key of neither. -/
theorem HandleOffer_failure_registry_unchanged (eng : Engine) (env : OfferEnv)
    (h : ScreenShareHandler) (s : webrtcService) (body : Except String OfferRequest)
    (hfail : (HandleOffer eng env h s body).resp.code ≠ 200) :
    (((HandleOffer eng env h s body).h = h ∧
          ∀ id pc, Call.registryInsert id pc ∉ (HandleOffer eng env h s body).calls) ∨
        (∃ pc, Call.registryInsert env.handlerUUID pc ∈ (HandleOffer eng env h s body).calls ∧
          (HandleOffer eng env h s body).h =
            { peerConnections := mapDelete h.peerConnections env.handlerUUID,
              iceCandidates := mapDelete h.iceCandidates env.handlerUUID } ∧
          env.handlerUUID ∉ mapKeys (HandleOffer eng env h s body).h.peerConnections ∧
          env.handlerUUID ∉ mapKeys (HandleOffer eng env h s body).h.iceCandidates)) ∧
      (∀ k, k ≠ env.handlerUUID →
        mapLookup (HandleOffer eng env h s body).h.peerConnections k =
            mapLookup h.peerConnections k ∧
          mapLookup (HandleOffer eng env h s body).h.iceCandidates k =
            mapLookup h.iceCandidates k) ∧
      (env.handlerUUID ∉ mapKeys h.peerConnections →
        env.handlerUUID ∉ mapKeys h.iceCandidates →
        (HandleOffer eng env h s body).h.peerConnections = h.peerConnections ∧
          (HandleOffer eng env h s body).h.iceCandidates = h.iceCandidates) := by
  have hearly : (HandleOffer eng env h s body).h = h →
      (∀ k, k ≠ env.handlerUUID →
        mapLookup (HandleOffer eng env h s body).h.peerConnections k =
            mapLookup h.peerConnections k ∧
          mapLookup (HandleOffer eng env h s body).h.iceCandidates k =
            mapLookup h.iceCandidates k) ∧
      (env.handlerUUID ∉ mapKeys h.peerConnections →
        env.handlerUUID ∉ mapKeys h.iceCandidates →
        (HandleOffer eng env h s body).h.peerConnections = h.peerConnections ∧
          (HandleOffer eng env h s body).h.iceCandidates = h.iceCandidates) := by
    intro he
    rw [he]
    exact ⟨fun _ _ => ⟨rfl, rfl⟩, fun _ _ => ⟨rfl, rfl⟩⟩
  have hcl : ∀ (screen : MediaStream) (a : Option MediaStream) (id : UUID) (pc : PeerConnection),
      Call.registryInsert id pc ∉ closeTracks screen ++ closeTracksOpt a := by
    intro screen a id pc hmem
    rcases List.mem_append.1 hmem with h1 | h1
    · obtain ⟨t, ht⟩ := closeTracksOpt_calls (some screen) _ h1
      cases ht
    · obtain ⟨t, ht⟩ := closeTracksOpt_calls a _ h1
      cases ht
  have haud : ∀ (screen : MediaStream) (id : UUID) (pc : PeerConnection),
      Call.registryInsert id pc ∉ (acquireAudio env screen).2 := by
    intro screen id pc hmem
    obtain ⟨e, he⟩ := acquireAudio_calls env screen _ hmem
    cases he
  cases hb : ShouldBindJSON body with
  | error e =>
    have he : (HandleOffer eng env h s body).h = h := by simp [HandleOffer, hb]
    exact ⟨Or.inl ⟨he, by simp [HandleOffer, hb]⟩, hearly he⟩
  | ok req =>
    cases hs : env.screenStartCapture with
    | error e =>
      have he : (HandleOffer eng env h s body).h = h := by simp [HandleOffer, hb, hs]
      exact ⟨Or.inl ⟨he, by simp [HandleOffer, hb, hs]⟩, hearly he⟩
    | ok screen =>
      cases hp : parseSDPType req.typ with
      | none =>
        have he : (HandleOffer eng env h s body).h = h := by simp [HandleOffer, hb, hs, hp]
        refine ⟨Or.inl ⟨he, ?_⟩, hearly he⟩
        intro id pc hmem
        simp only [HandleOffer, hb, hs, hp, List.cons_append, List.mem_cons,
          List.append_assoc, List.mem_append] at hmem
        rcases hmem with h1 | h1 | h1
        · cases h1
        · exact haud screen id pc h1
        · exact hcl screen _ id pc (List.mem_append.2 h1)
      | some ty =>
        cases hn : env.NewPeerConnection with
        | error e =>
          have he : (HandleOffer eng env h s body).h = h := by
            simp [HandleOffer, hb, hs, hp, hn, webrtcService.CreatePeerConnection]
          refine ⟨Or.inl ⟨he, ?_⟩, hearly he⟩
          intro id pc hmem
          simp only [HandleOffer, hb, hs, hp, hn, webrtcService.CreatePeerConnection,
            List.cons_append, List.mem_cons, List.append_assoc, List.mem_append,
            List.append_nil, List.nil_append, List.mem_singleton] at hmem
          rcases hmem with h1 | h1 | h1 | h1
          · cases h1
          · exact haud screen id pc h1
          · cases h1
          · exact hcl screen _ id pc (List.mem_append.2 h1)
        | ok pc =>
          rw [HandleOffer_registered eng env h s body req screen ty pc hb hs hp hn] at hfail ⊢
          simp only at hfail ⊢
          rcases negotiate_outcome eng
              { h with peerConnections := mapInsert h.peerConnections env.handlerUUID pc }
              env.handlerUUID pc screen (acquireAudio env screen).1 ty req with
            ⟨hc, _, _⟩ | ⟨_, _, hst⟩
          · exact absurd hc hfail
          · rw [hst, cleanup_state]
            simp only [mapDelete_insert]
            refine ⟨Or.inr ⟨pc, by simp [registeredCalls], trivial, mapDelete_not_mem _ _,
              mapDelete_not_mem _ _⟩, ?_, ?_⟩
            · intro k hk
              exact ⟨mapLookup_delete_other _ _ _ hk, mapLookup_delete_other _ _ _ hk⟩
            · intro hfresh hfreshIce
              exact ⟨mapDelete_of_not_mem _ _ hfresh, mapDelete_of_not_mem _ _ hfreshIce⟩

/-- Witness of C2 amended: the last step, committing the local description,
fails after the session was registered under an id that was not yet a key;
both maps are as they were. -/
theorem HandleOffer_failure_registry_unchanged_witness :
    (HandleOffer engineNoCommit envOK handlerOne serviceOne offerBody).resp.code = 500 ∧
      Call.registryInsert 200 7 ∈
        (HandleOffer engineNoCommit envOK handlerOne serviceOne offerBody).calls ∧
      (HandleOffer engineNoCommit envOK handlerOne serviceOne offerBody).h.peerConnections =
        handlerOne.peerConnections ∧
      (HandleOffer engineNoCommit envOK handlerOne serviceOne offerBody).h.iceCandidates =
        handlerOne.iceCandidates :=
  have hw := HandleOffer_failure_registry_unchanged engineNoCommit envOK handlerOne serviceOne
    offerBody (by decide)
  ⟨by decide, by decide, (hw.2.2 (by decide) (by decide)).1, (hw.2.2 (by decide) (by decide)).2⟩

/-- C3: when `HandleOffer` fails after the screen capture was acquired, every
track of the screen stream, and every track of the separate audio stream when
one was started, has been closed by the time the error is returned. -/
theorem HandleOffer_failure_closes_tracks (eng : Engine) (env : OfferEnv)
    (h : ScreenShareHandler) (s : webrtcService) (body : Except String OfferRequest)
    (screen : MediaStream)
    (hacq : Call.screenStartCapture none ∈ (HandleOffer eng env h s body).calls)
    (hs : env.screenStartCapture = Except.ok screen)
    (hfail : (HandleOffer eng env h s body).resp.code ≠ 200) :
    (∀ t ∈ screen.GetTracks, Call.trackClose t ∈ (HandleOffer eng env h s body).calls) ∧
      ∀ a : MediaStream, Call.audioStartCapture none ∈ (HandleOffer eng env h s body).calls →
        env.audioStartCapture = Except.ok a →
        ∀ t ∈ a.GetTracks, Call.trackClose t ∈ (HandleOffer eng env h s body).calls := by
  cases hb : ShouldBindJSON body with
  | error e => simp [HandleOffer, hb] at hacq
  | ok req =>
    have hearly : ∀ (mid : List Call) (a : MediaStream),
        Call.audioStartCapture none ∉ mid →
        Call.audioStartCapture none ∈ Call.screenStartCapture none :: (acquireAudio env screen).2
          ++ mid ++ closeTracks screen ++ closeTracksOpt (acquireAudio env screen).1 →
        env.audioStartCapture = Except.ok a →
        ∀ t ∈ a.GetTracks, Call.trackClose t ∈ Call.screenStartCapture none ::
          (acquireAudio env screen).2 ++ mid ++ closeTracks screen
            ++ closeTracksOpt (acquireAudio env screen).1 := by
      intro mid a hmid hstart ha t ht
      have hst : Call.audioStartCapture none ∈ (acquireAudio env screen).2 := by
        simp only [List.mem_append, List.mem_cons] at hstart
        rcases hstart with (((h1 | h1) | h1) | h1) | h1
        · exact absurd h1 (by simp)
        · exact h1
        · exact absurd h1 hmid
        · exact absurd h1 (not_mem_closeTracksOpt (some screen) _ (by simp))
        · exact absurd h1 (not_mem_closeTracksOpt _ _ (by simp))
      rw [acquireAudio_started env screen a hst ha]
      simp [closeTracksOpt, closeTracks, ht]
    cases hp : parseSDPType req.typ with
    | none =>
      refine ⟨?_, ?_⟩
      · intro t ht
        simp [HandleOffer, hb, hs, hp, closeTracks, ht]
      · intro a hstart ha t ht
        have := hearly [] a (by simp)
          (by simpa [HandleOffer, hb, hs, hp] using hstart) ha t ht
        simpa [HandleOffer, hb, hs, hp] using this
    | some ty =>
      cases hn : env.NewPeerConnection with
      | error e =>
        refine ⟨?_, ?_⟩
        · intro t ht
          simp [HandleOffer, hb, hs, hp, hn, webrtcService.CreatePeerConnection, closeTracks, ht]
        · intro a hstart ha t ht
          have := hearly [Call.CreatePeerConnection screen (acquireAudio env screen).1 (some e)]
            a (by simp)
            (by simpa [HandleOffer, hb, hs, hp, hn, webrtcService.CreatePeerConnection]
              using hstart) ha t ht
          simpa [HandleOffer, hb, hs, hp, hn, webrtcService.CreatePeerConnection] using this
      | ok pc =>
        rw [HandleOffer_registered eng env h s body req screen ty pc hb hs hp hn] at hfail ⊢
        simp only at hfail ⊢
        have hcl := negotiate_failure_calls eng _ env.handlerUUID pc screen
          (acquireAudio env screen).1 ty req hfail
        refine ⟨?_, ?_⟩
        · intro t ht
          exact List.mem_append_right _ (hcl _ (cleanup_closes_screen eng _ _ screen _ t ht))
        · intro a hstart ha t ht
          have hst : Call.audioStartCapture none ∈ (acquireAudio env screen).2 := by
            rcases List.mem_append.1 hstart with h1 | h1
            · simpa [registeredCalls] using h1
            · have := negotiate_rank eng _ _ pc screen _ ty req _ h1
              simp [Call.rank, Call.step, Step.rank] at this
          have haud := acquireAudio_started env screen a hst ha
          rw [haud] at hcl ⊢
          exact List.mem_append_right _ (hcl _ (cleanup_closes_audio eng _ _ _ a t ht))

/-- Witness of C3: the commit of the local description fails after a screen
stream and a separate audio stream were acquired. -/
theorem HandleOffer_failure_closes_tracks_witness :
    (∀ t ∈ videoOnly.GetTracks,
        Call.trackClose t ∈ (HandleOffer engineNoCommit envOK handlerOne serviceOne offerBody).calls) ∧
      ∀ a : MediaStream,
        Call.audioStartCapture none ∈
          (HandleOffer engineNoCommit envOK handlerOne serviceOne offerBody).calls →
        envOK.audioStartCapture = Except.ok a →
        ∀ t ∈ a.GetTracks,
          Call.trackClose t ∈ (HandleOffer engineNoCommit envOK handlerOne serviceOne offerBody).calls :=
  HandleOffer_failure_closes_tracks engineNoCommit envOK handlerOne serviceOne offerBody videoOnly
    (by decide) rfl (by decide)

/-- C4, as stated, fails: with kind `"bogus"` and a screen capture that fails,
`HandleOffer` answers 500 with the capture error, not 400 `invalid SDP type`. -/
theorem HandleOffer_invalid_kind_counterexample :
    parseSDPType "bogus" = none ∧
      (HandleOffer engineOK envNoScreen handlerOne serviceOne bogusBody).resp =
        ⟨500, none, Body.error "failed to start screen capture: no display"⟩ ∧
      (HandleOffer engineOK envNoScreen handlerOne serviceOne bogusBody).resp ≠
        ⟨400, none, Body.error "invalid SDP type"⟩ := by
  decide

/-- C4, amended: for a bound offer whose kind is neither `"offer"` nor
`"answer"`, `HandleOffer` leaves the registry unchanged; it answers 400
`invalid SDP type` when the screen capture succeeds, whatever the audio
capture and the transport factory would do, and 500 with the capture error
when the screen capture fails, the kind being looked at only after capture. -/
theorem HandleOffer_invalid_kind (eng : Engine) (env : OfferEnv) (h : ScreenShareHandler)
    (s : webrtcService) (body : Except String OfferRequest) (req : OfferRequest)
    (hb : ShouldBindJSON body = Except.ok req)
    (hoffer : req.typ ≠ "offer") (hanswer : req.typ ≠ "answer") :
    (HandleOffer eng env h s body).h = h ∧ (HandleOffer eng env h s body).s = s ∧
      (∀ screen, env.screenStartCapture = Except.ok screen →
        (HandleOffer eng env h s body).resp = ⟨400, none, Body.error "invalid SDP type"⟩) ∧
      (∀ e, env.screenStartCapture = Except.error e →
        (HandleOffer eng env h s body).resp =
          ⟨500, none, Body.error ("failed to start screen capture: " ++ e)⟩) := by
  have hp : parseSDPType req.typ = none := by simp [parseSDPType, hoffer, hanswer]
  cases hs : env.screenStartCapture with
  | error e => simp [HandleOffer, hb, hs]
  | ok screen => simp [HandleOffer, hb, hs, hp]

/-- Witness of C4 amended: kind `"bogus"` on collaborators that all answer. -/
theorem HandleOffer_invalid_kind_witness :
    (HandleOffer engineOK envOK handlerOne serviceOne bogusBody).h = handlerOne ∧
      (HandleOffer engineOK envOK handlerOne serviceOne bogusBody).s = serviceOne ∧
      (∀ screen, envOK.screenStartCapture = Except.ok screen →
        (HandleOffer engineOK envOK handlerOne serviceOne bogusBody).resp =
          ⟨400, none, Body.error "invalid SDP type"⟩) ∧
      (∀ e, envOK.screenStartCapture = Except.error e →
        (HandleOffer engineOK envOK handlerOne serviceOne bogusBody).resp =
          ⟨500, none, Body.error ("failed to start screen capture: " ++ e)⟩) :=
  HandleOffer_invalid_kind engineOK envOK handlerOne serviceOne bogusBody ⟨"v=0", "bogus"⟩
    rfl (by decide) (by decide)

/-- C5, as stated, fails: with kind `"bogus"` both `screenCapture.StartCapture`
and `audioCapture.StartCapture` are invoked before the 400 is returned. -/
theorem HandleOffer_invalid_kind_acquires_counterexample :
    parseSDPType "bogus" = none ∧
      (HandleOffer engineOK envOK handlerOne serviceOne bogusBody).resp.code = 400 ∧
      Call.screenStartCapture none ∈
        (HandleOffer engineOK envOK handlerOne serviceOne bogusBody).calls ∧
      Call.audioStartCapture none ∈
        (HandleOffer engineOK envOK handlerOne serviceOne bogusBody).calls := by
  decide

/-- C5, amended: for a bound offer whose kind is neither `"offer"` nor
`"answer"`, `HandleOffer` creates no transport session and calls nothing on
the transport engine (every call it makes starts a capture or closes a
track, and the service map is unchanged); it does start the screen capture
first, and the separate audio capture too when the screen stream has no audio
track. -/
theorem HandleOffer_invalid_kind_calls (eng : Engine) (env : OfferEnv) (h : ScreenShareHandler)
    (s : webrtcService) (body : Except String OfferRequest) (req : OfferRequest)
    (hb : ShouldBindJSON body = Except.ok req)
    (hoffer : req.typ ≠ "offer") (hanswer : req.typ ≠ "answer") :
    (∀ c ∈ (HandleOffer eng env h s body).calls,
        (∃ e, c = Call.screenStartCapture e) ∨ (∃ e, c = Call.audioStartCapture e) ∨
          ∃ t, c = Call.trackClose t) ∧
      (HandleOffer eng env h s body).s = s ∧
      (∃ e, Call.screenStartCapture e ∈ (HandleOffer eng env h s body).calls) ∧
      (∀ screen, env.screenStartCapture = Except.ok screen → screen.GetAudioTracks = [] →
        ∃ e, Call.audioStartCapture e ∈ (HandleOffer eng env h s body).calls) := by
  have hp : parseSDPType req.typ = none := by simp [parseSDPType, hoffer, hanswer]
  cases hs : env.screenStartCapture with
  | error e => simp [HandleOffer, hb, hs]
  | ok screen =>
    refine ⟨?_, by simp [HandleOffer, hb, hs, hp], ⟨none, by simp [HandleOffer, hb, hs, hp]⟩, ?_⟩
    · intro c hc
      simp only [HandleOffer, hb, hs, hp, List.mem_append, List.mem_cons] at hc
      rcases hc with ((h1 | h1) | h1) | h1
      · exact Or.inl ⟨none, h1⟩
      · exact Or.inr (Or.inl (acquireAudio_calls env screen c h1))
      · exact Or.inr (Or.inr (closeTracksOpt_calls (some screen) c h1))
      · exact Or.inr (Or.inr (closeTracksOpt_calls _ c h1))
    · intro screen2 hs2 hnil
      cases hs2
      cases ha : env.audioStartCapture with
      | error e => exact ⟨some e, by simp [HandleOffer, hb, hs, hp, acquireAudio, hnil, ha]⟩
      | ok a => exact ⟨none, by simp [HandleOffer, hb, hs, hp, acquireAudio, hnil, ha]⟩

/-- Witness of C5 amended: kind `"bogus"` on collaborators that all answer. -/
theorem HandleOffer_invalid_kind_calls_witness :
    (∀ c ∈ (HandleOffer engineOK envOK handlerOne serviceOne bogusBody).calls,
        (∃ e, c = Call.screenStartCapture e) ∨ (∃ e, c = Call.audioStartCapture e) ∨
          ∃ t, c = Call.trackClose t) ∧
      (HandleOffer engineOK envOK handlerOne serviceOne bogusBody).s = serviceOne ∧
      (∃ e, Call.screenStartCapture e ∈
        (HandleOffer engineOK envOK handlerOne serviceOne bogusBody).calls) ∧
      (∀ screen, envOK.screenStartCapture = Except.ok screen → screen.GetAudioTracks = [] →
        ∃ e, Call.audioStartCapture e ∈
          (HandleOffer engineOK envOK handlerOne serviceOne bogusBody).calls) :=
  HandleOffer_invalid_kind_calls engineOK envOK handlerOne serviceOne bogusBody ⟨"v=0", "bogus"⟩
    rfl (by decide) (by decide)

/-- C6: when `CreatePeerConnection` fails after a successful screen capture,
`HandleOffer` answers 500 `failed to create peer connection` having closed the
tracks but never invoked `screenCapture.StopCapture`, whereas a failure one
step later (here the commit of the local description) goes through `cleanup`
and invokes it once. -/
theorem HandleOffer_create_failure_never_stops :
    (HandleOffer engineOK envNoPeer handlerOne serviceOne offerBody).resp =
        ⟨500, none, Body.error "failed to create peer connection: boom"⟩ ∧
      (HandleOffer engineOK envNoPeer handlerOne serviceOne offerBody).calls.count
        Call.screenStopCapture = 0 ∧
      (HandleOffer engineNoCommit envOK handlerOne serviceOne offerBody).calls.count
        Call.screenStopCapture = 1 := by
  decide

/-- C7: in every run of `HandleOffer` the calls come in the mandated order.
Wherever a call stands in the trace, every call after it is of the same or of
a later step (the releasing calls counting as last), every step before its own
has a call before it, and when it returned a step error only releasing calls
follow.  In particular every track-attachment call precedes
`SetRemoteDescription`, the registry insertion precedes the installation of
the candidate callback, and a successful run goes through all eight steps. -/
theorem HandleOffer_call_order (eng : Engine) (env : OfferEnv) (h : ScreenShareHandler)
    (s : webrtcService) (body : Except String OfferRequest) :
    (∀ (pre post : List Call) (c : Call),
        (HandleOffer eng env h s body).calls = pre ++ c :: post →
        (∀ x ∈ post, c.rank ≤ x.rank) ∧
          (c.stepError ≠ none → ∀ x ∈ post, x.step = none) ∧
          ∀ st0 : Step, c.step = some st0 → ∀ st : Step, st.rank < st0.rank →
            ∃ d ∈ pre, d.step = some st) ∧
      (∀ (pre post : List Call) (pc : PeerConnection) (d : SessionDescription)
          (e : Option String),
        (HandleOffer eng env h s body).calls = pre ++ Call.SetRemoteDescription pc d e :: post →
        (∀ x ∈ post, x.step ≠ some Step.attachTracks) ∧
          ∃ x ∈ pre, x.step = some Step.attachTracks) ∧
      (∀ (pre post : List Call) (pc : PeerConnection) (id : UUID),
        (HandleOffer eng env h s body).calls = pre ++ Call.OnICECandidate pc id :: post →
        ∃ x ∈ pre, x.step = some Step.register) ∧
      ((HandleOffer eng env h s body).resp.code = 200 →
        ∀ st : Step, ∃ c ∈ (HandleOffer eng env h s body).calls, c.step = some st) := by
  have hm := HandleOffer_mandated eng env h s body
  refine ⟨?_, ?_, ?_, ?_⟩
  · intro pre post c hsplit
    exact Mandated_split _ pre post c hm hsplit
  · intro pre post pc d e hsplit
    obtain ⟨h1, _, h3⟩ := Mandated_split _ pre post _ hm hsplit
    refine ⟨?_, h3 Step.remoteDescription rfl Step.attachTracks (by decide)⟩
    intro x hx hstep
    have h4 := h1 x hx
    rw [Call.rank_of_step x _ hstep] at h4
    simp [Call.rank, Call.step, Step.rank] at h4
  · intro pre post pc id hsplit
    obtain ⟨_, _, h3⟩ := Mandated_split _ pre post _ hm hsplit
    exact h3 Step.installCallback rfl Step.register (by decide)
  · intro hok st
    obtain ⟨pc, hpc⟩ := HandleOffer_success_calls eng env h s body hok
    rcases Nat.lt_or_ge st.rank 7 with h1 | h1
    · exact hm.2 _ hpc Step.localDescription rfl st h1
    · have : st = Step.localDescription :=
        Step.rank_inj _ _ (le_antisymm (Step.rank_le_seven st) h1)
      exact ⟨_, hpc, by rw [this]; rfl⟩

/-- C8: an offer of kind `"offer"` on a video-only screen stream, with a failing
separate audio capture and an engine on which every step succeeds, is answered
200 with an answer; track attachment is invoked without an audio stream and
every transceiver added carries a video track; no call returned a step error. -/
theorem HandleOffer_audio_failure_tolerated (eng : Engine) (env : OfferEnv)
    (h : ScreenShareHandler) (s : webrtcService) (sdp e : String) (screen : MediaStream)
    (pc : PeerConnection) (answer : SessionDescription)
    (hsdp : sdp ≠ "")
    (hs : env.screenStartCapture = Except.ok screen)
    (hv : screen.GetVideoTracks ≠ []) (ha : screen.GetAudioTracks = [])
    (hae : env.audioStartCapture = Except.error e)
    (hn : env.NewPeerConnection = Except.ok pc)
    (hadd : ∀ t ∈ screen.GetVideoTracks, eng.AddTransceiverFromTrack pc t = none)
    (hrem : eng.SetRemoteDescription pc ⟨SDPType.SDPTypeOffer, sdp⟩ = none)
    (hans : eng.CreateAnswer pc = Except.ok answer)
    (hloc : eng.SetLocalDescription pc answer = none) :
    (HandleOffer eng env h s (Except.ok ⟨sdp, "offer"⟩)).resp.code = 200 ∧
      (∃ out, (HandleOffer eng env h s (Except.ok ⟨sdp, "offer"⟩)).resp.body =
        Body.answer out "answer") ∧
      Call.audioStartCapture (some e) ∈
        (HandleOffer eng env h s (Except.ok ⟨sdp, "offer"⟩)).calls ∧
      Call.AddTracksToPeerConnection pc screen none none ∈
        (HandleOffer eng env h s (Except.ok ⟨sdp, "offer"⟩)).calls ∧
      (∀ (pc2 : PeerConnection) (sc : MediaStream) (au : Option MediaStream)
          (e2 : Option String),
        Call.AddTracksToPeerConnection pc2 sc au e2 ∈
          (HandleOffer eng env h s (Except.ok ⟨sdp, "offer"⟩)).calls → au = none) ∧
      (∀ (pc2 : PeerConnection) (t : Track) (e2 : Option String),
        Call.AddTransceiverFromTrack pc2 t e2 ∈
          (HandleOffer eng env h s (Except.ok ⟨sdp, "offer"⟩)).calls →
        t.kind = TrackKind.video) ∧
      ∀ c ∈ (HandleOffer eng env h s (Except.ok ⟨sdp, "offer"⟩)).calls, c.stepError = none := by
  have hb : ShouldBindJSON (Except.ok ⟨sdp, "offer"⟩) = Except.ok ⟨sdp, "offer"⟩ := by
    simp [ShouldBindJSON, hsdp]
  have hp : parseSDPType (OfferRequest.mk sdp "offer").typ = some SDPType.SDPTypeOffer := rfl
  have haud : acquireAudio env screen = (none, [Call.audioStartCapture (some e)]) := by
    simp [acquireAudio, ha, hae]
  have htr := AddTracksToPeerConnection_video_only eng pc screen hv hadd
  rw [HandleOffer_registered eng env h s _ _ screen _ pc hb hs hp hn]
  simp only [haud, registeredCalls]
  refine ⟨?_, ?_, ?_, ?_, ?_, ?_, ?_⟩
  · simp [negotiate, htr, hrem, hans, hloc]
  · simp [negotiate, htr, hrem, hans, hloc]
  · simp
  · simp [negotiate, htr, hrem, hans, hloc]
  · intro pc2 sc au e2 hmem
    simp [negotiate, htr, hrem, hans, hloc] at hmem
    exact hmem.2.2.1
  · intro pc2 t e2 hmem
    simp [negotiate, htr, hrem, hans, hloc] at hmem
    obtain ⟨a, hav, _, hat, _⟩ := hmem
    subst hat
    simpa [MediaStream.GetVideoTracks] using (List.mem_filter.1 hav).2
  · intro c hc
    simp [negotiate, htr, hrem, hans, hloc] at hc
    rcases hc with h1 | h1 | h1 | h1 | h1 | h1 | h1 | h1 | h1 | h1 | h1 | h1 <;>
      first
        | (subst h1; rfl)
        | (obtain ⟨t, _, ht⟩ := h1; subst ht; rfl)

/-- Witness of C8: the collaborators of `envOK`, with a failing separate audio
capture. -/
theorem HandleOffer_audio_failure_tolerated_witness :
    (HandleOffer engineOK { envOK with audioStartCapture := Except.error "no microphone" }
        handlerOne serviceOne (Except.ok ⟨"v=0", "offer"⟩)).resp.code = 200 ∧
      Call.AddTracksToPeerConnection 7 videoOnly none none ∈
        (HandleOffer engineOK { envOK with audioStartCapture := Except.error "no microphone" }
          handlerOne serviceOne (Except.ok ⟨"v=0", "offer"⟩)).calls :=
  have hw := HandleOffer_audio_failure_tolerated engineOK
    { envOK with audioStartCapture := Except.error "no microphone" } handlerOne serviceOne
    "v=0" "no microphone" videoOnly 7 ⟨SDPType.SDPTypeAnswer, "draft"⟩
    (by decide) rfl (by decide) (by decide) rfl rfl (fun _ _ => rfl) rfl rfl rfl
  ⟨hw.1, hw.2.2.2.1⟩

/-- C9: a failing screen capture is fatal.  `HandleOffer` answers 500
`failed to start screen capture`, the capture start is the only call it makes
(no audio capture, no transport session), and the registry is unchanged.  The
error tells the failing step: every run answering the same response failed at
capture too, and any two failing runs with equal responses failed at the same
step. -/
theorem HandleOffer_capture_failure_fatal (eng : Engine) (env : OfferEnv)
    (h : ScreenShareHandler) (s : webrtcService) (body : Except String OfferRequest)
    (req : OfferRequest) (e : String)
    (hb : ShouldBindJSON body = Except.ok req)
    (hs : env.screenStartCapture = Except.error e) :
    (HandleOffer eng env h s body).resp =
        ⟨500, none, Body.error ("failed to start screen capture: " ++ e)⟩ ∧
      (HandleOffer eng env h s body).calls = [Call.screenStartCapture (some e)] ∧
      (∀ x, Call.audioStartCapture x ∉ (HandleOffer eng env h s body).calls) ∧
      (∀ sc au x, Call.CreatePeerConnection sc au x ∉ (HandleOffer eng env h s body).calls) ∧
      (HandleOffer eng env h s body).h = h ∧ (HandleOffer eng env h s body).s = s ∧
      failedStep (HandleOffer eng env h s body).calls = some Step.capture ∧
      (∀ (eng2 : Engine) (env2 : OfferEnv) (h2 : ScreenShareHandler) (s2 : webrtcService)
          (body2 : Except String OfferRequest),
        (HandleOffer eng2 env2 h2 s2 body2).resp = (HandleOffer eng env h s body).resp →
        failedStep (HandleOffer eng2 env2 h2 s2 body2).calls = some Step.capture) ∧
      ∀ (engA engB : Engine) (envA envB : OfferEnv) (hA hB : ScreenShareHandler)
        (sA sB : webrtcService) (bodyA bodyB : Except String OfferRequest),
        (HandleOffer engA envA hA sA bodyA).resp.code ≠ 200 →
        (HandleOffer engA envA hA sA bodyA).resp = (HandleOffer engB envB hB sB bodyB).resp →
        failedStep (HandleOffer engA envA hA sA bodyA).calls =
          failedStep (HandleOffer engB envB hB sB bodyB).calls := by
  have hr : (HandleOffer eng env h s body).resp =
      ⟨500, none, Body.error ("failed to start screen capture: " ++ e)⟩ := by
    simp [HandleOffer, hb, hs]
  have hc : (HandleOffer eng env h s body).calls = [Call.screenStartCapture (some e)] := by
    simp [HandleOffer, hb, hs]
  have hpair : ∀ (engA engB : Engine) (envA envB : OfferEnv) (hA hB : ScreenShareHandler)
      (sA sB : webrtcService) (bodyA bodyB : Except String OfferRequest),
      (HandleOffer engA envA hA sA bodyA).resp.code ≠ 200 →
      (HandleOffer engA envA hA sA bodyA).resp = (HandleOffer engB envB hB sB bodyB).resp →
      failedStep (HandleOffer engA envA hA sA bodyA).calls =
        failedStep (HandleOffer engB envB hB sB bodyB).calls := by
    intro engA engB envA envB hA hB sA sB bodyA bodyB hfail heq
    rw [← HandleOffer_class engA envA hA sA bodyA hfail,
      ← HandleOffer_class engB envB hB sB bodyB (by rw [← heq]; exact hfail), heq]
  have hf : failedStep (HandleOffer eng env h s body).calls = some Step.capture := by
    rw [hc]
    rfl
  refine ⟨hr, hc, ?_, ?_, by simp [HandleOffer, hb, hs], by simp [HandleOffer, hb, hs], hf, ?_,
    hpair⟩
  · intro x
    simp [hc]
  · intro sc au x
    simp [hc]
  · intro eng2 env2 h2 s2 body2 heq
    rw [← hf]
    exact (hpair eng eng2 env env2 h h2 s s2 body body2 (by rw [hr]; simp) heq.symm).symm

/-- Witness of C9: the screen capture fails on a well-formed offer. -/
theorem HandleOffer_capture_failure_fatal_witness :
    (HandleOffer engineOK envNoScreen handlerOne serviceOne offerBody).resp =
        ⟨500, none, Body.error "failed to start screen capture: no display"⟩ ∧
      (HandleOffer engineOK envNoScreen handlerOne serviceOne offerBody).calls =
        [Call.screenStartCapture (some "no display")] ∧
      (HandleOffer engineOK envNoScreen handlerOne serviceOne offerBody).h = handlerOne :=
  have hw := HandleOffer_capture_failure_fatal engineOK envNoScreen handlerOne serviceOne
    offerBody ⟨"v=0", "offer"⟩ "no display" rfl rfl
  ⟨hw.1, hw.2.1, hw.2.2.2.2.1⟩

/-- C10: `HandleHangup` with a well-formed id answers ok, answers ok again when
repeated, and the registry after two calls is the registry after one; for an
id that is a key of neither registry map the registry is left unchanged, and
`peerConnections` is left unchanged whenever the id is not one of its keys. -/
theorem HandleHangup_idempotent (eng : Engine) (Parse : String → Option UUID)
    (h : ScreenShareHandler) (s : webrtcService) (id : String) (peerConnectionID : UUID)
    (hparse : Parse id = some peerConnectionID) :
    (HandleHangup eng Parse h s id).resp = ⟨200, none, Body.status "ok"⟩ ∧
      (HandleHangup eng Parse (HandleHangup eng Parse h s id).h
        (HandleHangup eng Parse h s id).s id).resp = ⟨200, none, Body.status "ok"⟩ ∧
      (HandleHangup eng Parse (HandleHangup eng Parse h s id).h
        (HandleHangup eng Parse h s id).s id).h = (HandleHangup eng Parse h s id).h ∧
      (HandleHangup eng Parse (HandleHangup eng Parse h s id).h
        (HandleHangup eng Parse h s id).s id).s = (HandleHangup eng Parse h s id).s ∧
      (peerConnectionID ∉ mapKeys h.peerConnections →
        peerConnectionID ∉ mapKeys h.iceCandidates →
        (HandleHangup eng Parse h s id).h = h) ∧
      (peerConnectionID ∉ mapKeys h.peerConnections →
        (HandleHangup eng Parse h s id).h.peerConnections = h.peerConnections) ∧
      peerConnectionID ∉ mapKeys (HandleHangup eng Parse h s id).h.peerConnections ∧
      peerConnectionID ∉ mapKeys (HandleHangup eng Parse h s id).h.iceCandidates := by
  have h1 : (HandleHangup eng Parse h s id).h =
      { peerConnections := mapDelete h.peerConnections peerConnectionID,
        iceCandidates := mapDelete h.iceCandidates peerConnectionID } := by
    simp [HandleHangup, hparse, cleanup_state]
  have hs2 : ∀ (h2 : ScreenShareHandler) (s2 : webrtcService),
      mapLookup h2.peerConnections peerConnectionID = none →
      (HandleHangup eng Parse h2 s2 id).s = s2 := by
    intro h2 s2 hl
    simp [HandleHangup, hparse, cleanup_service, hl]
  refine ⟨by simp [HandleHangup, hparse], by simp [HandleHangup, hparse], ?_,
    hs2 _ _ (by rw [h1]; exact (mapLookup_eq_none_iff _ _).2 (mapDelete_not_mem _ _)),
    ?_, ?_, ?_, ?_⟩
  · have h2 : (HandleHangup eng Parse (HandleHangup eng Parse h s id).h
        (HandleHangup eng Parse h s id).s id).h =
        { peerConnections := mapDelete (HandleHangup eng Parse h s id).h.peerConnections
            peerConnectionID,
          iceCandidates := mapDelete (HandleHangup eng Parse h s id).h.iceCandidates
            peerConnectionID } := by
      simp [HandleHangup, hparse, cleanup_state]
    rw [h2, h1]
    simp [mapDelete_idem]
  · intro hp hi
    rw [h1, mapDelete_of_not_mem _ _ hp, mapDelete_of_not_mem _ _ hi]
  · intro hp
    rw [h1]
    exact mapDelete_of_not_mem _ _ hp
  · rw [h1]
    exact mapDelete_not_mem _ _
  · rw [h1]
    exact mapDelete_not_mem _ _

/-- Witness of C10: hanging up the live session of `handlerOne` twice. -/
theorem HandleHangup_idempotent_witness :
    (HandleHangup engineOK parseWords handlerOne serviceOne "five").resp =
        ⟨200, none, Body.status "ok"⟩ ∧
      (HandleHangup engineOK parseWords
        (HandleHangup engineOK parseWords handlerOne serviceOne "five").h
        (HandleHangup engineOK parseWords handlerOne serviceOne "five").s "five").resp =
          ⟨200, none, Body.status "ok"⟩ ∧
      (HandleHangup engineOK parseWords
        (HandleHangup engineOK parseWords handlerOne serviceOne "five").h
        (HandleHangup engineOK parseWords handlerOne serviceOne "five").s "five").h =
          (HandleHangup engineOK parseWords handlerOne serviceOne "five").h ∧
      (HandleHangup engineOK parseWords handlerOne serviceOne "five").h = ⟨[], []⟩ :=
  have hw := HandleHangup_idempotent engineOK parseWords handlerOne serviceOne "five" 5 rfl
  ⟨hw.1, hw.2.1, hw.2.2.1, by decide⟩

theorem count_closeTracksOpt (st : Option MediaStream) (c : Call)
    (hc : ∀ t, c ≠ Call.trackClose t) : (closeTracksOpt st).count c = 0 :=
  List.count_eq_zero.2 (not_mem_closeTracksOpt st c hc)

theorem cleanup_stops_screen_once (eng : Engine) (h : ScreenShareHandler) (id : UUID)
    (screen audio : Option MediaStream) :
    (cleanup eng h id screen audio).2.count Call.screenStopCapture = 1 := by
  have h1 := count_closeTracksOpt screen Call.screenStopCapture (by simp)
  have h2 := count_closeTracksOpt audio Call.screenStopCapture (by simp)
  cases hf : mapLookup h.peerConnections id <;> cases audio <;>
    simp [cleanup, hf, List.count_append, h1] <;> simpa using h2

theorem cleanup_calls_absent (eng : Engine) (h : ScreenShareHandler) (id : UUID)
    (hn : mapLookup h.peerConnections id = none) :
    (cleanup eng h id none none).2 = [Call.deleteCandidates id, Call.screenStopCapture] := by
  simp [cleanup, hn, closeTracksOpt]

/-- On a failure-path teardown with an audio track bundled in the screen
stream (here the commit of the local description fails), `cleanup` is given
the screen stream both as screen and as audio stream and closes each of its
two tracks twice. -/
theorem cleanup_bundled_closes_twice :
    (HandleOffer engineNoCommit envBundled handlerOne serviceOne offerBody).resp.code = 500 ∧
      (HandleOffer engineNoCommit envBundled handlerOne serviceOne offerBody).calls.count
        (Call.trackClose ⟨1, TrackKind.video⟩) = 2 ∧
      (HandleOffer engineNoCommit envBundled handlerOne serviceOne offerBody).calls.count
        (Call.trackClose ⟨2, TrackKind.audio⟩) = 2 := by
  decide

/-- C11, as stated, fails: two `HandleHangup` calls on the id of the live
session of `handlerOne` invoke `screenCapture.StopCapture` twice (the
transport session being closed once). -/
theorem release_once_counterexample :
    ((HandleHangup engineOK parseWords handlerOne serviceOne "five").calls ++
        (HandleHangup engineOK parseWords
          (HandleHangup engineOK parseWords handlerOne serviceOne "five").h
          (HandleHangup engineOK parseWords handlerOne serviceOne "five").s "five").calls).count
        Call.screenStopCapture = 2 ∧
      ((HandleHangup engineOK parseWords handlerOne serviceOne "five").calls ++
        (HandleHangup engineOK parseWords
          (HandleHangup engineOK parseWords handlerOne serviceOne "five").h
          (HandleHangup engineOK parseWords handlerOne serviceOne "five").s "five").calls).count
        (Call.Close 3 none) = 1 := by
  decide

/-- C11, amended: over the life of a session the transport session is closed
exactly once, the first `HandleHangup` of a registered id closing it and a
repeated one making no `Close` call; the capture is released by every
teardown: each of the two `HandleHangup` calls, and every `cleanup`, invokes
`screenCapture.StopCapture` exactly once, and `cleanup` closes every track of
the streams it is given at least once. -/
theorem teardown_release_counts (eng : Engine) (Parse : String → Option UUID)
    (h : ScreenShareHandler) (s : webrtcService) (id : String) (peerConnectionID : UUID)
    (pc : PeerConnection)
    (hparse : Parse id = some peerConnectionID)
    (hl : mapLookup h.peerConnections peerConnectionID = some pc) :
    (HandleHangup eng Parse h s id).calls =
        [Call.deletePeerConnection peerConnectionID, Call.deleteCandidates peerConnectionID,
          Call.Close pc (eng.Close pc), Call.screenStopCapture] ∧
      (HandleHangup eng Parse (HandleHangup eng Parse h s id).h
          (HandleHangup eng Parse h s id).s id).calls =
        [Call.deleteCandidates peerConnectionID, Call.screenStopCapture] ∧
      ∀ (h0 : ScreenShareHandler) (id0 : UUID) (screen audio : Option MediaStream),
        (cleanup eng h0 id0 screen audio).2.count Call.screenStopCapture = 1 ∧
          (∀ st, screen = some st → ∀ t ∈ st.GetTracks,
            Call.trackClose t ∈ (cleanup eng h0 id0 screen audio).2) ∧
          ∀ st, audio = some st → ∀ t ∈ st.GetTracks,
            Call.trackClose t ∈ (cleanup eng h0 id0 screen audio).2 := by
  have hgone : mapLookup (HandleHangup eng Parse h s id).h.peerConnections peerConnectionID =
      none := by
    rw [mapLookup_eq_none_iff]
    simp only [HandleHangup, hparse]
    rw [cleanup_state]
    exact mapDelete_not_mem _ _
  refine ⟨by simp [HandleHangup, hparse, cleanup, hl, closeTracksOpt], ?_, ?_⟩
  · have := cleanup_calls_absent eng _ _ hgone
    simpa [HandleHangup, hparse] using this
  · intro h0 id0 screen audio
    refine ⟨cleanup_stops_screen_once eng h0 id0 screen audio, ?_, ?_⟩
    · intro st hst t ht
      rw [hst]
      exact cleanup_closes_screen eng h0 id0 st audio t ht
    · intro st hst t ht
      rw [hst]
      exact cleanup_closes_audio eng h0 id0 screen st t ht

/-- Witness of C11 amended: hanging up the live session of `handlerOne` twice. -/
theorem teardown_release_counts_witness :
    (HandleHangup engineOK parseWords handlerOne serviceOne "five").calls =
        [Call.deletePeerConnection 5, Call.deleteCandidates 5, Call.Close 3 none,
          Call.screenStopCapture] ∧
      (HandleHangup engineOK parseWords
          (HandleHangup engineOK parseWords handlerOne serviceOne "five").h
          (HandleHangup engineOK parseWords handlerOne serviceOne "five").s "five").calls =
        [Call.deleteCandidates 5, Call.screenStopCapture] :=
  have hw := teardown_release_counts engineOK parseWords handlerOne serviceOne "five" 5 3
    rfl rfl
  ⟨hw.1, hw.2.1⟩

/-- C12: `GetICE` never mutates state: it leaves both registry maps and the
service as they were and calls nothing, and a second poll of the same id right
after the first returns the same response, candidate list included. -/
theorem GetICE_pure (Parse : String → Option UUID) (h : ScreenShareHandler) (s : webrtcService)
    (id : String) :
    (GetICE Parse h s id).h.peerConnections = h.peerConnections ∧
      (GetICE Parse h s id).h.iceCandidates = h.iceCandidates ∧
      (GetICE Parse h s id).s = s ∧
      (GetICE Parse h s id).calls = [] ∧
      (GetICE Parse (GetICE Parse h s id).h (GetICE Parse h s id).s id).resp =
        (GetICE Parse h s id).resp := by
  have hst : (GetICE Parse h s id).h = h ∧ (GetICE Parse h s id).s = s ∧
      (GetICE Parse h s id).calls = [] := by
    cases hp : Parse id with
    | none => simp [GetICE, hp]
    | some pid =>
      cases hl : mapLookup h.iceCandidates pid <;> simp [GetICE, hp, hl]
  obtain ⟨h1, h2, h3⟩ := hst
  refine ⟨by rw [h1], by rw [h1], h2, h3, by rw [h1, h2]⟩

/-- C13: a poll of a registered session for which no candidate was discovered
yet answers 200 with an empty candidate list; and a poll of an id known to the
registry (a key of either map) is never answered with 404: it gets 200, with
the stored candidates when there are some. -/
theorem GetICE_no_candidates_yet (Parse : String → Option UUID) (h : ScreenShareHandler)
    (s : webrtcService) (id : String) (peerConnectionID : UUID)
    (hparse : Parse id = some peerConnectionID) :
    (peerConnectionID ∈ mapKeys h.peerConnections →
        mapLookup h.iceCandidates peerConnectionID = none →
        (GetICE Parse h s id).resp = ⟨200, none, Body.candidates []⟩) ∧
      ((peerConnectionID ∈ mapKeys h.peerConnections ∨
          peerConnectionID ∈ mapKeys h.iceCandidates) →
        (GetICE Parse h s id).resp.code = 200 ∧ (GetICE Parse h s id).resp.code ≠ 404) ∧
      ∀ l, mapLookup h.iceCandidates peerConnectionID = some l →
        (GetICE Parse h s id).resp = ⟨200, none, Body.candidates l⟩ := by
  refine ⟨?_, ?_, ?_⟩
  · intro _ hl
    simp [GetICE, hparse, hl]
  · intro _
    cases hl : mapLookup h.iceCandidates peerConnectionID <;> simp [GetICE, hparse, hl]
  · intro l hl
    simp [GetICE, hparse, hl]

/-- Witness of C13: the session of `handlerFresh` is registered and has no
candidate list yet. -/
theorem GetICE_no_candidates_yet_witness :
    (GetICE parseWords handlerFresh serviceOne "five").resp =
        ⟨200, none, Body.candidates []⟩ ∧
      (GetICE parseWords handlerFresh serviceOne "five").resp.code ≠ 404 :=
  have hw := GetICE_no_candidates_yet parseWords handlerFresh serviceOne "five" 5 rfl
  ⟨hw.1 (by decide) (by decide), (hw.2.1 (Or.inl (by decide))).2⟩

/-- C14: `HandleICE` with a well-formed id and candidate answers 404 exactly
when the id is not a key of `peerConnections`, and then calls nothing; for a
registered id it makes one call, `AddICECandidate` on that session's peer
connection with the submitted candidate, and answers 500 exactly when the
engine rejects it and 200 ok otherwise; the registry maps and the service are
never changed. -/
theorem HandleICE_forwards (eng : Engine) (Parse : String → Option UUID)
    (h : ScreenShareHandler) (s : webrtcService) (id : String) (peerConnectionID : UUID)
    (candidate : ICECandidateInit) (hparse : Parse id = some peerConnectionID) :
    ((HandleICE eng Parse h s id (Except.ok candidate)).resp.code = 404 ↔
        peerConnectionID ∉ mapKeys h.peerConnections) ∧
      (peerConnectionID ∉ mapKeys h.peerConnections →
        (HandleICE eng Parse h s id (Except.ok candidate)).calls = [] ∧
        (HandleICE eng Parse h s id (Except.ok candidate)).resp =
          ⟨404, none, Body.error "peer connection not found"⟩) ∧
      (∀ pc, mapLookup h.peerConnections peerConnectionID = some pc →
        (HandleICE eng Parse h s id (Except.ok candidate)).calls =
          [Call.AddICECandidate pc candidate (eng.AddICECandidate pc candidate)] ∧
        ((HandleICE eng Parse h s id (Except.ok candidate)).resp.code = 500 ↔
          eng.AddICECandidate pc candidate ≠ none) ∧
        (eng.AddICECandidate pc candidate ≠ none →
          (HandleICE eng Parse h s id (Except.ok candidate)).resp =
            ⟨500, none, Body.error "failed to add ICE candidate"⟩) ∧
        (eng.AddICECandidate pc candidate = none →
          (HandleICE eng Parse h s id (Except.ok candidate)).resp =
            ⟨200, none, Body.status "ok"⟩)) ∧
      (HandleICE eng Parse h s id (Except.ok candidate)).h = h ∧
      (HandleICE eng Parse h s id (Except.ok candidate)).s = s := by
  cases hl : mapLookup h.peerConnections peerConnectionID with
  | none =>
    have hk := (mapLookup_eq_none_iff _ _).1 hl
    simp [HandleICE, hparse, hl, hk]
  | some pc =>
    have hk : peerConnectionID ∈ mapKeys h.peerConnections := by
      by_contra hn
      rw [(mapLookup_eq_none_iff _ _).2 hn] at hl
      cases hl
    cases ha : eng.AddICECandidate pc candidate with
    | none => simp [HandleICE, hparse, hl, hk, ha]
    | some e => simp [HandleICE, hparse, hl, hk, ha]

/-- Witness of C14: a candidate for the live session of `handlerOne`, on an
engine that rejects it. -/
theorem HandleICE_forwards_witness :
    (HandleICE engineRejecting parseWords handlerOne serviceOne "five" (Except.ok "cand-b")).calls =
        [Call.AddICECandidate 3 "cand-b" (some "rejected")] ∧
      (HandleICE engineRejecting parseWords handlerOne serviceOne "five"
        (Except.ok "cand-b")).resp = ⟨500, none, Body.error "failed to add ICE candidate"⟩ ∧
      (HandleICE engineRejecting parseWords handlerOne serviceOne "nine"
        (Except.ok "cand-b")).resp.code = 404 :=
  have hw := HandleICE_forwards engineRejecting parseWords handlerOne serviceOne "five" 5
    "cand-b" rfl
  have hn := HandleICE_forwards engineRejecting parseWords handlerOne serviceOne "nine" 9
    "cand-b" rfl
  ⟨(hw.2.2.1 3 rfl).1, (hw.2.2.1 3 rfl).2.2.1 (by decide), hn.1.2 (by decide)⟩

/-! ## Facts for the candidate relay and the answer -/

theorem selectSDP_none (draft : SessionDescription) : selectSDP none draft = draft.SDP := by
  simp only [selectSDP]
  split
  · split <;> rfl
  · rfl

theorem selectSDP_some (d draft : SessionDescription) :
    selectSDP (some d) draft =
      if hasICECredentials d.SDP = false ∧ hasICECredentials draft.SDP = true then draft.SDP
      else d.SDP := by
  cases h1 : Contains d.SDP "ice-ufrag" <;> cases h2 : Contains d.SDP "ice-pwd" <;>
    cases h3 : Contains draft.SDP "ice-ufrag" <;> cases h4 : Contains draft.SDP "ice-pwd" <;>
    simp [selectSDP, hasICECredentials, h1, h2, h3, h4]

theorem HandleOffer_success_body (eng : Engine) (env : OfferEnv) (h : ScreenShareHandler)
    (s : webrtcService) (body : Except String OfferRequest)
    (hok : (HandleOffer eng env h s body).resp.code = 200) :
    ∃ pc answer, env.NewPeerConnection = Except.ok pc ∧
      eng.CreateAnswer pc = Except.ok answer ∧
      eng.SetLocalDescription pc answer = none ∧
      (HandleOffer eng env h s body).h =
        { h with peerConnections := mapInsert h.peerConnections env.handlerUUID pc } ∧
      (HandleOffer eng env h s body).resp =
        ⟨200, some env.handlerUUID,
          Body.answer (selectSDP (eng.LocalDescription pc) answer) "answer"⟩ := by
  cases hb : ShouldBindJSON body with
  | error e => simp [HandleOffer, hb] at hok
  | ok req =>
    cases hs : env.screenStartCapture with
    | error e => simp [HandleOffer, hb, hs] at hok
    | ok screen =>
      cases hp : parseSDPType req.typ with
      | none => simp [HandleOffer, hb, hs, hp] at hok
      | some ty =>
        cases hn : env.NewPeerConnection with
        | error e =>
          simp [HandleOffer, hb, hs, hp, hn, webrtcService.CreatePeerConnection] at hok
        | ok pc =>
          rw [HandleOffer_registered eng env h s body req screen ty pc hb hs hp hn] at hok ⊢
          simp only at hok ⊢
          cases h1 : (AddTracksToPeerConnection eng pc screen (acquireAudio env screen).1).1 with
          | some e => simp [negotiate, h1] at hok
          | none =>
            cases h2 : eng.SetRemoteDescription pc { typ := ty, SDP := req.SDP } with
            | some e => simp [negotiate, h1, h2] at hok
            | none =>
              cases h3 : eng.CreateAnswer pc with
              | error e => simp [negotiate, h1, h2, h3] at hok
              | ok answer =>
                cases h4 : eng.SetLocalDescription pc answer with
                | some e => simp [negotiate, h1, h2, h3, h4] at hok
                | none =>
                  exact ⟨pc, answer, rfl, h3, h4, by simp [negotiate, h1, h2, h3, h4],
                    by simp [negotiate, h1, h2, h3, h4]⟩

theorem onICECandidate_lookup (h : ScreenShareHandler) (S : UUID) (c : ICECandidateInit) :
    mapLookup (onICECandidate h S (some c)).iceCandidates S =
      some ((mapLookup h.iceCandidates S).getD [] ++ [c]) := by
  cases hl : mapLookup h.iceCandidates S <;>
    simp [onICECandidate, hl, mapLookup_insert_self]

/-! ## Claims, continued -/

/-- C15: the candidate callback of session `S`, fired with a candidate, appends
it to the end of the candidate list of `S` (an absent list counting as empty),
so that a poll of `S` that returned `prev` before returns `prev` followed by
the candidate after, and a second candidate comes after the first; the list of
every other session and the map `peerConnections` are unchanged; fired with
nil it changes nothing. -/
theorem onICECandidate_appends (h : ScreenShareHandler) (S : UUID) (c c2 : ICECandidateInit) :
    mapLookup (onICECandidate h S (some c)).iceCandidates S =
        some ((mapLookup h.iceCandidates S).getD [] ++ [c]) ∧
      mapLookup (onICECandidate (onICECandidate h S (some c)) S (some c2)).iceCandidates S =
        some ((mapLookup h.iceCandidates S).getD [] ++ [c, c2]) ∧
      (∀ (Parse : String → Option UUID) (s : webrtcService) (id : String)
          (prev : List ICECandidateInit),
        Parse id = some S →
        (GetICE Parse h s id).resp = ⟨200, none, Body.candidates prev⟩ →
        (GetICE Parse (onICECandidate h S (some c)) s id).resp =
          ⟨200, none, Body.candidates (prev ++ [c])⟩) ∧
      (∀ S2, S2 ≠ S →
        mapLookup (onICECandidate h S (some c)).iceCandidates S2 =
          mapLookup h.iceCandidates S2) ∧
      (onICECandidate h S (some c)).peerConnections = h.peerConnections ∧
      onICECandidate h S none = h := by
  have h1 := onICECandidate_lookup h S c
  refine ⟨h1, ?_, ?_, ?_, ?_, ?_⟩
  · have h2 := onICECandidate_lookup (onICECandidate h S (some c)) S c2
    rw [h1] at h2
    simpa using h2
  · intro Parse s id prev hparse hprev
    have hp : (mapLookup h.iceCandidates S).getD [] = prev := by
      cases hl : mapLookup h.iceCandidates S with
      | none =>
        simp [GetICE, hparse, hl] at hprev
        simp [hprev]
      | some l =>
        simp [GetICE, hparse, hl] at hprev
        simp [hprev]
    rw [hp] at h1
    simp [GetICE, hparse, h1]
  · intro S2 hne
    simp [onICECandidate, mapLookup_insert_other _ _ _ _ hne]
  · simp [onICECandidate]
  · rfl

theorem HandleOffer_success_trace (eng : Engine) (env : OfferEnv) (h : ScreenShareHandler)
    (s : webrtcService) (body : Except String OfferRequest)
    (hok : (HandleOffer eng env h s body).resp.code = 200) :
    ∃ pc answer pre, env.NewPeerConnection = Except.ok pc ∧
      eng.CreateAnswer pc = Except.ok answer ∧
      eng.SetLocalDescription pc answer = none ∧
      (HandleOffer eng env h s body).calls =
        pre ++ [Call.SetLocalDescription pc answer none, Call.LocalDescription pc] := by
  cases hb : ShouldBindJSON body with
  | error e => simp [HandleOffer, hb] at hok
  | ok req =>
    cases hs : env.screenStartCapture with
    | error e => simp [HandleOffer, hb, hs] at hok
    | ok screen =>
      cases hp : parseSDPType req.typ with
      | none => simp [HandleOffer, hb, hs, hp] at hok
      | some ty =>
        cases hn : env.NewPeerConnection with
        | error e =>
          simp [HandleOffer, hb, hs, hp, hn, webrtcService.CreatePeerConnection] at hok
        | ok pc =>
          rw [HandleOffer_registered eng env h s body req screen ty pc hb hs hp hn] at hok ⊢
          simp only at hok ⊢
          cases h1 : (AddTracksToPeerConnection eng pc screen (acquireAudio env screen).1).1 with
          | some e => simp [negotiate, h1] at hok
          | none =>
            cases h2 : eng.SetRemoteDescription pc { typ := ty, SDP := req.SDP } with
            | some e => simp [negotiate, h1, h2] at hok
            | none =>
              cases h3 : eng.CreateAnswer pc with
              | error e => simp [negotiate, h1, h2, h3] at hok
              | ok answer =>
                cases h4 : eng.SetLocalDescription pc answer with
                | some e => simp [negotiate, h1, h2, h3, h4] at hok
                | none =>
                  refine ⟨pc, answer,
                    registeredCalls env screen pc ++
                      ((AddTracksToPeerConnection eng pc screen (acquireAudio env screen).1).2 ++
                        [Call.AddTracksToPeerConnection pc screen (acquireAudio env screen).1 none,
                          Call.SetRemoteDescription pc { typ := ty, SDP := req.SDP } none,
                          Call.CreateAnswer pc none]),
                    rfl, h3, h4, ?_⟩
                  simp [negotiate, h1, h2, h3, h4]

/-- C16: on a transport engine that reads back what it committed, that is,
whose `LocalDescription`, once `SetLocalDescription` has accepted the draft
of `CreateAnswer`, is not nil and carries the ICE credentials whenever the
draft does (pion returns the description it committed), a successful
`HandleOffer` sends back the SDP of the committed local description, which it
reads with `LocalDescription()` as its last call, right after the
`SetLocalDescription` that committed the draft; the draft itself is not what
is sent, whatever its SDP. -/
theorem HandleOffer_answer_committed (eng : Engine) (env : OfferEnv) (h : ScreenShareHandler)
    (s : webrtcService) (body : Except String OfferRequest)
    (hreadback : ∀ pc draft, eng.CreateAnswer pc = Except.ok draft →
      eng.SetLocalDescription pc draft = none →
      ∃ committed, eng.LocalDescription pc = some committed ∧
        (hasICECredentials draft.SDP = true → hasICECredentials committed.SDP = true))
    (hok : (HandleOffer eng env h s body).resp.code = 200) :
    ∃ pc draft committed pre, env.NewPeerConnection = Except.ok pc ∧
      eng.CreateAnswer pc = Except.ok draft ∧
      eng.LocalDescription pc = some committed ∧
      (HandleOffer eng env h s body).calls =
        pre ++ [Call.SetLocalDescription pc draft none, Call.LocalDescription pc] ∧
      (HandleOffer eng env h s body).resp =
        ⟨200, some env.handlerUUID, Body.answer committed.SDP "answer"⟩ := by
  obtain ⟨pc, draft, hn, hc, hl, _, hr⟩ := HandleOffer_success_body eng env h s body hok
  obtain ⟨pc2, draft2, pre, hn2, hc2, _, htr⟩ := HandleOffer_success_trace eng env h s body hok
  have hpc : pc2 = pc := by
    rw [hn] at hn2
    cases hn2
    rfl
  subst hpc
  have hdr : draft2 = draft := by
    rw [hc] at hc2
    cases hc2
    rfl
  subst hdr
  obtain ⟨committed, hld, hcred⟩ := hreadback pc2 draft2 hc hl
  refine ⟨pc2, draft2, committed, pre, hn, hc, hld, htr, ?_⟩
  rw [hr, hld, selectSDP_some]
  cases hd : hasICECredentials draft2.SDP with
  | false => simp
  | true => simp [hcred hd]

/-- Witness of C16: the draft `"draft"` is committed, the engine reads back
`"committed a=ice-ufrag:u a=ice-pwd:p"`, and that is the SDP sent back. -/
theorem HandleOffer_answer_committed_witness :
    (HandleOffer engineCommitted envOK handlerOne serviceOne offerBody).resp.code = 200 ∧
      engineCommitted.CreateAnswer 7 = Except.ok ⟨SDPType.SDPTypeAnswer, "draft"⟩ ∧
      (HandleOffer engineCommitted envOK handlerOne serviceOne offerBody).resp.body =
        Body.answer "committed a=ice-ufrag:u a=ice-pwd:p" "answer" ∧
      ∃ pc draft committed pre, envOK.NewPeerConnection = Except.ok pc ∧
        engineCommitted.CreateAnswer pc = Except.ok draft ∧
        engineCommitted.LocalDescription pc = some committed ∧
        (HandleOffer engineCommitted envOK handlerOne serviceOne offerBody).calls =
          pre ++ [Call.SetLocalDescription pc draft none, Call.LocalDescription pc] ∧
        (HandleOffer engineCommitted envOK handlerOne serviceOne offerBody).resp =
          ⟨200, some envOK.handlerUUID, Body.answer committed.SDP "answer"⟩ :=
  ⟨by decide, rfl, by decide,
    HandleOffer_answer_committed engineCommitted envOK handlerOne serviceOne offerBody
      (fun _ _ _ _ =>
        ⟨⟨SDPType.SDPTypeAnswer, "committed a=ice-ufrag:u a=ice-pwd:p"⟩, rfl, fun _ => by decide⟩)
      (by decide)⟩

theorem HandleOffer_resp_independent (eng : Engine) (env : OfferEnv) (h h2 : ScreenShareHandler)
    (s s2 : webrtcService) (body : Except String OfferRequest) :
    (HandleOffer eng env h2 s2 body).resp = (HandleOffer eng env h s body).resp := by
  cases hb : ShouldBindJSON body with
  | error e => simp [HandleOffer, hb]
  | ok req =>
    cases hs : env.screenStartCapture with
    | error e => simp [HandleOffer, hb, hs]
    | ok screen =>
      cases hp : parseSDPType req.typ with
      | none => simp [HandleOffer, hb, hs, hp]
      | some ty =>
        cases hn : env.NewPeerConnection with
        | error e => simp [HandleOffer, hb, hs, hp, hn, webrtcService.CreatePeerConnection]
        | ok pc =>
          rw [HandleOffer_registered eng env h s body req screen ty pc hb hs hp hn,
            HandleOffer_registered eng env h2 s2 body req screen ty pc hb hs hp hn]
          simp only
          cases h1 : (AddTracksToPeerConnection eng pc screen (acquireAudio env screen).1).1 with
          | some e => simp [negotiate, h1]
          | none =>
            cases h2 : eng.SetRemoteDescription pc { typ := ty, SDP := req.SDP } with
            | some e => simp [negotiate, h1, h2]
            | none =>
              cases h3 : eng.CreateAnswer pc with
              | error e => simp [negotiate, h1, h2, h3]
              | ok answer =>
                cases h4 : eng.SetLocalDescription pc answer <;>
                  simp [negotiate, h1, h2, h3, h4]

/-- C17, as stated, fails: `uuid.New()` returning the id 5 of a live session,
`HandleOffer` succeeds, no duplicate is reported, and the entry of 5, which
held peer connection 3, now holds the new peer connection 7. -/
theorem HandleOffer_duplicate_counterexample :
    mapLookup handlerOne.peerConnections envCollide.handlerUUID = some 3 ∧
      (HandleOffer engineOK envCollide handlerOne serviceOne offerBody).resp.code = 200 ∧
      (HandleOffer engineOK envCollide handlerOne serviceOne offerBody).resp.peerConnectionID =
        some 5 ∧
      (HandleOffer engineOK envCollide handlerOne serviceOne offerBody).h.peerConnections =
        [(5, 7)] ∧
      (HandleOffer engineOK envCollide handlerOne serviceOne offerBody).s.peerConnections =
        [(50, 7)] := by
  decide

/-- C17, amended: the registry has no duplicate check.  The response of
`HandleOffer` does not depend on what the registry holds, and a successful
call whose id is already a key replaces the entry of that id with the new peer
connection, the keys and every other entry staying as they were. -/
theorem HandleOffer_overwrites (eng : Engine) (env : OfferEnv) (h : ScreenShareHandler)
    (s : webrtcService) (body : Except String OfferRequest)
    (hpresent : env.handlerUUID ∈ mapKeys h.peerConnections)
    (hok : (HandleOffer eng env h s body).resp.code = 200) :
    (∀ (h2 : ScreenShareHandler) (s2 : webrtcService),
        (HandleOffer eng env h2 s2 body).resp = (HandleOffer eng env h s body).resp) ∧
      ∃ pc, env.NewPeerConnection = Except.ok pc ∧
        mapLookup (HandleOffer eng env h s body).h.peerConnections env.handlerUUID = some pc ∧
        mapKeys (HandleOffer eng env h s body).h.peerConnections = mapKeys h.peerConnections ∧
        ∀ k, k ≠ env.handlerUUID →
          mapLookup (HandleOffer eng env h s body).h.peerConnections k =
            mapLookup h.peerConnections k := by
  refine ⟨fun h2 s2 => HandleOffer_resp_independent eng env h h2 s s2 body, ?_⟩
  obtain ⟨pc, _, hn, _, _, hst, _⟩ := HandleOffer_success_body eng env h s body hok
  refine ⟨pc, hn, ?_, ?_, ?_⟩
  · rw [hst]
    exact mapLookup_insert_self _ _ _
  · rw [hst]
    exact mapKeys_insert_of_mem _ _ _ hpresent
  · intro k hk
    rw [hst]
    exact mapLookup_insert_other _ _ _ _ hk

/-- Witness of C17 amended: the id 5 of the live session of `handlerOne` is
generated again. -/
theorem HandleOffer_overwrites_witness :
    (∀ (h2 : ScreenShareHandler) (s2 : webrtcService),
        (HandleOffer engineOK envCollide h2 s2 offerBody).resp =
          (HandleOffer engineOK envCollide handlerOne serviceOne offerBody).resp) ∧
      ∃ pc, envCollide.NewPeerConnection = Except.ok pc ∧
        mapLookup (HandleOffer engineOK envCollide handlerOne serviceOne offerBody).h.peerConnections
          envCollide.handlerUUID = some pc ∧
        mapKeys (HandleOffer engineOK envCollide handlerOne serviceOne offerBody).h.peerConnections =
          mapKeys handlerOne.peerConnections ∧
        ∀ k, k ≠ envCollide.handlerUUID →
          mapLookup (HandleOffer engineOK envCollide handlerOne serviceOne offerBody).h.peerConnections
            k = mapLookup handlerOne.peerConnections k :=
  HandleOffer_overwrites engineOK envCollide handlerOne serviceOne offerBody
    (by decide) (by decide)

/-- C18: when `Close` on the transport session returns an error, `cleanup`
goes on: after the failed `Close` it closes every track of the streams it was
given, stops the screen capture and, when it was given an audio stream, the
audio capture; the id is a key of neither map afterwards, the state it leaves
is the one it would leave had `Close` succeeded, and `HandleHangup` answers
200 ok. -/
theorem cleanup_close_error_swallowed (eng : Engine) (Parse : String → Option UUID)
    (h : ScreenShareHandler) (s : webrtcService) (id : String) (peerConnectionID : UUID)
    (pc : PeerConnection) (e : String) (screen audio : Option MediaStream)
    (hparse : Parse id = some peerConnectionID)
    (hl : mapLookup h.peerConnections peerConnectionID = some pc)
    (hclose : eng.Close pc = some e) :
    (cleanup eng h peerConnectionID screen audio).2 =
        [Call.deletePeerConnection peerConnectionID, Call.deleteCandidates peerConnectionID,
          Call.Close pc (some e)] ++ closeTracksOpt screen ++ closeTracksOpt audio
          ++ [Call.screenStopCapture] ++ (if audio.isSome then [Call.audioStopCapture] else []) ∧
      (∀ st, screen = some st → ∀ t ∈ st.GetTracks,
        Call.trackClose t ∈ (cleanup eng h peerConnectionID screen audio).2) ∧
      (∀ st, audio = some st → ∀ t ∈ st.GetTracks,
        Call.trackClose t ∈ (cleanup eng h peerConnectionID screen audio).2) ∧
      peerConnectionID ∉ mapKeys (cleanup eng h peerConnectionID screen audio).1.peerConnections ∧
      peerConnectionID ∉ mapKeys (cleanup eng h peerConnectionID screen audio).1.iceCandidates ∧
      (∀ eng2 : Engine, (cleanup eng2 h peerConnectionID screen audio).1 =
        (cleanup eng h peerConnectionID screen audio).1) ∧
      (HandleHangup eng Parse h s id).resp = ⟨200, none, Body.status "ok"⟩ ∧
      Call.Close pc (some e) ∈ (HandleHangup eng Parse h s id).calls ∧
      Call.screenStopCapture ∈ (HandleHangup eng Parse h s id).calls ∧
      peerConnectionID ∉ mapKeys (HandleHangup eng Parse h s id).h.peerConnections := by
  have hcalls : (cleanup eng h peerConnectionID screen audio).2 =
      [Call.deletePeerConnection peerConnectionID, Call.deleteCandidates peerConnectionID,
        Call.Close pc (some e)] ++ closeTracksOpt screen ++ closeTracksOpt audio
        ++ [Call.screenStopCapture] ++ (if audio.isSome then [Call.audioStopCapture] else []) := by
    cases audio <;> simp [cleanup, hl, hclose]
  refine ⟨hcalls, ?_, ?_, ?_, ?_, ?_, ?_, ?_, ?_, ?_⟩
  · intro st hst t ht
    rw [hcalls, hst]
    simp [closeTracksOpt, closeTracks, ht]
  · intro st hst t ht
    rw [hcalls, hst]
    simp [closeTracksOpt, closeTracks, ht]
  · rw [cleanup_state]
    exact mapDelete_not_mem _ _
  · rw [cleanup_state]
    exact mapDelete_not_mem _ _
  · intro eng2
    rw [cleanup_state, cleanup_state]
  · simp [HandleHangup, hparse]
  · simp [HandleHangup, hparse, cleanup, hl, hclose]
  · simp [HandleHangup, hparse, cleanup]
  · simp only [HandleHangup, hparse]
    rw [cleanup_state]
    exact mapDelete_not_mem _ _

/-- Witness of C18: hanging up the live session of `handlerOne` on an engine
whose `Close` fails. -/
theorem cleanup_close_error_swallowed_witness :
    (HandleHangup engineRejecting parseWords handlerOne serviceOne "five").resp =
        ⟨200, none, Body.status "ok"⟩ ∧
      Call.Close 3 (some "close failed") ∈
        (HandleHangup engineRejecting parseWords handlerOne serviceOne "five").calls ∧
      Call.screenStopCapture ∈
        (HandleHangup engineRejecting parseWords handlerOne serviceOne "five").calls ∧
      (5 : UUID) ∉ mapKeys
        (HandleHangup engineRejecting parseWords handlerOne serviceOne "five").h.peerConnections :=
  have hw := cleanup_close_error_swallowed engineRejecting parseWords handlerOne serviceOne
    "five" 5 3 "close failed" none none rfl rfl rfl
  ⟨hw.2.2.2.2.2.2.1, hw.2.2.2.2.2.2.2.1, hw.2.2.2.2.2.2.2.2.1, hw.2.2.2.2.2.2.2.2.2⟩

theorem addVideoTracks_fails (eng : Engine) (pc : PeerConnection) (ts : List Track)
    (hbad : ∃ t ∈ ts, eng.AddTransceiverFromTrack pc t ≠ none) :
    (addVideoTracks eng pc ts).1 ≠ none := by
  induction ts with
  | nil => simp at hbad
  | cons t ts ih =>
    cases ha : eng.AddTransceiverFromTrack pc t with
    | some e => simp [addVideoTracks, ha]
    | none =>
      have : ∃ u ∈ ts, eng.AddTransceiverFromTrack pc u ≠ none := by
        obtain ⟨u, hu, hne⟩ := hbad
        rcases List.mem_cons.1 hu with h1 | h1
        · subst h1
          exact absurd ha hne
        · exact ⟨u, h1, hne⟩
      simpa [addVideoTracks, ha] using ih this

/-- C19, as stated, fails: the engine reporting `closed` for the live session
of `handlerOne` (stored by the service under 50) leaves the handler as it
was and stops no capture; `HandleICE` still finds the session and `GetICE`
still returns its candidate list. -/
theorem terminal_state_counterexample :
    mapLookup serviceOne.peerConnections 50 = mapLookup handlerOne.peerConnections 5 ∧
      (connectionStateChanged handlerOne serviceOne 50
        PeerConnectionState.PeerConnectionStateClosed).1 = handlerOne ∧
      (connectionStateChanged handlerOne serviceOne 50
        PeerConnectionState.PeerConnectionStateClosed).2.2 = [] ∧
      (HandleICE engineOK parseWords
        (connectionStateChanged handlerOne serviceOne 50
          PeerConnectionState.PeerConnectionStateClosed).1
        (connectionStateChanged handlerOne serviceOne 50
          PeerConnectionState.PeerConnectionStateClosed).2.1
        "five" (Except.ok "cand-b")).resp = ⟨200, none, Body.status "ok"⟩ ∧
      (GetICE parseWords
        (connectionStateChanged handlerOne serviceOne 50
          PeerConnectionState.PeerConnectionStateClosed).1
        (connectionStateChanged handlerOne serviceOne 50
          PeerConnectionState.PeerConnectionStateClosed).2.1
        "five").resp = ⟨200, none, Body.candidates ["cand-a"]⟩ := by
  decide

/-- C19, amended: when the engine reports a connection state, no teardown runs.
The handler (both registry maps) is unchanged and no call is made, so
`HandleICE` and `GetICE` answer as before; only the map of the service
changes, and only for `closed` or `failed`, losing the entry stored under the
id of that peer connection. -/
theorem connectionStateChanged_effect (h : ScreenShareHandler) (s : webrtcService)
    (peerConnectionID : UUID) (state : PeerConnectionState) :
    (connectionStateChanged h s peerConnectionID state).1 = h ∧
      (connectionStateChanged h s peerConnectionID state).2.2 = [] ∧
      (state = PeerConnectionState.PeerConnectionStateClosed ∨
          state = PeerConnectionState.PeerConnectionStateFailed →
        (connectionStateChanged h s peerConnectionID state).2.1.peerConnections =
          mapDelete s.peerConnections peerConnectionID) ∧
      (¬ (state = PeerConnectionState.PeerConnectionStateClosed ∨
          state = PeerConnectionState.PeerConnectionStateFailed) →
        (connectionStateChanged h s peerConnectionID state).2.1 = s) ∧
      (∀ (eng : Engine) (Parse : String → Option UUID) (id : String)
          (cand : Except String ICECandidateInit),
        (HandleICE eng Parse (connectionStateChanged h s peerConnectionID state).1
          (connectionStateChanged h s peerConnectionID state).2.1 id cand).resp =
          (HandleICE eng Parse h s id cand).resp) ∧
      ∀ (Parse : String → Option UUID) (id : String),
        (GetICE Parse (connectionStateChanged h s peerConnectionID state).1
          (connectionStateChanged h s peerConnectionID state).2.1 id).resp =
          (GetICE Parse h s id).resp := by
  refine ⟨rfl, rfl, ?_, ?_, ?_, ?_⟩
  · intro hterm
    simp [connectionStateChanged, webrtcService.onConnectionStateChange, hterm]
  · intro hterm
    simp [connectionStateChanged, webrtcService.onConnectionStateChange, hterm]
  · intro eng Parse id cand
    simp only [connectionStateChanged]
    cases hp : Parse id with
    | none => simp [HandleICE, hp]
    | some pid =>
      cases hl : mapLookup h.peerConnections pid with
      | none => simp [HandleICE, hp, hl]
      | some pc =>
        cases cand with
        | error e => simp [HandleICE, hp, hl]
        | ok c =>
          cases ha : eng.AddICECandidate pc c <;> simp [HandleICE, hp, hl, ha]
  · intro Parse id
    simp only [connectionStateChanged]
    cases hp : Parse id with
    | none => simp [GetICE, hp]
    | some pid =>
      cases hl : mapLookup h.iceCandidates pid <;> simp [GetICE, hp, hl]

/-- C20, as stated, fails: the engine refusing the audio track,
`AddTracksToPeerConnection` returns no error, and `HandleOffer` goes on to
apply the remote description and answers 200. -/
theorem audio_attach_failure_counterexample :
    engineNoAudio.AddTransceiverFromTrack 7 ⟨2, TrackKind.audio⟩ = some "no audio codec" ∧
      (AddTracksToPeerConnection engineNoAudio 7 videoOnly (some micStream)).1 = none ∧
      Call.AddTransceiverFromTrack 7 ⟨2, TrackKind.audio⟩ (some "no audio codec") ∈
        (HandleOffer engineNoAudio envOK handlerOne serviceOne offerBody).calls ∧
      Call.SetRemoteDescription 7 ⟨SDPType.SDPTypeOffer, "v=0"⟩ none ∈
        (HandleOffer engineNoAudio envOK handlerOne serviceOne offerBody).calls ∧
      (HandleOffer engineNoAudio envOK handlerOne serviceOne offerBody).resp.code = 200 := by
  decide

/-- C20, amended: a video track attachment failure, or a screen stream without
a video track, makes `AddTracksToPeerConnection` return an error, whereas a
failure for an audio track is tolerated (no error when every video track was
attached); and when `AddTracksToPeerConnection` returns an error `HandleOffer`
tears the session down at once and answers 500 `failed to add tracks`,
`SetRemoteDescription` never being called. -/
theorem AddTracks_failure_teardown (eng : Engine) (env : OfferEnv) (h : ScreenShareHandler)
    (s : webrtcService) (body : Except String OfferRequest) (req : OfferRequest)
    (screen : MediaStream) (ty : SDPType) (pc : PeerConnection)
    (hb : ShouldBindJSON body = Except.ok req) (hs : env.screenStartCapture = Except.ok screen)
    (hp : parseSDPType req.typ = some ty) (hn : env.NewPeerConnection = Except.ok pc) :
    ((∃ t ∈ screen.GetVideoTracks, eng.AddTransceiverFromTrack pc t ≠ none) →
        ∀ audio, (AddTracksToPeerConnection eng pc screen audio).1 ≠ none) ∧
      (screen.GetVideoTracks = [] →
        ∀ audio, (AddTracksToPeerConnection eng pc screen audio).1 ≠ none) ∧
      (screen.GetVideoTracks ≠ [] →
        (∀ t ∈ screen.GetVideoTracks, eng.AddTransceiverFromTrack pc t = none) →
        ∀ audio, (AddTracksToPeerConnection eng pc screen audio).1 = none) ∧
      ∀ e, (AddTracksToPeerConnection eng pc screen (acquireAudio env screen).1).1 = some e →
        (HandleOffer eng env h s body).resp =
            ⟨500, none, Body.error ("failed to add tracks: " ++ e)⟩ ∧
          (∀ pc2 d e2,
            Call.SetRemoteDescription pc2 d e2 ∉ (HandleOffer eng env h s body).calls) ∧
          Call.Close pc (eng.Close pc) ∈ (HandleOffer eng env h s body).calls ∧
          Call.screenStopCapture ∈ (HandleOffer eng env h s body).calls ∧
          env.handlerUUID ∉ mapKeys (HandleOffer eng env h s body).h.peerConnections ∧
          env.handlerUUID ∉ mapKeys (HandleOffer eng env h s body).h.iceCandidates := by
  refine ⟨?_, ?_, ?_, ?_⟩
  · intro hbad audio
    have hne : ¬ screen.GetVideoTracks.length = 0 := by
      obtain ⟨t, ht, _⟩ := hbad
      intro h0
      rw [List.length_eq_zero.1 h0] at ht
      simp at ht
    have hv := addVideoTracks_fails eng pc _ hbad
    unfold AddTracksToPeerConnection
    simp only [hne, if_false]
    rcases hr : addVideoTracks eng pc screen.GetVideoTracks with ⟨r1, r2⟩
    rw [hr] at hv
    cases r1 with
    | none => exact absurd rfl hv
    | some e => simp
  · intro hnil audio
    simp [AddTracksToPeerConnection, hnil]
  · intro hne hall audio
    have hlen : ¬ screen.GetVideoTracks.length = 0 := fun h0 => hne (List.length_eq_zero.1 h0)
    cases audio <;>
      simp [AddTracksToPeerConnection, hlen, addVideoTracks_ok eng pc _ hall]
  · intro e he
    rw [HandleOffer_registered eng env h s body req screen ty pc hb hs hp hn]
    have hcl := cleanup_state eng
      { h with peerConnections := mapInsert h.peerConnections env.handlerUUID pc }
      env.handlerUUID (some screen) (acquireAudio env screen).1
    refine ⟨by simp [negotiate, he], ?_, ?_, ?_, ?_, ?_⟩
    · intro pc2 d e2 hmem
      simp only [negotiate, he, List.mem_append, List.mem_singleton] at hmem
      rcases hmem with h1 | (h1 | h1) | h1
      · have := ((registeredCalls_upto env screen pc).2.1 _ h1).1
        simp [Call.rank, Call.step, Step.rank] at this
      · have := (attach_segment eng pc screen _ _ h1).1
        simp [Call.rank, Call.step, Step.rank] at this
      · cases h1
      · have := cleanup_calls eng _ _ _ _ _ h1
        simp [Call.step] at this
    · simp [negotiate, he, cleanup, mapLookup_insert_self]
    · simp [negotiate, he, cleanup]
    · simp only [negotiate, he]
      rw [hcl]
      exact mapDelete_not_mem _ _
    · simp only [negotiate, he]
      rw [hcl]
      exact mapDelete_not_mem _ _

/-- Witness of C20 amended: the engine refuses the video track. -/
theorem AddTracks_failure_teardown_witness :
    (HandleOffer engineNoTracks envOK handlerOne serviceOne offerBody).resp =
        ⟨500, none, Body.error "failed to add tracks: no codec"⟩ ∧
      (∀ pc2 d e2, Call.SetRemoteDescription pc2 d e2 ∉
        (HandleOffer engineNoTracks envOK handlerOne serviceOne offerBody).calls) ∧
      Call.screenStopCapture ∈
        (HandleOffer engineNoTracks envOK handlerOne serviceOne offerBody).calls :=
  have hw := AddTracks_failure_teardown engineNoTracks envOK handlerOne serviceOne offerBody
    ⟨"v=0", "offer"⟩ videoOnly SDPType.SDPTypeOffer 7 rfl rfl rfl rfl
  have hx := hw.2.2.2 "no codec" (by decide)
  ⟨hx.1, hx.2.1, hx.2.2.2.1⟩

/-! ## Claims, third part -/

/-- C21, as stated, fails: the candidate callback of session 5, fired with a
candidate after `cleanup` of session 5 ran, stores the candidate, so that
`iceCandidates` has an entry for 5 again. -/
theorem late_candidate_counterexample :
    (cleanup engineOK handlerOne 5 none none).1 = ⟨[], []⟩ ∧
      onICECandidate (cleanup engineOK handlerOne 5 none none).1 5 (some "late") =
        ⟨[], [(5, ["late"])]⟩ ∧
      onICECandidate (cleanup engineOK handlerOne 5 none none).1 5 (some "late") ≠
        (cleanup engineOK handlerOne 5 none none).1 ∧
      (5 : UUID) ∈ mapKeys
        (onICECandidate (cleanup engineOK handlerOne 5 none none).1 5 (some "late")).iceCandidates := by
  decide

/-- C21, amended: the candidate callback does not look at the registry.  Fired
with a candidate after `cleanup` of its session ran, it stores the candidate:
the session gets a candidate list again, holding just that candidate, which a
poll returns; `peerConnections` is unchanged and still has no entry for the
session, and a later `cleanup` of the same id removes the list again. -/
theorem late_candidate_stored (eng : Engine) (h : ScreenShareHandler) (S : UUID)
    (screen audio : Option MediaStream) (c : ICECandidateInit) :
    mapLookup (onICECandidate (cleanup eng h S screen audio).1 S (some c)).iceCandidates S =
        some [c] ∧
      (onICECandidate (cleanup eng h S screen audio).1 S (some c)).peerConnections =
        (cleanup eng h S screen audio).1.peerConnections ∧
      S ∉ mapKeys (onICECandidate (cleanup eng h S screen audio).1 S (some c)).peerConnections ∧
      (∀ (Parse : String → Option UUID) (s : webrtcService) (id : String), Parse id = some S →
        (GetICE Parse (onICECandidate (cleanup eng h S screen audio).1 S (some c)) s id).resp =
          ⟨200, none, Body.candidates [c]⟩) ∧
      (∀ S2, S2 ≠ S →
        mapLookup (onICECandidate (cleanup eng h S screen audio).1 S (some c)).iceCandidates S2 =
          mapLookup h.iceCandidates S2) ∧
      S ∉ mapKeys (cleanup eng (onICECandidate (cleanup eng h S screen audio).1 S (some c)) S
        none none).1.iceCandidates := by
  have hst := cleanup_state eng h S screen audio
  have hnone : mapLookup (cleanup eng h S screen audio).1.iceCandidates S = none := by
    rw [hst]
    exact mapLookup_delete_self _ _
  have h1 := onICECandidate_lookup (cleanup eng h S screen audio).1 S c
  rw [hnone] at h1
  simp only [Option.getD_none, List.nil_append] at h1
  refine ⟨h1, by simp [onICECandidate], ?_, ?_, ?_, ?_⟩
  · have : (onICECandidate (cleanup eng h S screen audio).1 S (some c)).peerConnections =
        (cleanup eng h S screen audio).1.peerConnections := by simp [onICECandidate]
    rw [this, hst]
    exact mapDelete_not_mem _ _
  · intro Parse s id hparse
    simp [GetICE, hparse, h1]
  · intro S2 hne
    have : mapLookup (onICECandidate (cleanup eng h S screen audio).1 S (some c)).iceCandidates
        S2 = mapLookup (cleanup eng h S screen audio).1.iceCandidates S2 := by
      simp [onICECandidate, mapLookup_insert_other _ _ _ _ hne]
    rw [this, hst]
    exact mapLookup_delete_other _ _ _ hne
  · rw [cleanup_state]
    exact mapDelete_not_mem _ _

/-- C22: `cleanup` of a registered session goes in the mandated order: the
two registry deletions, then `Close` on the transport session, then the track
closes, then the capture stops.  No step after the deletions writes the
registry, so the registry that `HandleICE` sees from the moment `Close` is
invoked is the final one, and it answers 404 for that id. -/
theorem cleanup_order (eng : Engine) (h : ScreenShareHandler) (s : webrtcService)
    (peerConnectionID : UUID) (pc : PeerConnection) (screen audio : Option MediaStream)
    (hl : mapLookup h.peerConnections peerConnectionID = some pc) :
    (cleanup eng h peerConnectionID screen audio).2 =
        [Call.deletePeerConnection peerConnectionID, Call.deleteCandidates peerConnectionID]
          ++ [Call.Close pc (eng.Close pc)]
          ++ (closeTracksOpt screen ++ closeTracksOpt audio)
          ++ (Call.screenStopCapture :: (if audio.isSome then [Call.audioStopCapture] else [])) ∧
      (cleanupRegistry h peerConnectionID).2 = some pc ∧
      (cleanup eng h peerConnectionID screen audio).1 = (cleanupRegistry h peerConnectionID).1 ∧
      peerConnectionID ∉ mapKeys (cleanupRegistry h peerConnectionID).1.peerConnections ∧
      peerConnectionID ∉ mapKeys (cleanupRegistry h peerConnectionID).1.iceCandidates ∧
      ∀ (Parse : String → Option UUID) (id : String) (cand : Except String ICECandidateInit),
        Parse id = some peerConnectionID →
        (HandleICE eng Parse (cleanupRegistry h peerConnectionID).1 s id cand).resp =
          ⟨404, none, Body.error "peer connection not found"⟩ := by
  have hreg : (cleanupRegistry h peerConnectionID).1 =
      { peerConnections := mapDelete h.peerConnections peerConnectionID,
        iceCandidates := mapDelete h.iceCandidates peerConnectionID } := by
    simp [cleanupRegistry, hl]
  refine ⟨?_, by simp [cleanupRegistry, hl], ?_, ?_, ?_, ?_⟩
  · cases audio <;> simp [cleanup, hl]
  · rw [cleanup_state, hreg]
  · rw [hreg]
    exact mapDelete_not_mem _ _
  · rw [hreg]
    exact mapDelete_not_mem _ _
  · intro Parse id cand hparse
    have : mapLookup (cleanupRegistry h peerConnectionID).1.peerConnections peerConnectionID =
        none := by
      rw [hreg]
      exact mapLookup_delete_self _ _
    simp [HandleICE, hparse, this]

/-- Witness of C22: `cleanup` of the live session of `handlerOne`, given a
screen stream and a separate audio stream. -/
theorem cleanup_order_witness :
    (cleanup engineOK handlerOne 5 (some videoOnly) (some micStream)).2 =
        [Call.deletePeerConnection 5, Call.deleteCandidates 5, Call.Close 3 none,
          Call.trackClose ⟨1, TrackKind.video⟩, Call.trackClose ⟨2, TrackKind.audio⟩,
          Call.screenStopCapture, Call.audioStopCapture] ∧
      (HandleICE engineOK parseWords (cleanupRegistry handlerOne 5).1 serviceOne "five"
        (Except.ok "cand-b")).resp = ⟨404, none, Body.error "peer connection not found"⟩ :=
  have hw := cleanup_order engineOK handlerOne serviceOne 5 3 (some videoOnly) (some micStream)
    rfl
  ⟨hw.1, hw.2.2.2.2.2 parseWords "five" (Except.ok "cand-b") rfl⟩

/-- C26: `GetICE` cannot tell an unknown session from a known one without
candidates: it never answers 404, and for every well-formed id without an
entry in `iceCandidates`, whatever `peerConnections` holds, it answers 200
with an empty candidate list. -/
theorem GetICE_never_not_found (Parse : String → Option UUID) (h : ScreenShareHandler)
    (s : webrtcService) (id : String) :
    (GetICE Parse h s id).resp.code ≠ 404 ∧
      (∀ peerConnectionID, Parse id = some peerConnectionID →
        mapLookup h.iceCandidates peerConnectionID = none →
        (GetICE Parse h s id).resp = ⟨200, none, Body.candidates []⟩) ∧
      ∀ (pcs : List (UUID × PeerConnection)) (s2 : webrtcService),
        (GetICE Parse { h with peerConnections := pcs } s2 id).resp = (GetICE Parse h s id).resp := by
  refine ⟨?_, ?_, ?_⟩
  · cases hp : Parse id with
    | none => simp [GetICE, hp]
    | some pid => cases hl : mapLookup h.iceCandidates pid <;> simp [GetICE, hp, hl]
  · intro pid hp hl
    simp [GetICE, hp, hl]
  · intro pcs s2
    cases hp : Parse id with
    | none => simp [GetICE, hp]
    | some pid => cases hl : mapLookup h.iceCandidates pid <;> simp [GetICE, hp, hl]

/-- C28: on success the body of `HandleOffer` has type `"answer"` and its SDP
is the draft's when the committed local description is nil, or lacks an ICE
credential while the draft has both, and the committed one's otherwise; so it
is always one of the two, and it carries both `ice-ufrag` and `ice-pwd`
whenever the committed description or the draft does. -/
theorem HandleOffer_answer_selection (eng : Engine) (env : OfferEnv) (h : ScreenShareHandler)
    (s : webrtcService) (body : Except String OfferRequest)
    (hok : (HandleOffer eng env h s body).resp.code = 200) :
    ∃ pc draft out, env.NewPeerConnection = Except.ok pc ∧
      eng.CreateAnswer pc = Except.ok draft ∧
      (HandleOffer eng env h s body).resp.body = Body.answer out "answer" ∧
      (eng.LocalDescription pc = none → out = draft.SDP) ∧
      (∀ d, eng.LocalDescription pc = some d →
        (hasICECredentials d.SDP = false ∧ hasICECredentials draft.SDP = true →
          out = draft.SDP) ∧
        (¬ (hasICECredentials d.SDP = false ∧ hasICECredentials draft.SDP = true) →
          out = d.SDP)) ∧
      (out = draft.SDP ∨ ∃ d, eng.LocalDescription pc = some d ∧ out = d.SDP) ∧
      (hasICECredentials draft.SDP = true ∨
          (∃ d, eng.LocalDescription pc = some d ∧ hasICECredentials d.SDP = true) →
        Contains out "ice-ufrag" = true ∧ Contains out "ice-pwd" = true) := by
  obtain ⟨pc, draft, hn, hc, _, _, hr⟩ := HandleOffer_success_body eng env h s body hok
  refine ⟨pc, draft, selectSDP (eng.LocalDescription pc) draft, hn, hc, by rw [hr], ?_, ?_, ?_, ?_⟩
  · intro hd
    rw [hd, selectSDP_none]
  · intro d hd
    rw [hd, selectSDP_some]
    exact ⟨fun hcond => by simp [hcond], fun hcond => by simp [hcond]⟩
  · cases hd : eng.LocalDescription pc with
    | none => exact Or.inl (selectSDP_none draft)
    | some d =>
      rw [selectSDP_some]
      by_cases hcond : hasICECredentials d.SDP = false ∧ hasICECredentials draft.SDP = true
      · exact Or.inl (by simp [hcond])
      · exact Or.inr ⟨d, rfl, by simp [hcond]⟩
  · have hsplit : ∀ x : String, hasICECredentials x = true →
        Contains x "ice-ufrag" = true ∧ Contains x "ice-pwd" = true := by
      intro x hx
      simpa [hasICECredentials] using hx
    intro hany
    cases hd : eng.LocalDescription pc with
    | none =>
      rw [selectSDP_none]
      rcases hany with h1 | ⟨d, h1, _⟩
      · exact hsplit _ h1
      · rw [hd] at h1
        cases h1
    | some d =>
      rw [selectSDP_some]
      cases hdc : hasICECredentials d.SDP with
      | true => simpa using hsplit _ hdc
      | false =>
        rcases hany with h1 | ⟨d2, h1, h2⟩
        · simpa [h1] using hsplit _ h1
        · rw [hd] at h1
          cases h1
          rw [hdc] at h2
          cases h2

/-- Witness of C28: the committed description lacks the credentials that the
draft has. -/
theorem HandleOffer_answer_selection_witness :
    ∃ pc draft out, envOK.NewPeerConnection = Except.ok pc ∧
      engineDraftWins.CreateAnswer pc = Except.ok draft ∧
      (HandleOffer engineDraftWins envOK handlerOne serviceOne offerBody).resp.body =
        Body.answer out "answer" ∧
      (engineDraftWins.LocalDescription pc = none → out = draft.SDP) ∧
      (∀ d, engineDraftWins.LocalDescription pc = some d →
        (hasICECredentials d.SDP = false ∧ hasICECredentials draft.SDP = true →
          out = draft.SDP) ∧
        (¬ (hasICECredentials d.SDP = false ∧ hasICECredentials draft.SDP = true) →
          out = d.SDP)) ∧
      (out = draft.SDP ∨ ∃ d, engineDraftWins.LocalDescription pc = some d ∧ out = d.SDP) ∧
      (hasICECredentials draft.SDP = true ∨
          (∃ d, engineDraftWins.LocalDescription pc = some d ∧
            hasICECredentials d.SDP = true) →
        Contains out "ice-ufrag" = true ∧ Contains out "ice-pwd" = true) :=
  HandleOffer_answer_selection engineDraftWins envOK handlerOne serviceOne offerBody (by decide)

theorem ClosePeerConnection_of_callback (eng : Engine) (s : webrtcService)
    (peerConnectionID : UUID) (pc : PeerConnection)
    (hl : mapLookup s.peerConnections peerConnectionID = some pc)
    (hcb : s.stateCallbacks.lookup pc = some peerConnectionID) :
    (s.ClosePeerConnection eng peerConnectionID).2.1 = eng.Close pc ∧
      (s.ClosePeerConnection eng peerConnectionID).1.peerConnections =
        mapDelete s.peerConnections peerConnectionID := by
  cases hc : eng.Close pc <;>
    simp [webrtcService.ClosePeerConnection, hl, hc, webrtcService.peerConnectionClosed, hcb,
      webrtcService.onConnectionStateChange, mapDelete_idem]

/-- C29, as stated, fails: `Close` failing on the peer connection that
`serviceOne` stores under 50, `ClosePeerConnection` returns that error and the
entry is gone all the same; the `Close` call made pion report `closed` to the
connection-state handler installed on that peer connection, which deleted
it. -/
theorem failing_close_counterexample :
    mapLookup serviceOne.peerConnections 50 = some 3 ∧
      engineRejecting.Close 3 = some "close failed" ∧
      (serviceOne.ClosePeerConnection engineRejecting 50).2.1 = some "close failed" ∧
      (serviceOne.ClosePeerConnection engineRejecting 50).2.2 =
        [Call.Close 3 (some "close failed")] ∧
      (serviceOne.ClosePeerConnection engineRejecting 50).1.peerConnections = [] ∧
      mapLookup (serviceOne.ClosePeerConnection engineRejecting 50).1.peerConnections 50 =
        none := by
  decide

/-- C29, amended: `ClosePeerConnection` of the service returns
`ErrPeerConnectionNotFound`, changes nothing and makes no call for an id that
is not in its map; for a known id it calls `Close` once on the stored peer
connection and returns what `Close` returns.  Whether `Close` failed or not,
the service afterwards is the one in which the connection-state handler of
that peer connection has run for `closed`: for a peer connection stored under
the id that its handler captured, the entry of that id is removed and every
other entry is unchanged.  That is how `CreatePeerConnection` stores it: for
the id under which `CreatePeerConnection` has just stored a peer connection,
`ClosePeerConnection` returns what `Close` returns and takes the entry out
again.  After a successful `Close` the entry is removed whatever the
handler. -/
theorem ClosePeerConnection_cases (eng : Engine) (s : webrtcService) (peerConnectionID : UUID) :
    (mapLookup s.peerConnections peerConnectionID = none →
        s.ClosePeerConnection eng peerConnectionID = (s, some ErrPeerConnectionNotFound, [])) ∧
      (∀ pc, mapLookup s.peerConnections peerConnectionID = some pc →
        (s.ClosePeerConnection eng peerConnectionID).2.1 = eng.Close pc ∧
          (s.ClosePeerConnection eng peerConnectionID).2.2 = [Call.Close pc (eng.Close pc)] ∧
          (∀ e, eng.Close pc = some e →
            (s.ClosePeerConnection eng peerConnectionID).1 = s.peerConnectionClosed pc) ∧
          (eng.Close pc = none →
            mapLookup (s.ClosePeerConnection eng peerConnectionID).1.peerConnections
              peerConnectionID = none) ∧
          (s.stateCallbacks.lookup pc = some peerConnectionID →
            (s.ClosePeerConnection eng peerConnectionID).1.peerConnections =
                mapDelete s.peerConnections peerConnectionID ∧
              mapLookup (s.ClosePeerConnection eng peerConnectionID).1.peerConnections
                peerConnectionID = none ∧
              ∀ k, k ≠ peerConnectionID →
                mapLookup (s.ClosePeerConnection eng peerConnectionID).1.peerConnections k =
                  mapLookup s.peerConnections k)) ∧
      ∀ (env : OfferEnv) (pc : PeerConnection), env.NewPeerConnection = Except.ok pc →
        mapLookup (s.CreatePeerConnection env).1.peerConnections env.serviceUUID = some pc ∧
          (s.CreatePeerConnection env).1.stateCallbacks.lookup pc = some env.serviceUUID ∧
          ((s.CreatePeerConnection env).1.ClosePeerConnection eng env.serviceUUID).2.1 =
            eng.Close pc ∧
          ((s.CreatePeerConnection env).1.ClosePeerConnection eng env.serviceUUID).1.peerConnections =
            mapDelete s.peerConnections env.serviceUUID := by
  refine ⟨?_, ?_, ?_⟩
  · intro hl
    simp [webrtcService.ClosePeerConnection, hl, ErrPeerConnectionNotFound]
  · intro pc hl
    have hst : s.stateCallbacks.lookup pc = some peerConnectionID →
        (s.ClosePeerConnection eng peerConnectionID).1.peerConnections =
          mapDelete s.peerConnections peerConnectionID := by
      intro hcb
      cases hc : eng.Close pc <;>
        simp [webrtcService.ClosePeerConnection, hl, hc, webrtcService.peerConnectionClosed, hcb,
          webrtcService.onConnectionStateChange, mapDelete_idem]
    refine ⟨?_, ?_, ?_, ?_, ?_⟩
    · cases hc : eng.Close pc <;> simp [webrtcService.ClosePeerConnection, hl, hc]
    · cases hc : eng.Close pc <;> simp [webrtcService.ClosePeerConnection, hl, hc]
    · intro e hc
      simp [webrtcService.ClosePeerConnection, hl, hc]
    · intro hc
      apply (mapLookup_eq_none_iff _ _).2
      cases hcb : s.stateCallbacks.lookup pc with
      | none =>
        simp only [webrtcService.ClosePeerConnection, hl, hc, webrtcService.peerConnectionClosed,
          hcb]
        exact mapDelete_not_mem _ _
      | some k =>
        simp only [webrtcService.ClosePeerConnection, hl, hc, webrtcService.peerConnectionClosed,
          hcb, webrtcService.onConnectionStateChange, true_or, if_true]
        intro hmem
        simp only [mapKeys, mapDelete, List.mem_map, List.mem_filter] at hmem
        obtain ⟨e, ⟨⟨_, h1⟩, _⟩, h2⟩ := hmem
        simp [h2] at h1
    · intro hcb
      refine ⟨hst hcb, ?_, ?_⟩
      · rw [hst hcb]
        exact mapLookup_delete_self _ _
      · intro k hk
        rw [hst hcb]
        exact mapLookup_delete_other _ _ _ hk
  · intro env pc hn
    have h1 : mapLookup (s.CreatePeerConnection env).1.peerConnections env.serviceUUID =
        some pc := by
      simp [webrtcService.CreatePeerConnection, hn, mapLookup_insert_self]
    have h2 : (s.CreatePeerConnection env).1.stateCallbacks.lookup pc =
        some env.serviceUUID := by
      simp [webrtcService.CreatePeerConnection, hn, List.lookup]
    obtain ⟨h3, h4⟩ := ClosePeerConnection_of_callback eng _ _ pc h1 h2
    refine ⟨h1, h2, h3, ?_⟩
    rw [h4]
    simp [webrtcService.CreatePeerConnection, hn, mapDelete_insert]

/-- Witness of C29 amended: on a service with two peer connections, an unknown
id, a `Close` that fails and a `Close` that succeeds; both known cases leave
the entry of 60 alone. -/
theorem ClosePeerConnection_cases_witness :
    serviceTwo.ClosePeerConnection engineOK 70 =
        (serviceTwo, some ErrPeerConnectionNotFound, []) ∧
      (serviceTwo.ClosePeerConnection engineRejecting 50).2.1 = some "close failed" ∧
      (serviceTwo.ClosePeerConnection engineRejecting 50).1.peerConnections = [(60, 4)] ∧
      (serviceTwo.ClosePeerConnection engineOK 50).2.1 = none ∧
      (serviceTwo.ClosePeerConnection engineOK 50).1.peerConnections = [(60, 4)] :=
  have hw := ClosePeerConnection_cases engineOK serviceTwo 70
  have hr := ClosePeerConnection_cases engineRejecting serviceTwo 50
  have hk := ClosePeerConnection_cases engineOK serviceTwo 50
  ⟨hw.1 rfl, (hr.2.1 3 rfl).1, by decide, (hk.2.1 3 rfl).1, by decide⟩

/-- C30: for a path parameter that `uuid.Parse` rejects, `HandleICE`, `GetICE`
and `HandleHangup` answer 400 `invalid peer connection ID`, leave the handler
and the service as they were and make no call at all; whereas `HandleHangup`
with a well-formed id that is not registered answers 200 and still invokes
`screenCapture.StopCapture`, once. -/
theorem malformed_id_rejected (eng : Engine) (Parse : String → Option UUID)
    (h : ScreenShareHandler) (s : webrtcService) (id : String) :
    (Parse id = none →
        (∀ cand, HandleICE eng Parse h s id cand =
          ⟨h, s, [], ⟨400, none, Body.error "invalid peer connection ID"⟩⟩) ∧
        GetICE Parse h s id = ⟨h, s, [], ⟨400, none, Body.error "invalid peer connection ID"⟩⟩ ∧
        HandleHangup eng Parse h s id =
          ⟨h, s, [], ⟨400, none, Body.error "invalid peer connection ID"⟩⟩) ∧
      ∀ peerConnectionID, Parse id = some peerConnectionID →
        mapLookup h.peerConnections peerConnectionID = none →
        (HandleHangup eng Parse h s id).resp = ⟨200, none, Body.status "ok"⟩ ∧
          (HandleHangup eng Parse h s id).calls =
            [Call.deleteCandidates peerConnectionID, Call.screenStopCapture] ∧
          (HandleHangup eng Parse h s id).calls.count Call.screenStopCapture = 1 := by
  refine ⟨?_, ?_⟩
  · intro hp
    refine ⟨fun cand => by simp [HandleICE, hp], by simp [GetICE, hp],
      by simp [HandleHangup, hp]⟩
  · intro pid hp hl
    have hc : (HandleHangup eng Parse h s id).calls =
        [Call.deleteCandidates pid, Call.screenStopCapture] := by
      simpa [HandleHangup, hp] using cleanup_calls_absent eng h pid hl
    refine ⟨by simp [HandleHangup, hp], hc, ?_⟩
    rw [hc]
    simp

/-- Witness of C30: `"seven"` is no id for `parseWords`, and 9 is an id that
`handlerOne` does not hold. -/
theorem malformed_id_rejected_witness :
    HandleHangup engineOK parseWords handlerOne serviceOne "seven" =
        ⟨handlerOne, serviceOne, [], ⟨400, none, Body.error "invalid peer connection ID"⟩⟩ ∧
      (HandleHangup engineOK parseWords handlerOne serviceOne "nine").calls =
        [Call.deleteCandidates 9, Call.screenStopCapture] :=
  ⟨((malformed_id_rejected engineOK parseWords handlerOne serviceOne "seven").1 rfl).2.2,
    ((malformed_id_rejected engineOK parseWords handlerOne serviceOne "nine").2 9 rfl rfl).2.1⟩

theorem HandleOffer_resp_env (eng : Engine) (env env2 : OfferEnv) (h : ScreenShareHandler)
    (s : webrtcService) (body : Except String OfferRequest)
    (h1 : env2.screenStartCapture = env.screenStartCapture)
    (h2 : env2.audioStartCapture = env.audioStartCapture)
    (h3 : env2.NewPeerConnection = env.NewPeerConnection)
    (h4 : env2.handlerUUID = env.handlerUUID) :
    (HandleOffer eng env2 h s body).resp = (HandleOffer eng env h s body).resp := by
  cases hb : ShouldBindJSON body with
  | error e => simp [HandleOffer, hb]
  | ok req =>
    cases hs : env.screenStartCapture with
    | error e => simp [HandleOffer, hb, hs, h1]
    | ok screen =>
      have haud : acquireAudio env2 screen = acquireAudio env screen := by
        simp [acquireAudio, h2]
      cases hp : parseSDPType req.typ with
      | none => simp [HandleOffer, hb, hs, hp, h1]
      | some ty =>
        cases hn : env.NewPeerConnection with
        | error e =>
          simp [HandleOffer, hb, hs, hp, hn, h1, h3, webrtcService.CreatePeerConnection]
        | ok pc =>
          rw [HandleOffer_registered eng env h s body req screen ty pc hb hs hp hn,
            HandleOffer_registered eng env2 h s body req screen ty pc hb (h1.trans hs) hp
              (h3.trans hn)]
          simp only [h4, haud]

theorem HandleOffer_service_id_unused (eng : Engine) (env : OfferEnv) (h : ScreenShareHandler)
    (s : webrtcService) (body : Except String OfferRequest) (u : UUID) :
    (HandleOffer eng { env with serviceUUID := u } h s body).resp =
      (HandleOffer eng env h s body).resp :=
  HandleOffer_resp_env eng env { env with serviceUUID := u } h s body rfl rfl rfl rfl

theorem HandleOffer_registered_service (eng : Engine) (env : OfferEnv) (h : ScreenShareHandler)
    (s : webrtcService) (body : Except String OfferRequest) (req : OfferRequest)
    (screen : MediaStream) (ty : SDPType) (pc : PeerConnection)
    (hb : ShouldBindJSON body = Except.ok req) (hs : env.screenStartCapture = Except.ok screen)
    (hp : parseSDPType req.typ = some ty) (hn : env.NewPeerConnection = Except.ok pc) :
    ((HandleOffer eng env h s body).resp.code = 200 →
        (HandleOffer eng env h s body).s =
          { peerConnections := mapInsert s.peerConnections env.serviceUUID pc,
            stateCallbacks := (pc, env.serviceUUID) :: s.stateCallbacks }) ∧
      ((HandleOffer eng env h s body).resp.code ≠ 200 →
        Call.Close pc (eng.Close pc) ∈ (HandleOffer eng env h s body).calls ∧
          (HandleOffer eng env h s body).s =
            { peerConnections := mapDelete s.peerConnections env.serviceUUID,
              stateCallbacks := s.stateCallbacks.filter (fun e => decide (e.1 ≠ pc)) }) := by
  rw [HandleOffer_registered eng env h s body req screen ty pc hb hs hp hn]
  simp only
  rw [negotiate_service]
  refine ⟨?_, ?_⟩
  · intro hok
    simp [hok]
  · intro hfail
    refine ⟨?_, ?_⟩
    · apply List.mem_append_right
      apply negotiate_failure_calls eng _ _ pc screen _ ty req hfail
      simp [cleanup, mapLookup_insert_self]
    · simp only [hfail, if_false]
      rw [cleanup_service]
      simp only [mapLookup_insert_self]
      exact peerConnectionClosed_created s env.serviceUUID pc

/-- C27, as stated, fails: `cleanup` does not leave the map of the service
unchanged.  After a setup failure past registration the entry that
`CreatePeerConnection` had just added (peer connection 7 under 100) is gone;
and after a successful `HandleOffer` on an empty handler and an empty service,
which leaves peer connection 7 under 9 in the registry and under 100 in the
service, the Hangup of 9 leaves the service empty.  Each time `cleanup` called
`Close`, and pion reported `closed` to the connection-state handler of the
service. -/
theorem teardown_releases_service_counterexample :
    (serviceOne.CreatePeerConnection envOK).1.peerConnections = [(50, 3), (100, 7)] ∧
      (HandleOffer engineNoCommit envOK handlerOne serviceOne offerBody).resp.code = 500 ∧
      Call.Close 7 none ∈ (HandleOffer engineNoCommit envOK handlerOne serviceOne offerBody).calls ∧
      (HandleOffer engineNoCommit envOK handlerOne serviceOne offerBody).s.peerConnections =
        [(50, 3)] ∧
      (HandleOffer engineOK envNine ⟨[], []⟩ ⟨[], []⟩ offerBody).resp.code = 200 ∧
      (HandleOffer engineOK envNine ⟨[], []⟩ ⟨[], []⟩ offerBody).h.peerConnections = [(9, 7)] ∧
      (HandleOffer engineOK envNine ⟨[], []⟩ ⟨[], []⟩ offerBody).s.peerConnections =
        [(100, 7)] ∧
      (HandleHangup engineOK parseWords (HandleOffer engineOK envNine ⟨[], []⟩ ⟨[], []⟩ offerBody).h
        (HandleOffer engineOK envNine ⟨[], []⟩ ⟨[], []⟩ offerBody).s "nine").resp.code = 200 ∧
      (HandleHangup engineOK parseWords (HandleOffer engineOK envNine ⟨[], []⟩ ⟨[], []⟩ offerBody).h
        (HandleOffer engineOK envNine ⟨[], []⟩ ⟨[], []⟩ offerBody).s "nine").calls =
          [Call.deletePeerConnection 9, Call.deleteCandidates 9, Call.Close 7 none,
            Call.screenStopCapture] ∧
      (HandleHangup engineOK parseWords (HandleOffer engineOK envNine ⟨[], []⟩ ⟨[], []⟩ offerBody).h
        (HandleOffer engineOK envNine ⟨[], []⟩ ⟨[], []⟩ offerBody).s "nine").s.peerConnections =
          [] := by
  decide

/-- C27, amended: the handler's teardown releases the bookkeeping of the
service only through the peer connection it closes.  A successful
`CreatePeerConnection` stores the peer connection in the map of the service
under its own `uuid.New()` id (one entry more when the id is fresh), installs
the connection-state handler that captures that id, and returns the peer
connection only; the response of `HandleOffer` does not depend on that id.
After a successful `HandleOffer` the entry is there; after a setup failure
past registration `cleanup` has called `Close` on the new peer connection and
its handler has removed the entry again.  When `HandleHangup` finds a peer
connection under the id, `cleanup` calls `Close` on it and the service
afterwards is the one in which that connection's handler has run for
`closed`, which removes the entry of the id the handler captured; for an id
that the registry does not hold, and in `HandleICE` and `GetICE`, the service
is unchanged.  The connection-state handler removes the entry for `closed`
and `failed` and changes nothing for any other state; `ClosePeerConnection`
removes it when `Close` succeeds. -/
theorem service_bookkeeping (eng : Engine) (env : OfferEnv) (h : ScreenShareHandler)
    (s : webrtcService) (body : Except String OfferRequest) (Parse : String → Option UUID)
    (id : String) (cand : Except String ICECandidateInit) :
    (∀ pc, env.NewPeerConnection = Except.ok pc →
        s.CreatePeerConnection env =
          ({ peerConnections := mapInsert s.peerConnections env.serviceUUID pc,
             stateCallbacks := (pc, env.serviceUUID) :: s.stateCallbacks }, Except.ok pc,
            [Call.OnConnectionStateChange pc]) ∧
        (env.serviceUUID ∉ mapKeys s.peerConnections →
          (s.CreatePeerConnection env).1.peerConnections =
            s.peerConnections ++ [(env.serviceUUID, pc)])) ∧
      (∀ u, (HandleOffer eng { env with serviceUUID := u } h s body).resp =
        (HandleOffer eng env h s body).resp) ∧
      (∀ req screen ty pc, ShouldBindJSON body = Except.ok req →
        env.screenStartCapture = Except.ok screen → parseSDPType req.typ = some ty →
        env.NewPeerConnection = Except.ok pc →
        ((HandleOffer eng env h s body).resp.code = 200 →
          (HandleOffer eng env h s body).s.peerConnections =
              mapInsert s.peerConnections env.serviceUUID pc ∧
            mapLookup (HandleOffer eng env h s body).s.peerConnections env.serviceUUID =
              some pc) ∧
        ((HandleOffer eng env h s body).resp.code ≠ 200 →
          Call.Close pc (eng.Close pc) ∈ (HandleOffer eng env h s body).calls ∧
            (HandleOffer eng env h s body).s.peerConnections =
              mapDelete s.peerConnections env.serviceUUID ∧
            mapLookup (HandleOffer eng env h s body).s.peerConnections env.serviceUUID = none ∧
            (env.serviceUUID ∉ mapKeys s.peerConnections →
              (HandleOffer eng env h s body).s.peerConnections = s.peerConnections))) ∧
      (Parse id = none → (HandleHangup eng Parse h s id).s = s) ∧
      (∀ peerConnectionID, Parse id = some peerConnectionID →
        (mapLookup h.peerConnections peerConnectionID = none →
          (HandleHangup eng Parse h s id).s = s) ∧
        ∀ pc, mapLookup h.peerConnections peerConnectionID = some pc →
          Call.Close pc (eng.Close pc) ∈ (HandleHangup eng Parse h s id).calls ∧
            (HandleHangup eng Parse h s id).s = s.peerConnectionClosed pc ∧
            ∀ k, s.stateCallbacks.lookup pc = some k →
              (HandleHangup eng Parse h s id).s.peerConnections =
                  mapDelete s.peerConnections k ∧
                mapLookup (HandleHangup eng Parse h s id).s.peerConnections k = none) ∧
      (HandleICE eng Parse h s id cand).s = s ∧
      (GetICE Parse h s id).s = s ∧
      (∀ k state, state ≠ PeerConnectionState.PeerConnectionStateClosed →
        state ≠ PeerConnectionState.PeerConnectionStateFailed →
        s.onConnectionStateChange k state = s) ∧
      (∀ k state, state = PeerConnectionState.PeerConnectionStateClosed ∨
          state = PeerConnectionState.PeerConnectionStateFailed →
        mapLookup (s.onConnectionStateChange k state).peerConnections k = none) ∧
      ∀ k pc, mapLookup s.peerConnections k = some pc → eng.Close pc = none →
        mapLookup (s.ClosePeerConnection eng k).1.peerConnections k = none := by
  refine ⟨?_, fun u => HandleOffer_service_id_unused eng env h s body u, ?_, ?_, ?_, ?_, ?_, ?_,
    ?_, ?_⟩
  · intro pc hn
    refine ⟨by simp [webrtcService.CreatePeerConnection, hn], ?_⟩
    intro hfresh
    simp [webrtcService.CreatePeerConnection, hn, mapInsert_of_not_mem _ _ _ hfresh]
  · intro req screen ty pc hb hs hp hn
    obtain ⟨h200, h500⟩ := HandleOffer_registered_service eng env h s body req screen ty pc hb hs
      hp hn
    refine ⟨?_, ?_⟩
    · intro hok
      rw [h200 hok]
      exact ⟨rfl, mapLookup_insert_self _ _ _⟩
    · intro hfail
      obtain ⟨hclose, hst⟩ := h500 hfail
      rw [hst]
      exact ⟨hclose, rfl, mapLookup_delete_self _ _, fun hfresh =>
        mapDelete_of_not_mem _ _ hfresh⟩
  · intro hp
    simp [HandleHangup, hp]
  · intro pid hp
    refine ⟨?_, ?_⟩
    · intro hl
      simp [HandleHangup, hp, cleanup_service, hl]
    · intro pc hl
      have hst : (HandleHangup eng Parse h s id).s = s.peerConnectionClosed pc := by
        simp [HandleHangup, hp, cleanup_service, hl]
      refine ⟨by simp [HandleHangup, hp, cleanup, hl], hst, ?_⟩
      intro k hcb
      rw [hst]
      simp only [webrtcService.peerConnectionClosed, hcb, webrtcService.onConnectionStateChange,
        true_or, if_true, true_and]
      exact mapLookup_delete_self _ _
  · cases hp : Parse id with
    | none => simp [HandleICE, hp]
    | some pid =>
      cases hl : mapLookup h.peerConnections pid with
      | none => simp [HandleICE, hp, hl]
      | some pc =>
        cases cand with
        | error e => simp [HandleICE, hp, hl]
        | ok c => cases ha : eng.AddICECandidate pc c <;> simp [HandleICE, hp, hl, ha]
  · cases hp : Parse id with
    | none => simp [GetICE, hp]
    | some pid => cases hl : mapLookup h.iceCandidates pid <;> simp [GetICE, hp, hl]
  · intro k state h1 h2
    simp [webrtcService.onConnectionStateChange, h1, h2]
  · intro k state hterm
    simp only [webrtcService.onConnectionStateChange, hterm, if_true]
    exact mapLookup_delete_self _ _
  · intro k pc hl hc
    apply (mapLookup_eq_none_iff _ _).2
    cases hcb : s.stateCallbacks.lookup pc with
    | none =>
      simp only [webrtcService.ClosePeerConnection, hl, hc, webrtcService.peerConnectionClosed,
        hcb]
      exact mapDelete_not_mem _ _
    | some k2 =>
      simp only [webrtcService.ClosePeerConnection, hl, hc, webrtcService.peerConnectionClosed,
        hcb, webrtcService.onConnectionStateChange, true_or, if_true]
      intro hmem
      simp only [mapKeys, mapDelete, List.mem_map, List.mem_filter] at hmem
      obtain ⟨e, ⟨⟨_, h1⟩, _⟩, h2⟩ := hmem
      simp [h2] at h1

/-- Witness of C27 amended: a full negotiation keeps the new entry of the
service, a setup failure past registration loses it again, and a Hangup for
an id that the handler does not hold leaves the service as it was. -/
theorem service_bookkeeping_witness :
    (HandleOffer engineOK envOK handlerOne serviceOne offerBody).s.peerConnections =
        [(50, 3), (100, 7)] ∧
      (HandleOffer engineNoCommit envOK handlerOne serviceOne offerBody).s.peerConnections =
        mapDelete serviceOne.peerConnections 100 ∧
      (HandleHangup engineOK parseWords handlerOne serviceOne "nine").s = serviceOne :=
  have hw := service_bookkeeping engineNoCommit envOK handlerOne serviceOne offerBody parseWords
    "nine" (Except.ok "cand-b")
  have hk := service_bookkeeping engineOK envOK handlerOne serviceOne offerBody parseWords
    "nine" (Except.ok "cand-b")
  ⟨((hk.2.2.1 ⟨"v=0", "offer"⟩ videoOnly SDPType.SDPTypeOffer 7 rfl rfl rfl rfl).1
      (by decide)).1,
    ((hw.2.2.1 ⟨"v=0", "offer"⟩ videoOnly SDPType.SDPTypeOffer 7 rfl rfl rfl rfl).2
      (by decide)).2.1,
    (hk.2.2.2.2.1 9 rfl).1 rfl⟩

theorem countP_audio_zero (l : List Call) (hl : ∀ c ∈ l, c.isAudioStart = false) :
    l.countP Call.isAudioStart = 0 := by
  rw [List.countP_eq_zero]
  intro c hc
  simp [hl c hc]

theorem acquireAudio_count (env : OfferEnv) (screen : MediaStream) :
    (acquireAudio env screen).2.countP Call.isAudioStart =
      if screen.GetAudioTracks = [] then 1 else 0 := by
  by_cases hnil : screen.GetAudioTracks = []
  · cases ha : env.audioStartCapture <;>
      simp [acquireAudio, hnil, ha, Call.isAudioStart]
  · have hlen : screen.GetAudioTracks.length > 0 := List.length_pos.2 hnil
    simp [acquireAudio, hlen, hnil]

theorem HandleOffer_audio_starts (eng : Engine) (env : OfferEnv) (h : ScreenShareHandler)
    (s : webrtcService) (body : Except String OfferRequest) (screen : MediaStream)
    (hacq : Call.screenStartCapture none ∈ (HandleOffer eng env h s body).calls)
    (hs : env.screenStartCapture = Except.ok screen) :
    (HandleOffer eng env h s body).calls.countP Call.isAudioStart =
        (if screen.GetAudioTracks = [] then 1 else 0) ∧
      ∀ sc au e, Call.CreatePeerConnection sc au e ∈ (HandleOffer eng env h s body).calls →
        au = (acquireAudio env screen).1 := by
  have htrk : ∀ st : Option MediaStream, (closeTracksOpt st).countP Call.isAudioStart = 0 := by
    intro st
    apply countP_audio_zero
    intro c hc
    obtain ⟨t, ht⟩ := closeTracksOpt_calls st c hc
    subst ht
    rfl
  have htrk2 := htrk (some screen)
  simp only [closeTracksOpt] at htrk2
  cases hb : ShouldBindJSON body with
  | error e => simp [HandleOffer, hb] at hacq
  | ok req =>
    cases hp : parseSDPType req.typ with
    | none =>
      refine ⟨?_, ?_⟩
      · simp [HandleOffer, hb, hs, hp, List.countP_append, List.countP_cons, Call.isAudioStart,
          acquireAudio_count, htrk, htrk2]
      · intro sc au e hmem
        simp only [HandleOffer, hb, hs, hp, List.mem_append, List.mem_cons] at hmem
        rcases hmem with ((h1 | h1) | h1) | h1
        · cases h1
        · obtain ⟨e2, he2⟩ := acquireAudio_calls env screen _ h1
          cases he2
        · obtain ⟨t, ht⟩ := closeTracksOpt_calls (some screen) _ h1
          cases ht
        · obtain ⟨t, ht⟩ := closeTracksOpt_calls _ _ h1
          cases ht
    | some ty =>
      cases hn : env.NewPeerConnection with
      | error e =>
        refine ⟨?_, ?_⟩
        · simp [HandleOffer, hb, hs, hp, hn, webrtcService.CreatePeerConnection,
            List.countP_append, List.countP_cons, Call.isAudioStart, acquireAudio_count, htrk,
            htrk2]
        · intro sc au e2 hmem
          simp only [HandleOffer, hb, hs, hp, hn, webrtcService.CreatePeerConnection,
            List.mem_append, List.mem_cons, List.append_nil, List.mem_singleton] at hmem
          rcases hmem with (((h1 | h1) | h1) | h1) | h1
          · cases h1
          · obtain ⟨e3, he3⟩ := acquireAudio_calls env screen _ h1
            cases he3
          · rcases h1 with h1 | h1
            · exact (Call.CreatePeerConnection.inj h1).2.1
            · cases h1
          · obtain ⟨t, ht⟩ := closeTracksOpt_calls (some screen) _ h1
            cases ht
          · obtain ⟨t, ht⟩ := closeTracksOpt_calls _ _ h1
            cases ht
      | ok pc =>
        rw [HandleOffer_registered eng env h s body req screen ty pc hb hs hp hn]
        simp only
        have hneg := negotiate_rank eng
          { h with peerConnections := mapInsert h.peerConnections env.handlerUUID pc }
          env.handlerUUID pc screen (acquireAudio env screen).1 ty req
        have hz : (negotiate eng
            { h with peerConnections := mapInsert h.peerConnections env.handlerUUID pc }
            env.handlerUUID pc screen (acquireAudio env screen).1 ty req).2.1.countP
            Call.isAudioStart = 0 := by
          apply countP_audio_zero
          intro c hc
          have := hneg c hc
          cases c <;> simp [Call.rank, Call.step, Step.rank] at this <;> rfl
        refine ⟨?_, ?_⟩
        · rw [List.countP_append, hz]
          simp [registeredCalls, List.countP_append, List.countP_cons, Call.isAudioStart,
            acquireAudio_count]
        · intro sc au e2 hmem
          rcases List.mem_append.1 hmem with h1 | h1
          · simp only [registeredCalls, List.mem_append, List.mem_cons, List.mem_singleton,
              List.mem_nil_iff, or_false] at h1
            rcases h1 with (((h2 | h2) | h2) | h2) | h2 | h2
            · cases h2
            · obtain ⟨e3, he3⟩ := acquireAudio_calls env screen _ h2
              cases he3
            · cases h2
            · exact (Call.CreatePeerConnection.inj h2).2.1
            · cases h2
            · cases h2
          · have := hneg _ h1
            simp [Call.rank, Call.step, Step.rank] at this

/-- C25: the audio acquisition policy of `HandleOffer`.  In a run whose screen
capture succeeded, `audioCapture.StartCapture` is invoked once when the screen
stream has no audio track and never when it has one, in which case the screen
stream itself is the audio stream handed to `CreatePeerConnection`; in a run
whose screen capture did not succeed it is never invoked. -/
theorem audio_acquisition_policy (eng : Engine) (env : OfferEnv) (h : ScreenShareHandler)
    (s : webrtcService) (body : Except String OfferRequest) :
    (HandleOffer eng env h s body).calls.countP Call.isAudioStart ≤ 1 ∧
      ((HandleOffer eng env h s body).calls.countP Call.isAudioStart = 1 ↔
        ∃ screen, Call.screenStartCapture none ∈ (HandleOffer eng env h s body).calls ∧
          env.screenStartCapture = Except.ok screen ∧ screen.GetAudioTracks = []) ∧
      ∀ screen, Call.screenStartCapture none ∈ (HandleOffer eng env h s body).calls →
        env.screenStartCapture = Except.ok screen → screen.GetAudioTracks ≠ [] →
        (∀ e, Call.audioStartCapture e ∉ (HandleOffer eng env h s body).calls) ∧
          (acquireAudio env screen).1 = some screen ∧
          ∀ sc au e, Call.CreatePeerConnection sc au e ∈ (HandleOffer eng env h s body).calls →
            au = some screen := by
  have hno : Call.screenStartCapture none ∉ (HandleOffer eng env h s body).calls →
      (HandleOffer eng env h s body).calls.countP Call.isAudioStart = 0 := by
    intro hacq
    cases hb : ShouldBindJSON body with
    | error e => simp [HandleOffer, hb]
    | ok req =>
      cases hs : env.screenStartCapture with
      | error e => simp [HandleOffer, hb, hs, Call.isAudioStart]
      | ok screen =>
        exfalso
        apply hacq
        cases hp : parseSDPType req.typ with
        | none => simp [HandleOffer, hb, hs, hp]
        | some ty =>
          cases hn : env.NewPeerConnection with
          | error e => simp [HandleOffer, hb, hs, hp, hn, webrtcService.CreatePeerConnection]
          | ok pc =>
            rw [HandleOffer_registered eng env h s body req screen ty pc hb hs hp hn]
            simp [registeredCalls]
  have hscreen : Call.screenStartCapture none ∈ (HandleOffer eng env h s body).calls →
      ∃ screen, env.screenStartCapture = Except.ok screen := by
    intro hacq
    cases hb : ShouldBindJSON body with
    | error e => simp [HandleOffer, hb] at hacq
    | ok req =>
      cases hs : env.screenStartCapture with
      | error e => simp [HandleOffer, hb, hs] at hacq
      | ok screen => exact ⟨screen, rfl⟩
  refine ⟨?_, ?_, ?_⟩
  · by_cases hacq : Call.screenStartCapture none ∈ (HandleOffer eng env h s body).calls
    · obtain ⟨screen, hs⟩ := hscreen hacq
      rw [(HandleOffer_audio_starts eng env h s body screen hacq hs).1]
      split <;> simp
    · rw [hno hacq]
      exact Nat.zero_le 1
  · constructor
    · intro hone
      by_cases hacq : Call.screenStartCapture none ∈ (HandleOffer eng env h s body).calls
      · obtain ⟨screen, hs⟩ := hscreen hacq
        refine ⟨screen, hacq, hs, ?_⟩
        rw [(HandleOffer_audio_starts eng env h s body screen hacq hs).1] at hone
        by_contra hne
        simp [hne] at hone
      · rw [hno hacq] at hone
        cases hone
    · rintro ⟨screen, hacq, hs, hnil⟩
      rw [(HandleOffer_audio_starts eng env h s body screen hacq hs).1]
      simp [hnil]
  · intro screen hacq hs hne
    have hcount := (HandleOffer_audio_starts eng env h s body screen hacq hs).1
    simp only [hne, if_false] at hcount
    have haud : (acquireAudio env screen).1 = some screen := by
      have hlen : screen.GetAudioTracks.length > 0 := List.length_pos.2 hne
      simp [acquireAudio, hlen]
    refine ⟨?_, haud, ?_⟩
    · intro e hmem
      rw [List.countP_eq_zero] at hcount
      have := hcount _ hmem
      simp [Call.isAudioStart] at this
    · intro sc au e hmem
      rw [← haud]
      exact (HandleOffer_audio_starts eng env h s body screen hacq hs).2 sc au e hmem

theorem StartCapture_stream (s : screenCaptureService) (lib : CaptureEnv) (st : MediaStream)
    (hok : (s.StartCapture lib).2.1 = Except.ok st) : (s.StartCapture lib).1.stream = some st := by
  unfold screenCaptureService.StartCapture at hok ⊢
  cases h1 : lib.NewVP8Params with
  | some e => simp [h1] at hok
  | none =>
    cases h2 : lib.NewParams with
    | some e => simp [h1, h2] at hok
    | none =>
      cases h3 : lib.GetDisplayMedia with
      | ok stream =>
        by_cases hv : stream.GetVideoTracks.length = 0
        · simp [h1, h2, h3, hv] at hok
        · simp [h1, h2, h3, hv] at hok ⊢
          exact hok
      | error e0 =>
        simp only [h1, h2, h3] at hok ⊢
        unfold screenCaptureService.startCustomCapture at hok ⊢
        by_cases h4 : lib.NumActiveDisplays = 0
        · simp [h4] at hok
        · cases h5 : lib.NewVP8ParamsCustom with
          | some e => simp [h4, h5] at hok
          | none =>
            cases h6 : lib.NewMediaStream with
            | error e => simp [h4, h5, h6] at hok
            | ok stream =>
              by_cases hv : stream.GetVideoTracks.length = 0
              · simp [h4, h5, h6, hv] at hok
              · simp [h4, h5, h6, hv] at hok ⊢
                exact hok

/-- C23, as stated, fails: session A (id 5) started its screen capture before
session B (id 9), so the capture service holds the stream of B; hanging up A
closes the track of B (track 3) and not the track of A (track 1). -/
theorem hangup_other_session_counterexample :
    captureAfterAB.stream = some secondStream ∧
      withScreenCapture captureAfterAB
          (HandleHangup engineOK parseWords handlerTwo serviceTwo "five").calls =
        [Call.deletePeerConnection 5, Call.deleteCandidates 5, Call.Close 3 none,
          Call.trackClose ⟨3, TrackKind.video⟩, Call.screenStopCapture] ∧
      Call.trackClose ⟨3, TrackKind.video⟩ ∈ withScreenCapture captureAfterAB
        (HandleHangup engineOK parseWords handlerTwo serviceTwo "five").calls ∧
      Call.trackClose ⟨1, TrackKind.video⟩ ∉ withScreenCapture captureAfterAB
        (HandleHangup engineOK parseWords handlerTwo serviceTwo "five").calls := by
  decide

/-- C23, amended: hanging up a registered session A leaves the registry entry
and the candidate list of every other session unchanged and closes the
transport session of A only.  The capture is not per session: `HandleHangup`
closes no track itself, it invokes the `StopCapture` of the one screen capture
service, which closes the tracks of the stream that service holds, the one
started last, whichever session it was started for. -/
theorem hangup_shared_capture (eng : Engine) (Parse : String → Option UUID)
    (h : ScreenShareHandler) (s : webrtcService) (sc : screenCaptureService) (id : String)
    (A : UUID) (pcA : PeerConnection)
    (hparse : Parse id = some A) (hl : mapLookup h.peerConnections A = some pcA) :
    (∀ B, B ≠ A →
        mapLookup (HandleHangup eng Parse h s id).h.peerConnections B =
            mapLookup h.peerConnections B ∧
          mapLookup (HandleHangup eng Parse h s id).h.iceCandidates B =
            mapLookup h.iceCandidates B) ∧
      (HandleHangup eng Parse h s id).calls =
        [Call.deletePeerConnection A, Call.deleteCandidates A, Call.Close pcA (eng.Close pcA),
          Call.screenStopCapture] ∧
      withScreenCapture sc (HandleHangup eng Parse h s id).calls =
        [Call.deletePeerConnection A, Call.deleteCandidates A, Call.Close pcA (eng.Close pcA)]
          ++ closeTracksOpt sc.stream ++ [Call.screenStopCapture] ∧
      (∀ t, Call.trackClose t ∈ withScreenCapture sc (HandleHangup eng Parse h s id).calls ↔
        ∃ st, sc.stream = some st ∧ t ∈ st.GetTracks) ∧
      ∀ (sc0 : screenCaptureService) (lib : CaptureEnv) (st : MediaStream),
        (sc0.StartCapture lib).2.1 = Except.ok st → (sc0.StartCapture lib).1.stream = some st := by
  have hst : (HandleHangup eng Parse h s id).h =
      { peerConnections := mapDelete h.peerConnections A,
        iceCandidates := mapDelete h.iceCandidates A } := by
    simp [HandleHangup, hparse, cleanup_state]
  have hc : (HandleHangup eng Parse h s id).calls =
      [Call.deletePeerConnection A, Call.deleteCandidates A, Call.Close pcA (eng.Close pcA),
        Call.screenStopCapture] := by
    simp [HandleHangup, hparse, cleanup, hl, closeTracksOpt]
  have hw : withScreenCapture sc (HandleHangup eng Parse h s id).calls =
      [Call.deletePeerConnection A, Call.deleteCandidates A, Call.Close pcA (eng.Close pcA)]
        ++ closeTracksOpt sc.stream ++ [Call.screenStopCapture] := by
    rw [hc]
    simp [withScreenCapture, screenCaptureService.StopCapture]
  refine ⟨?_, hc, hw, ?_, fun sc0 lib st hok => StartCapture_stream sc0 lib st hok⟩
  · intro B hB
    rw [hst]
    exact ⟨mapLookup_delete_other _ _ _ hB, mapLookup_delete_other _ _ _ hB⟩
  · intro t
    rw [hw]
    cases hs : sc.stream with
    | none => simp [closeTracksOpt]
    | some st => simp [closeTracksOpt, closeTracks]

/-- Witness of C23 amended: hanging up session A of `handlerTwo` while the
capture service holds the stream of session B. -/
theorem hangup_shared_capture_witness :
    (∀ B, B ≠ 5 →
        mapLookup (HandleHangup engineOK parseWords handlerTwo serviceTwo "five").h.peerConnections
            B = mapLookup handlerTwo.peerConnections B ∧
          mapLookup (HandleHangup engineOK parseWords handlerTwo serviceTwo "five").h.iceCandidates
            B = mapLookup handlerTwo.iceCandidates B) ∧
      (HandleHangup engineOK parseWords handlerTwo serviceTwo "five").calls =
        [Call.deletePeerConnection 5, Call.deleteCandidates 5, Call.Close 3 none,
          Call.screenStopCapture] :=
  have hw := hangup_shared_capture engineOK parseWords handlerTwo serviceTwo captureAfterAB
    "five" 5 3 rfl rfl
  ⟨hw.1, hw.2.1⟩

/-- C24: a session that started a separate audio capture (a video-only screen
stream, `audioCapture.StartCapture` succeeding) is hung up without
`audioCapture.StopCapture` being invoked, `HandleHangup` handing no audio
stream to `cleanup`; the teardown after a setup failure of the same
negotiation invokes it once, and so does the teardown after a setup failure
with audio bundled in the screen stream, where no separate audio capture was
started. -/
theorem hangup_never_stops_audio :
    (HandleOffer engineOK envNine handlerOne serviceOne offerBody).resp.code = 200 ∧
      (HandleOffer engineOK envNine handlerOne serviceOne offerBody).resp.peerConnectionID =
        some 9 ∧
      Call.audioStartCapture none ∈
        (HandleOffer engineOK envNine handlerOne serviceOne offerBody).calls ∧
      (HandleHangup engineOK parseWords
        (HandleOffer engineOK envNine handlerOne serviceOne offerBody).h
        (HandleOffer engineOK envNine handlerOne serviceOne offerBody).s "nine").calls =
        [Call.deletePeerConnection 9, Call.deleteCandidates 9, Call.Close 7 none,
          Call.screenStopCapture] ∧
      (HandleHangup engineOK parseWords
        (HandleOffer engineOK envNine handlerOne serviceOne offerBody).h
        (HandleOffer engineOK envNine handlerOne serviceOne offerBody).s "nine").calls.count
        Call.audioStopCapture = 0 ∧
      (HandleOffer engineNoCommit envNine handlerOne serviceOne offerBody).calls.count
        Call.audioStopCapture = 1 ∧
      (HandleOffer engineNoCommit envBundled handlerOne serviceOne offerBody).calls.countP
        Call.isAudioStart = 0 ∧
      (HandleOffer engineNoCommit envBundled handlerOne serviceOne offerBody).calls.count
        Call.audioStopCapture = 1 := by
  decide

end Vibeemeet
